import Mathlib

/-!
# SPPM hit-point store and hash grid (LuxRender): embedding and verified properties

Shallow embedding of

* `src/renderers/sppm/hitpoints.cpp` (`HitPoints::AccumulateFlux`, the work
  partition shared with `HitPoints::SetHitPoints`, `HitPoints::GetPhotonHitEfficency`,
  `HitPoints::UpdateFilm`, `HitPoints::Init`), and
* `src/renderers/hybridsppm/hashgrid.cpp` (`HashGrid::RefreshMutex`,
  `HashGrid::AddFlux`).

Conventions of the embedding:

* `float` / `double` values are exact rationals (`ℚ`): no rounding, no NaN, no
  infinities.  Where a method returns a quotient whose divisor can be zero, or computes with
  the infinite corners of an empty box, the value is an `Option` and `none` stands for the
  result that is not a finite number.
* The build and the lookup of the hash grid are embedded a second time with every `float`
  operation rounded and `abs` computed on 32-bit integers (`RefreshMutex32`,
  `lookupCell32`), for the properties that depend on either.
* `unsigned int` and `unsigned long long` locals are naturals reduced modulo
  `2^32` / `2^64` at every operation the source performs on them.
* Counters stored in hit points are naturals: their declarations (`hitpoints.h`)
  are not among the sources, so no width is imposed on them.
* Pointers to hit points are indices into the hit-point array.
-/

namespace lux

/-! ## Machine words -/

/-- Number of values of an `unsigned int` (`u_int`). -/
def UINT_MOD : Nat := 4294967296

/-- Number of values of an `unsigned long long`. -/
def ULLONG_MOD : Nat := 18446744073709551616

/-! ## Geometry and colour values -/

/-- A `Vector` of the geometry library: three `float` components. -/
structure Vector where
  x : ℚ
  y : ℚ
  z : ℚ
  deriving DecidableEq

/-- A `Point` of the geometry library: three `float` components. -/
structure Point where
  x : ℚ
  y : ℚ
  z : ℚ
  deriving DecidableEq

/-- A `Normal` of the geometry library: three `float` components. -/
structure Normal where
  x : ℚ
  y : ℚ
  z : ℚ
  deriving DecidableEq

/-- Value of `Point - Vector` (a `Point`). -/
def Point.subVector (p : Point) (v : Vector) : Point := ⟨p.x - v.x, p.y - v.y, p.z - v.z⟩

/-- Value of `Point + Vector` (a `Point`). -/
def Point.addVector (p : Point) (v : Vector) : Point := ⟨p.x + v.x, p.y + v.y, p.z + v.z⟩

/-- Value of `Point - Point` (a `Vector`). -/
def Point.sub (p q : Point) : Vector := ⟨p.x - q.x, p.y - q.y, p.z - q.z⟩

/-- Value of `Vector * float`. -/
def Vector.scale (v : Vector) (f : ℚ) : Vector := ⟨v.x * f, v.y * f, v.z * f⟩

/-- Modelled from the spec: `DistanceSquared` belongs to the geometry library, which is not
among the sources; it is the "squared distance to the hit point's stored position". -/
def DistanceSquared (p q : Point) : ℚ :=
  (p.x - q.x) * (p.x - q.x) + (p.y - q.y) * (p.y - q.y) + (p.z - q.z) * (p.z - q.z)

/-- Modelled from the spec: `Dot` belongs to the geometry library, which is not among the
sources; it is the (unnormalised) "cosine between the hit point's normal and the incoming
direction". -/
def Dot (n : Normal) (v : Vector) : ℚ := n.x * v.x + n.y * v.y + n.z * v.z

/-- The conversion `int(x)` of a `float`: truncation toward zero (the value is assumed to
fit in an `int`). -/
def toInt (x : ℚ) : Int := if 0 ≤ x then ⌊x⌋ else ⌈x⌉

/-- An `XYZColor`: the three channels `c[0..2]`. -/
structure XYZColor where
  c0 : ℚ
  c1 : ℚ
  c2 : ℚ
  deriving DecidableEq

/-- The colour `XYZColor()`, also the value assigned by `= 0.f`: all channels zero. -/
def XYZColor.zero : XYZColor := ⟨0, 0, 0⟩

/-- Channel-wise `XYZColor + XYZColor`. -/
def XYZColor.add (a b : XYZColor) : XYZColor := ⟨a.c0 + b.c0, a.c1 + b.c1, a.c2 + b.c2⟩

/-- Product `float * XYZColor`. -/
def XYZColor.scaleLeft (f : ℚ) (a : XYZColor) : XYZColor := ⟨f * a.c0, f * a.c1, f * a.c2⟩

/-- Product `XYZColor * float`. -/
def XYZColor.scale (a : XYZColor) (f : ℚ) : XYZColor := ⟨a.c0 * f, a.c1 * f, a.c2 * f⟩

/-- An `SWCSpectrum`, represented by one of its wavelength channels: every operation the
embedded code applies to spectra (`+`, `*`) acts channel by channel. -/
abbrev SWCSpectrum := ℚ

/-- The two hit-point types. -/
inductive HitPointType where
  | SURFACE
  | CONSTANT_COLOR
  deriving DecidableEq

/-! ## `renderers/sppm/hitpoints.cpp`: data model -/

/-- One slot of the eye-pass double buffer (`HitPointEyePass`); `distance = none` stands for
`INFINITY`. -/
structure HitPointEyePass where
  type : HitPointType
  position : Point
  wo : Vector
  bsdfNG : Normal
  pathThroughput : SWCSpectrum
  alpha : ℚ
  distance : Option ℚ
  deriving DecidableEq

/-- Per-light-group data of a hit point (`lightGroupData[j]`). -/
structure HitPointLightGroup where
  photonCount : Nat
  reflectedFlux : XYZColor
  accumPhotonCount : Nat
  accumReflectedFlux : XYZColor
  accumRadiance : XYZColor
  deriving DecidableEq

/-- A hit point of the SPPM renderer.  `lightGroupData` has one entry per light group (the
constructor resizes it to `lightGroupsNumber`), so the loops `j < lightGroupsNumber` of the
source run over the whole list.  The Halton sampler state is not represented. -/
structure HitPoint where
  eyePass0 : HitPointEyePass
  eyePass1 : HitPointEyePass
  accumPhotonRadius2 : ℚ
  lightGroupData : List HitPointLightGroup
  deriving DecidableEq

/-- The slot `hp->eyePass[passIndex]`, for `passIndex = pass % 2`. -/
def HitPoint.eyePass (hp : HitPoint) (passIndex : Nat) : HitPointEyePass :=
  if passIndex = 0 then hp.eyePass0 else hp.eyePass1

/-- The state of `HitPoints` read or written by the embedded methods; `photonAlpha` is
`renderer->sppmi->photonAlpha`. -/
structure HitPoints where
  hitPoints : List HitPoint
  currentEyePass : Nat
  currentPhotonPass : Nat
  photonAlpha : ℚ

namespace HitPoints

/-! ### Work partition (`AccumulateFlux` lines 177-179, `SetHitPoints` lines 226-228) -/

/-- Local `const unsigned int workSize = hitPoints->size() / count;`. -/
def workSize (size count : Nat) : Nat := (size / count) % UINT_MOD

/-- Local `const unsigned int first = workSize * index;`. -/
def first (size index count : Nat) : Nat := (workSize size count * index) % UINT_MOD

/-- Local `const unsigned int last = (index == count - 1) ? hitPoints->size() :
(first + workSize);`, with `count - 1` and `first + workSize` evaluated in `unsigned int`. -/
def last (size index count : Nat) : Nat :=
  if index = (count + UINT_MOD - 1) % UINT_MOD then size % UINT_MOD
  else (first size index count + workSize size count) % UINT_MOD

/-! ### `AccumulateFlux` -/

/-- Local `photonCount` after the loop of lines 196-202: the 64-bit sum of the settled
counts. -/
def sumPhotonCount (lgd : List HitPointLightGroup) : Nat :=
  lgd.foldl (fun s d => (s + d.photonCount) % ULLONG_MOD) 0

/-- Local `accumPhotonCount` after the loop of lines 196-202: the 64-bit sum of the in-flight
counts. -/
def sumAccumPhotonCount (lgd : List HitPointLightGroup) : Nat :=
  lgd.foldl (fun s d => (s + d.accumPhotonCount) % ULLONG_MOD) 0

/-- Effect of lines 200-201 on one light group: `photonCount += accumPhotonCount;
accumPhotonCount = 0;`. -/
def mergeCounts (d : HitPointLightGroup) : HitPointLightGroup :=
  { d with photonCount := d.photonCount + d.accumPhotonCount, accumPhotonCount := 0 }

/-- Lines 205-207: `pcount = photonCount + accumPhotonCount` (64-bit) and
`g = alpha * pcount / (photonCount * alpha + accumPhotonCount)`. -/
def reductionFactor (alpha : ℚ) (photonCount accumPhotonCount : Nat) : ℚ :=
  let pcount : Nat := (photonCount + accumPhotonCount) % ULLONG_MOD
  alpha * (pcount : ℚ) / ((photonCount : ℚ) * alpha + (accumPhotonCount : ℚ))

/-- Effect of lines 214-217 on one light group: `reflectedFlux = (reflectedFlux +
fluxScale * accumReflectedFlux) * g; accumReflectedFlux = 0.f;`. -/
def mergeFlux (fluxScale g : ℚ) (d : HitPointLightGroup) : HitPointLightGroup :=
  { d with
    reflectedFlux :=
      XYZColor.scale (XYZColor.add d.reflectedFlux (XYZColor.scaleLeft fluxScale d.accumReflectedFlux)) g
    accumReflectedFlux := XYZColor.zero }

/-- Lines 193-219: the branch taken for a hit point whose active slot is `SURFACE`. -/
def accumulateSurface (alpha fluxScale : ℚ) (hp : HitPoint) : HitPoint :=
  let photonCount := sumPhotonCount hp.lightGroupData
  let accumPhotonCount := sumAccumPhotonCount hp.lightGroupData
  let merged := hp.lightGroupData.map mergeCounts
  if accumPhotonCount > 0 then
    let g := reductionFactor alpha photonCount accumPhotonCount
    { hp with
      accumPhotonRadius2 := hp.accumPhotonRadius2 * g
      lightGroupData := merged.map (mergeFlux fluxScale g) }
  else
    { hp with lightGroupData := merged }

/-- Lines 189-221: the body of the loop over hit points.  A `CONSTANT_COLOR` hit point only
meets the assertion and is left as it is. -/
def accumulateHitPoint (alpha fluxScale : ℚ) (passIndex : Nat) (hp : HitPoint) : HitPoint :=
  if (hp.eyePass passIndex).type = HitPointType.SURFACE then
    accumulateSurface alpha fluxScale hp
  else hp

/-- Method `HitPoints::AccumulateFlux(fluxScale, index, count)`: the loop
`for (u_int i = first; i < last; ++i)` applied to the hit-point array. -/
def AccumulateFlux (hps : HitPoints) (fluxScale : ℚ) (index count : Nat) : HitPoints :=
  let first := first hps.hitPoints.length index count
  let last := last hps.hitPoints.length index count
  let passIndex := hps.currentPhotonPass % 2
  { hps with
    hitPoints :=
      (List.range' first (last - first)).foldl
        (fun l i => l.modify (accumulateHitPoint hps.photonAlpha fluxScale passIndex) i)
        hps.hitPoints }

end HitPoints

/-! ## `renderers/hybridsppm/hashgrid.cpp`: data model -/

namespace hybridsppm

/-- A bounding box: its two corners. -/
structure BBox where
  pMin : Point
  pMax : Point
  deriving DecidableEq

/-- The point `p` lies in the box (`BBox::Inside`). -/
def BBox.Inside (b : BBox) (p : Point) : Prop :=
  (b.pMin.x ≤ p.x ∧ p.x ≤ b.pMax.x) ∧ (b.pMin.y ≤ p.y ∧ p.y ≤ b.pMax.y) ∧
    (b.pMin.z ≤ p.z ∧ p.z ≤ b.pMax.z)

/-- The hit point of the hybrid renderer as `hashgrid.cpp` uses it: `bsdf` identifies the
BSDF object the hit point refers to. -/
structure HitPoint where
  type : HitPointType
  position : Point
  normal : Normal
  wo : Vector
  bsdf : Nat
  throughput : SWCSpectrum
  accumPhotonRadius2 : ℚ
  accumPhotonCount : Nat
  accumReflectedFlux : SWCSpectrum
  deriving DecidableEq

/-- What `hashgrid.cpp` reads from the store: `GetHitPoint(i)` / `GetSize()`, `GetBBox()` and
`GetMaxPhotonRaidus2()`. -/
structure HitPoints where
  hitPoints : List HitPoint
  bbox : BBox
  maxPhotonRadius2 : ℚ

/-- The array `grid` of bucket pointers: `none` is a `NULL` bucket, and a bucket lists the
indices of the hit points it refers to, front first. -/
abbrev Grid := Nat → Option (List Nat)

/-- The fields of a `HashGrid`; `grid = none` is the `NULL` array of a grid that has never
been built. -/
structure HashGrid where
  gridSize : Nat
  invCellSize : ℚ
  grid : Option Grid

namespace HashGrid

/-- Lines 89-93: `if (grid[hv] == NULL) grid[hv] = new list; grid[hv]->push_front(hp);
++entryCount;` on the pair (grid, `entryCount`); `entryCount` is an `unsigned long long`. -/
def pushFront (st : Grid × Nat) (hv : Nat) (hp : Nat) : Grid × Nat :=
  (fun k => if k = hv then some (hp :: (st.1 k).getD []) else st.1 k,
   (st.2 + 1) % ULLONG_MOD)

/-- The cell coordinate `abs(int(x))` of a scaled offset `x`. -/
def cellIndex (x : ℚ) : Nat := (toInt x).natAbs

/-- The values taken by `i` in `for (int i = abs(int(lo)); i <= abs(int(hi)); i++)`. -/
def cellRange (lo hi : ℚ) : List Nat :=
  List.range' (cellIndex lo) (cellIndex hi + 1 - cellIndex lo)

/-- Lines 79-100: registration of the `SURFACE` hit point with index `i` in every cell of
its extent.  `sqrtf` is the C library function and `Hash` the cell hash declared in
`lookupaccel.h`; neither is among the sources, both are parameters. -/
def insertHitPoint (sqrtf : ℚ → ℚ) (Hash : Int → Int → Int → Nat) (pMin : Point)
    (invCellSize : ℚ) (i : Nat) (hp : HitPoint) (st : Grid × Nat) : Grid × Nat :=
  let photonRadius := sqrtf hp.accumPhotonRadius2
  let rad : Vector := ⟨photonRadius, photonRadius, photonRadius⟩
  let bMin := ((hp.position.subVector rad).sub pMin).scale invCellSize
  let bMax := ((hp.position.addVector rad).sub pMin).scale invCellSize
  (cellRange bMin.z bMax.z).foldl (fun (st : Grid × Nat) (iz : Nat) =>
    (cellRange bMin.y bMax.y).foldl (fun (st : Grid × Nat) (iy : Nat) =>
      (cellRange bMin.x bMax.x).foldl (fun (st : Grid × Nat) (ix : Nat) =>
        pushFront st (Hash (ix : Int) (iy : Int) (iz : Int)) i) st) st) st

/-- Lines 76-101: the body of the loop over hit points. -/
def visitHitPoint (sqrtf : ℚ → ℚ) (Hash : Int → Int → Int → Nat) (hps : HitPoints)
    (invCellSize : ℚ) (st : Grid × Nat) (i : Nat) : Grid × Nat :=
  match hps.hitPoints[i]? with
  | some hp =>
    if hp.type = HitPointType.SURFACE then
      insertHitPoint sqrtf Hash hps.bbox.pMin invCellSize i hp st
    else st
  | none => st

/-- Lines 52-63: a fresh array of `NULL` buckets, or the old array with its first `gridSize`
buckets deleted. -/
def clearGrid (gridSize : Nat) (old : Option Grid) : Grid :=
  match old with
  | none => fun _ => none
  | some g => fun k => if k < gridSize then none else g k

/-- Method `HashGrid::RefreshMutex()`: the rebuilt grid together with the final
`entryCount`. -/
def RefreshMutex (sqrtf : ℚ → ℚ) (Hash : Int → Int → Int → Nat) (self : HashGrid)
    (hps : HitPoints) : HashGrid × Nat :=
  let hitPointsCount := hps.hitPoints.length % UINT_MOD
  let cellSize := sqrtf hps.maxPhotonRadius2 * 2
  let invCellSize := 1 / cellSize
  let gridSize := hitPointsCount
  let st := (List.range hitPointsCount).foldl
    (visitHitPoint sqrtf Hash hps invCellSize) (clearGrid gridSize self.grid, 0)
  ({ gridSize := gridSize, invCellSize := invCellSize, grid := some st.1 }, st.2)

/-- Constructor `HashGrid::HashGrid(hps)`: `grid = NULL`, then `RefreshMutex()`. -/
def new (sqrtf : ℚ → ℚ) (Hash : Int → Int → Int → Nat) (hps : HitPoints) : HashGrid :=
  (RefreshMutex sqrtf Hash { gridSize := 0, invCellSize := 0, grid := none } hps).1

/-- Lines 129-143: the body of the loop over the bucket, for one referenced hit point.  `F`
is `hp->bsdf->F(sw, wi, hp->wo, true)` as a function of the BSDF, `wi` and `wo`. -/
def addFluxHitPoint (F : Nat → Vector → Vector → SWCSpectrum) (hitPoint : Point)
    (wi : Vector) (photonFlux : SWCSpectrum) (hp : HitPoint) : HitPoint :=
  let dist2 := DistanceSquared hp.position hitPoint
  if dist2 > hp.accumPhotonRadius2 then hp
  else
    let dot := Dot hp.normal wi
    if dot ≤ (1 : ℚ) / 10000 then hp
    else
      { hp with
        accumPhotonCount := hp.accumPhotonCount + 1
        accumReflectedFlux :=
          hp.accumReflectedFlux + photonFlux * F hp.bsdf wi hp.wo * hp.throughput }

/-- The bucket `grid[Hash(ix, iy, iz)]` looked up by `AddFlux` for the photon position
`hitPoint` (lines 120-125); `none` when the bucket (or the whole array) is `NULL`. -/
def lookupBucket (Hash : Int → Int → Int → Nat) (self : HashGrid) (pMin : Point)
    (hitPoint : Point) : Option (List Nat) :=
  let hh := (hitPoint.sub pMin).scale self.invCellSize
  let ix := cellIndex hh.x
  let iy := cellIndex hh.y
  let iz := cellIndex hh.z
  match self.grid with
  | some g => g (Hash (ix : Int) (iy : Int) (iz : Int))
  | none => none

/-- Method `HashGrid::AddFlux(hitPoint, wi, sw, photonFlux)`, one call run to completion: the
hit-point array after every entry of the bucket has been visited in list order. -/
def AddFlux (Hash : Int → Int → Int → Nat) (F : Nat → Vector → Vector → SWCSpectrum)
    (self : HashGrid) (hps : HitPoints) (hitPoint : Point) (wi : Vector)
    (photonFlux : SWCSpectrum) : HitPoints :=
  match lookupBucket Hash self hps.bbox.pMin hitPoint with
  | some bucket =>
    { hps with
      hitPoints :=
        bucket.foldl (fun l k => l.modify (addFluxHitPoint F hitPoint wi photonFlux) k)
          hps.hitPoints }
  | none => hps

end HashGrid

end hybridsppm

end lux

namespace lux

namespace HitPoints

/-! ### Quantities the specification of `AccumulateFlux` is written with -/

/-- The settled photon count of a hit point summed over its light groups (`N`). -/
def totalPhotonCount (hp : HitPoint) : Nat :=
  (hp.lightGroupData.map (fun d => d.photonCount)).sum

/-- The in-flight photon count of a hit point summed over its light groups (`M`). -/
def totalAccumPhotonCount (hp : HitPoint) : Nat :=
  (hp.lightGroupData.map (fun d => d.accumPhotonCount)).sum

/-- The radius-reduction factor as the specification writes it:
`g = alpha * (N + M) / (N * alpha + M)`. -/
def specReductionFactor (alpha : ℚ) (N M : Nat) : ℚ :=
  alpha * ((N : ℚ) + (M : ℚ)) / ((N : ℚ) * alpha + (M : ℚ))

/-! ### A small store used in the worked examples -/

/-- An eye-pass slot of type `SURFACE` at the origin. -/
def exampleSurfaceSlot : HitPointEyePass :=
  { type := HitPointType.SURFACE, position := ⟨0, 0, 0⟩, wo := ⟨0, 0, 1⟩, bsdfNG := ⟨0, 0, 1⟩,
    pathThroughput := 1, alpha := 1, distance := some 1 }

/-- A hit point with 3 settled photons, 1 photon in flight and radius² 1. -/
def exampleHitPoint : HitPoint :=
  { eyePass0 := exampleSurfaceSlot, eyePass1 := exampleSurfaceSlot, accumPhotonRadius2 := 1,
    lightGroupData :=
      [{ photonCount := 3, reflectedFlux := ⟨1, 1, 1⟩, accumPhotonCount := 1,
         accumReflectedFlux := ⟨2, 2, 2⟩, accumRadiance := ⟨0, 0, 0⟩ }] }

/-- A hit point that received no photon in the pass. -/
def exampleStagnantHitPoint : HitPoint :=
  { eyePass0 := exampleSurfaceSlot, eyePass1 := exampleSurfaceSlot, accumPhotonRadius2 := 1,
    lightGroupData :=
      [{ photonCount := 3, reflectedFlux := ⟨1, 1, 1⟩, accumPhotonCount := 0,
         accumReflectedFlux := ⟨0, 0, 0⟩, accumRadiance := ⟨0, 0, 0⟩ }] }

/-- A store of two hit points with `photonAlpha = 7/10`. -/
def exampleStore : HitPoints :=
  { hitPoints := [exampleHitPoint, exampleStagnantHitPoint], currentEyePass := 0,
    currentPhotonPass := 0, photonAlpha := 7 / 10 }

end HitPoints

end lux

namespace lux

namespace hybridsppm

/-! ### Quantities the specification of the hash grid is written with -/

/-- The lower corner of the extent of `hp`, in cell units, as `RefreshMutex` computes it
(`bMin`). -/
def extentMin (sqrtf : ℚ → ℚ) (pMin : Point) (invCellSize : ℚ) (hp : HitPoint) : Vector :=
  ((hp.position.subVector
      ⟨sqrtf hp.accumPhotonRadius2, sqrtf hp.accumPhotonRadius2, sqrtf hp.accumPhotonRadius2⟩).sub
    pMin).scale invCellSize

/-- The upper corner of the extent of `hp`, in cell units, as `RefreshMutex` computes it
(`bMax`). -/
def extentMax (sqrtf : ℚ → ℚ) (pMin : Point) (invCellSize : ℚ) (hp : HitPoint) : Vector :=
  ((hp.position.addVector
      ⟨sqrtf hp.accumPhotonRadius2, sqrtf hp.accumPhotonRadius2, sqrtf hp.accumPhotonRadius2⟩).sub
    pMin).scale invCellSize

/-! ### A small store used in the worked examples -/

/-- A square-root function used in the worked examples: the integer square root of the
argument rounded up; it is monotone, positive on positive arguments and exact on perfect
squares. -/
def exampleSqrt (x : ℚ) : ℚ := (Nat.sqrt ⌈x⌉₊ : ℚ)

/-- A cell hash used in the worked examples, for a grid of `gridSize` buckets. -/
def exampleHash (gridSize : Nat) (ix iy iz : Int) : Nat :=
  (ix * 73856093 + iy * 19349663 + iz * 83492791).natAbs % gridSize

/-- A BSDF response used in the worked examples. -/
def exampleF (_bsdf : Nat) (_wi _wo : Vector) : SWCSpectrum := 1 / 2

/-- A `SURFACE` hit point at the origin with radius² 1 and normal `(0, 0, 1)`. -/
def originHitPoint : HitPoint :=
  { type := HitPointType.SURFACE, position := ⟨0, 0, 0⟩, normal := ⟨0, 0, 1⟩, wo := ⟨0, 0, 1⟩,
    bsdf := 0, throughput := 1, accumPhotonRadius2 := 1, accumPhotonCount := 0,
    accumReflectedFlux := 0 }

/-- The store holding `originHitPoint` alone, with the bounding box of its position and
its radius² as maximum. -/
def originStore : HitPoints :=
  { hitPoints := [originHitPoint], bbox := ⟨⟨0, 0, 0⟩, ⟨0, 0, 0⟩⟩, maxPhotonRadius2 := 1 }

/-- The grid built over `originStore`. -/
def originGrid : HashGrid := HashGrid.new exampleSqrt (exampleHash 1) originStore

end hybridsppm

end lux

namespace lux

/-! ## Further values and loops used by `hitpoints.cpp` -/

/-- The constant `M_PI` of the C library: the `double` nearest to π. -/
def M_PI : ℚ := 884279719003555 / 281474976710656

/-- Channel-wise `XYZColor / float`. -/
def XYZColor.divide (a : XYZColor) (f : ℚ) : XYZColor := ⟨a.c0 / f, a.c1 / f, a.c2 / f⟩

/-- The quotient `a / b` of two `double`s as a returned value: `none` when the divisor is
zero, where the floating-point quotient is NaN (`0.0 / 0.0`) or an infinity and no rational
stands for it. -/
def fdiv (a b : ℚ) : Option ℚ := if b = 0 then none else some (a / b)

/-- A loop `for (i = start; ...; ++i)` over the elements of an array, threading a state:
`body i a s` is the state after the iteration on element `a` of index `i`. -/
def forIdx {α σ : Type} (body : Nat → α → σ → σ) : Nat → List α → σ → σ
  | _, [], s => s
  | i, a :: rest, s => forIdx body (i + 1) rest (body i a s)

/-- Modelled from the spec: `Union(BBox, Point)` belongs to the geometry library, which is
not among the sources; it yields the smallest box holding the box and the point ("aggregate
bounding box").  `none` is the empty box `BBox()`. -/
def unionPoint (b : Option hybridsppm.BBox) (p : Point) : Option hybridsppm.BBox :=
  match b with
  | none => some ⟨p, p⟩
  | some b =>
    some ⟨⟨min b.pMin.x p.x, min b.pMin.y p.y, min b.pMin.z p.z⟩,
      ⟨max b.pMax.x p.x, max b.pMax.y p.y, max b.pMax.z p.z⟩⟩

/-- Modelled from the spec: `BBox::Expand(delta)` belongs to the geometry library, which is
not among the sources; it moves every face outwards by `delta` ("expand the bounding box by
used radius"). -/
def expandBox (b : hybridsppm.BBox) (delta : ℚ) : hybridsppm.BBox :=
  ⟨⟨b.pMin.x - delta, b.pMin.y - delta, b.pMin.z - delta⟩,
    ⟨b.pMax.x + delta, b.pMax.y + delta, b.pMax.z + delta⟩⟩

/-- A `Contribution` handed to `film.SetSample`: the arguments of its constructor, in
order; `zdepth = none` stands for `INFINITY`. -/
structure Contribution where
  imageX : Int
  imageY : Int
  color : XYZColor
  alpha : ℚ
  zdepth : Option ℚ
  variance : ℚ
  buffer : Nat
  bufferGroup : Nat
  deriving DecidableEq

namespace HitPoints

/-! ### `GetPhotonHitEfficency` -/

/-- Local `u_int photonHitsCount` after the loop of lines 110-111. -/
def photonHitsCount (hp : HitPoint) : Nat :=
  hp.lightGroupData.foldl (fun s d => (s + d.accumPhotonCount) % UINT_MOD) 0

/-- Lines 106-118: the body of the loop over hit points, on the pair
(`surfaceHitPointsCount`, `hitPointsUpdatedCount`) of `u_int` counters. -/
def countHitPoint (passIndex : Nat) (c : Nat × Nat) (hp : HitPoint) : Nat × Nat :=
  if (hp.eyePass passIndex).type = HitPointType.SURFACE then
    ((c.1 + 1) % UINT_MOD, if photonHitsCount hp > 0 then (c.2 + 1) % UINT_MOD else c.2)
  else c

/-- Method `HitPoints::GetPhotonHitEfficency()`: the value of
`100.0 * hitPointsUpdatedCount / surfaceHitPointsCount`. -/
def GetPhotonHitEfficency (hps : HitPoints) : Option ℚ :=
  let passIndex := hps.currentPhotonPass % 2
  let counts := hps.hitPoints.foldl (countHitPoint passIndex) (0, 0)
  fdiv (100 * (counts.2 : ℚ)) (counts.1 : ℚ)

/-! ### `UpdateFilm` -/

/-- Lines 538-542: `k = 1.f / (M_PI * accumPhotonRadius2 * totalPhotons)` and
`newRadiance = accumRadiance / (currentPhotonPass + 1) + reflectedFlux * k`. -/
def newRadiance (currentPhotonPass : Nat) (accumPhotonRadius2 : ℚ) (totalPhotons : Nat)
    (d : HitPointLightGroup) : XYZColor :=
  let k : ℚ := 1 / (M_PI * accumPhotonRadius2 * (totalPhotons : ℚ))
  XYZColor.add (XYZColor.divide d.accumRadiance ((currentPhotonPass + 1 : Nat) : ℚ))
    (XYZColor.scale d.reflectedFlux k)

/-- Lines 531-554: the body of the loop over hit points; `film` lists the contributions
passed to `film.SetSample` so far, oldest first.  `GetNextPixel` is the pixel sampler's
`index → (x, y)` map. -/
def updateFilmHitPoint (GetNextPixel : Nat → Int × Int) (bufferId : Nat)
    (currentPhotonPass totalPhotons : Nat) (i : Nat) (hp : HitPoint)
    (film : List Contribution) : List Contribution :=
  let hpep := hp.eyePass (currentPhotonPass % 2)
  let pos := GetNextPixel i
  forIdx (fun (j : Nat) (d : HitPointLightGroup) (film : List Contribution) =>
    film ++ [{ imageX := pos.1, imageY := pos.2,
               color := newRadiance currentPhotonPass hp.accumPhotonRadius2 totalPhotons d,
               alpha := hpep.alpha, zdepth := hpep.distance, variance := 0,
               buffer := bufferId, bufferGroup := j }]) 0 hp.lightGroupData film

/-- Lines 560-574: the number of calls of `renderer->Terminate()` made by the halt checks,
for the reported `passCount` and `secsElapsed` and the film's `haltSamplesPerPixel` and
`haltTime`. -/
def haltCheck (passCount hltSpp secsElapsed hltTime : Int) : Nat :=
  (if hltSpp > 0 then (if passCount = hltSpp then 1 else 0) else 0) +
    (if hltTime > 0 then (if secsElapsed > hltTime then 1 else 0) else 0)

/-- What a call of `UpdateFilm` does to its collaborators: the contributions passed to
`film.SetSample`, in order, and the number of calls of `renderer->Terminate()`. -/
structure UpdateFilmEffect where
  film : List Contribution
  terminateCalls : Nat

/-- Method `HitPoints::UpdateFilm(totalPhotons)`.  `passCount` and `secsElapsed` are the
values of `luxStatistics("pass")` and `luxStatistics("secElapsed")` converted to `int`,
`hltSpp` and `hltTime` the film's `haltSamplesPerPixel` and `haltTime`. -/
def UpdateFilm (GetNextPixel : Nat → Int × Int) (bufferId : Nat)
    (passCount hltSpp secsElapsed hltTime : Int) (hps : HitPoints) (totalPhotons : Nat) :
    UpdateFilmEffect :=
  { film := forIdx (updateFilmHitPoint GetNextPixel bufferId hps.currentPhotonPass totalPhotons)
      0 hps.hitPoints []
    terminateCalls := haltCheck passCount hltSpp secsElapsed hltTime }

/-! ### `Init` -/

/-- The members of `HitPoints` written by `Init`. -/
structure InitState where
  hitPoints : List HitPoint
  initialPhotonRadius : ℚ
  hitPointBBox0 : hybridsppm.BBox
  maxHitPointRadius2_0 : ℚ

/-- Lines 126-133: the box `hpBBox` after the loop over the hit points. -/
def initBBox (hitPoints : List HitPoint) : Option hybridsppm.BBox :=
  hitPoints.foldl (fun (b : Option hybridsppm.BBox) (hp : HitPoint) =>
    if (hp.eyePass 0).type = HitPointType.SURFACE then unionPoint b (hp.eyePass 0).position
    else b) none

/-- Method `HitPoints::Init()`, up to the allocation of the lookup accelerators.
`photonStartRadiusScale` is `renderer->sppmi->photonStartRadiusScale`, `totalPixels` is
`pixelSampler->GetTotalPixels()` and `sqrtf` the C library function.  The result is `none`
when no hit point is `SURFACE`: `hpBBox` is then the empty box, whose corners are infinite,
and the radius computed from it is not a finite number. -/
def Init (sqrtf : ℚ → ℚ) (photonStartRadiusScale : ℚ) (totalPixels : Nat) (hps : HitPoints) :
    Option InitState :=
  match initBBox hps.hitPoints with
  | none => none
  | some hpBBox =>
    let ssize := hpBBox.pMax.sub hpBBox.pMin
    let initialPhotonRadius :=
      photonStartRadiusScale * ((ssize.x + ssize.y + ssize.z) / 3) /
        sqrtf (totalPixels : ℚ) * 2
    let photonRadius2 := initialPhotonRadius * initialPhotonRadius
    some
      { hitPoints := hps.hitPoints.map (fun hp => { hp with accumPhotonRadius2 := photonRadius2 })
        initialPhotonRadius := initialPhotonRadius
        hitPointBBox0 := expandBox hpBBox initialPhotonRadius
        maxHitPointRadius2_0 := photonRadius2 }

/-! ### Quantities the specification of these methods is written with -/

/-- The `SURFACE` hit points of the active slot. -/
def surfaceHitPoints (hps : HitPoints) : List HitPoint :=
  hps.hitPoints.filter
    (fun hp => decide ((hp.eyePass (hps.currentPhotonPass % 2)).type = HitPointType.SURFACE))

/-- The `SURFACE` hit points of the active slot that received at least one photon. -/
def updatedHitPoints (hps : HitPoints) : List HitPoint :=
  (surfaceHitPoints hps).filter (fun hp => decide (0 < totalAccumPhotonCount hp))

/-- The positions of the hit points that are `SURFACE` in eye-pass slot 0. -/
def surfacePositions0 (hitPoints : List HitPoint) : List Point :=
  (hitPoints.filter (fun hp => decide ((hp.eyePass 0).type = HitPointType.SURFACE))).map
    (fun hp => (hp.eyePass 0).position)

/-- The box `b` is the bounding box of the points `ps`: it holds all of them and each of its
faces touches one. -/
def IsBoundingBox (ps : List Point) (b : hybridsppm.BBox) : Prop :=
  (∀ p ∈ ps, b.Inside p) ∧
    (∃ p ∈ ps, p.x = b.pMin.x) ∧ (∃ p ∈ ps, p.y = b.pMin.y) ∧ (∃ p ∈ ps, p.z = b.pMin.z) ∧
    (∃ p ∈ ps, p.x = b.pMax.x) ∧ (∃ p ∈ ps, p.y = b.pMax.y) ∧ (∃ p ∈ ps, p.z = b.pMax.z)

/-! ### Stores used in the worked examples -/

/-- An eye-pass slot of type `CONSTANT_COLOR`. -/
def exampleConstantSlot : HitPointEyePass :=
  { type := HitPointType.CONSTANT_COLOR, position := ⟨0, 0, 0⟩, wo := ⟨0, 0, 1⟩,
    bsdfNG := ⟨0, 0, 1⟩, pathThroughput := 1, alpha := 0, distance := none }

/-- A hit point whose eye path escaped the scene. -/
def exampleConstantHitPoint : HitPoint :=
  { eyePass0 := exampleConstantSlot, eyePass1 := exampleConstantSlot, accumPhotonRadius2 := 1,
    lightGroupData :=
      [{ photonCount := 0, reflectedFlux := ⟨0, 0, 0⟩, accumPhotonCount := 0,
         accumReflectedFlux := ⟨0, 0, 0⟩, accumRadiance := ⟨1, 1, 1⟩ }] }

/-- A store whose only hit point is `CONSTANT_COLOR`. -/
def exampleConstantStore : HitPoints :=
  { hitPoints := [exampleConstantHitPoint], currentEyePass := 0, currentPhotonPass := 0,
    photonAlpha := 7 / 10 }

/-- A store with no hit point. -/
def exampleEmptyStore : HitPoints :=
  { hitPoints := [], currentEyePass := 0, currentPhotonPass := 0, photonAlpha := 7 / 10 }

/-- A `SURFACE` hit point whose slot-0 position is `(3, 6, 0)`. -/
def exampleFarHitPoint : HitPoint :=
  { exampleHitPoint with eyePass0 := { exampleSurfaceSlot with position := ⟨3, 6, 0⟩ } }

/-- A store of four hit points before `Init`: two `SURFACE` ones, at the origin and at
`(3, 6, 0)`, and two `CONSTANT_COLOR` ones. -/
def exampleInitStore : HitPoints :=
  { hitPoints := [exampleHitPoint, exampleConstantHitPoint, exampleFarHitPoint,
      exampleConstantHitPoint],
    currentEyePass := 0, currentPhotonPass := 0, photonAlpha := 7 / 10 }

/-- A pixel map used in the worked examples: hit point `i` is pixel `(i, 0)`. -/
def exampleGetNextPixel (i : Nat) : Int × Int := ((i : Int), 0)

end HitPoints

end lux

namespace lux

namespace hybridsppm

/-- The bucket `grid[k]` of a grid; `none` when the bucket, or the whole array, is `NULL`. -/
def HashGrid.bucket (self : HashGrid) (k : Nat) : Option (List Nat) :=
  match self.grid with
  | some g => g k
  | none => none

/-- The index `i` refers to a `SURFACE` hit point of the store. -/
def IsSurface (hps : HitPoints) (i : Nat) : Prop :=
  ∃ hp, hps.hitPoints[i]? = some hp ∧ hp.type = HitPointType.SURFACE

/-- Below `n`, every reference held by the grid under construction is to a `SURFACE` hit
point. -/
def OnlySurface (hps : HitPoints) (n : Nat) (st : Grid × Nat) : Prop :=
  ∀ k, k < n → ∀ l, st.1 k = some l → ∀ i ∈ l, IsSurface hps i

end hybridsppm

end lux

namespace lux

/-! ## `TraceEyePath` and `SetHitPoints` -/

/-- The bits of a `BxDFType` value, one field per flag. -/
structure BxDFType where
  reflection : Bool
  transmission : Bool
  diffuse : Bool
  glossy : Bool
  specular : Bool
  deriving DecidableEq

/-- The value `BSDF_TRANSMISSION | BSDF_SPECULAR`. -/
def BxDFType.transmissionSpecular : BxDFType :=
  { reflection := false, transmission := true, diffuse := false, glossy := false,
    specular := true }

/-- What a successful `bsdf->SampleF` hands back: the sampled direction `wi`, the value `f`,
the density `pdf` and the sampled `flags`. -/
structure BSDFSample where
  wi : Vector
  f : SWCSpectrum
  pdf : ℚ
  flags : BxDFType

/-- The test of line 431: `(flags & BSDF_DIFFUSE) || ((flags & BSDF_GLOSSY) && (pdf < 100.f))`. -/
def BSDFSample.isGather (s : BSDFSample) : Bool :=
  s.flags.diffuse || (s.flags.glossy && decide (s.pdf < 100))

/-- The results of the external services (scene intersection, volume integrator, lights,
BSDF) at one vertex of an eye path, that is during one iteration of the loop of
`TraceEyePath`.  In-out arguments are functions of the value passed in. -/
structure VertexEvents where
  /-- Value returned by `scene.Intersect`. -/
  hit : Bool
  /-- Value left in `pathThroughput` by `scene.Intersect`. -/
  intersectThroughput : SWCSpectrum → SWCSpectrum
  /-- Value left in `spdf` by `scene.Intersect`. -/
  spdf : ℚ
  /-- Value left in `Lv` by `volumeIntegrator->Li`. -/
  Lv : SWCSpectrum
  /-- Light group returned by `volumeIntegrator->Li`. -/
  volumeGroup : Nat
  /-- Value left in `hpep->alpha` by `volumeIntegrator->Li`. -/
  volumeAlpha : ℚ → ℚ
  /-- For each light, its group and the value left in `Le` by `lights[i]->Le` when it returns
  true (`none` when it returns false), as a function of the initial `Le`. -/
  lightLe : List (Nat × (SWCSpectrum → Option SWCSpectrum))
  /-- Value of `ray.maxt * ray.d.Length()`. -/
  distance : ℚ
  /-- Group and emitted radiance `isect.Le(...)` of the area light hit, if any. -/
  areaLe : Option (Nat × SWCSpectrum)
  /-- Shading point `bsdf->dgShading.p`. -/
  p : Point
  /-- Geometric normal `bsdf->ng`. -/
  ng : Normal
  /-- Result of `bsdf->SampleF`; `none` when it returns false. -/
  sampleF : Option BSDFSample
  /-- Value of `bsdf->Pdf(sw, wi, wo, BSDF_TRANSMISSION | BSDF_SPECULAR)`. -/
  pdfTransmissionSpecular : ℚ

/-- What one call of `TraceEyePath` receives from its collaborators: the weight and the
direction of the camera ray (`camera->GenerateRay`) and the events at the successive
vertices, indexed by `pathLength`. -/
structure EyeSample where
  rayWeight : ℚ
  rayD : Vector
  events : Nat → VertexEvents

/-- The configuration read by `TraceEyePath`: `renderer->sppmi->maxEyePathDepth`,
`renderer->sppmi->includeEnvironment`, and the conversion `XYZColor(sw, ·)` of a spectrum. -/
structure EyeConfig where
  maxDepth : Nat
  includeEnvironment : Bool
  toXYZ : SWCSpectrum → XYZColor

/-- The variables of `TraceEyePath` that change along the path: the slot `*hpep` and the
light-group data of the hit point, and the locals `pathThroughput`, `L`, `ray.d` and
`vertexIndex`. -/
structure PathState where
  hpep : HitPointEyePass
  lightGroupData : List HitPointLightGroup
  pathThroughput : SWCSpectrum
  L : List SWCSpectrum
  rayD : Vector
  vertexIndex : Nat

/-- What an iteration of the loop of `TraceEyePath` ends with: a `return` or the next
iteration. -/
inductive StepOutcome where
  | done (ret : Bool) (st : PathState)
  | next (st : PathState)

/-- Value of `-v` for a `Vector`. -/
def Vector.neg (v : Vector) : Vector := ⟨-v.x, -v.y, -v.z⟩

/-- Value of `-n` for a `Normal`. -/
def Normal.neg (n : Normal) : Normal := ⟨-n.x, -n.y, -n.z⟩

namespace HitPoints

/-- The loop `for (j < lightGroupCount) hp->lightGroupData[j].accumRadiance +=
XYZColor(sw, L[j] * rayWeight);` that precedes every `return` of `TraceEyePath`. -/
def addRadiance (toXYZ : SWCSpectrum → XYZColor) (rayWeight : ℚ) (L : List SWCSpectrum)
    (lgd : List HitPointLightGroup) : List HitPointLightGroup :=
  List.zipWith
    (fun (d : HitPointLightGroup) (Lj : SWCSpectrum) =>
      { d with accumRadiance := XYZColor.add d.accumRadiance (toXYZ (Lj * rayWeight)) })
    lgd L

/-- Lines 360-364 and 392-396: `if (!Lv.Black()) { Lv *= prevThroughput; L[g] += Lv; }`. -/
def addVolumeRadiance (ev : VertexEvents) (prevThroughput : SWCSpectrum)
    (L : List SWCSpectrum) : List SWCSpectrum :=
  if ev.Lv = 0 then L else L.modify (fun x => x + ev.Lv * prevThroughput) ev.volumeGroup

/-- Lines 370-374: the loop over the lights when the ray escapes. -/
def addLightRadiance (ev : VertexEvents) (pathThroughput : SWCSpectrum)
    (L : List SWCSpectrum) : List SWCSpectrum :=
  ev.lightLe.foldl
    (fun (L : List SWCSpectrum) (light : Nat × (SWCSpectrum → Option SWCSpectrum)) =>
      match light.2 pathThroughput with
      | some Le => L.modify (fun x => x + Le) light.1
      | none => L)
    L

/-- Lines 400-407: emitted light at the path vertex. -/
def addAreaRadiance (ev : VertexEvents) (pathThroughput : SWCSpectrum)
    (L : List SWCSpectrum) : List SWCSpectrum :=
  match ev.areaLe with
  | some (group, Le) => if Le = 0 then L else L.modify (fun x => x + Le * pathThroughput) group
  | none => L

/-- Lines 337-458: one iteration of the loop of `TraceEyePath`, at path length
`pathLength`, with the events `ev` of that vertex.  The quotient `pathThroughput /= spdf` is
the quotient of rationals; a zero `spdf`, for which the quotient of floats is not a finite
number, makes it 0 here. -/
def traceStep (cfg : EyeConfig) (rayWeight : ℚ) (ev : VertexEvents) (pathLength : Nat)
    (st : PathState) : StepOutcome :=
  let prevThroughput := st.pathThroughput
  if ev.hit = false then
    -- no intersection: lines 357-384
    let pathThroughput := ev.intersectThroughput st.pathThroughput / ev.spdf
    let alpha := ev.volumeAlpha st.hpep.alpha
    let L1 := addVolumeRadiance ev prevThroughput st.L
    let L2 :=
      if cfg.includeEnvironment || decide (st.vertexIndex > 0) then
        addLightRadiance ev pathThroughput L1
      else L1
    let alpha2 := if st.vertexIndex = 0 then 0 else alpha
    StepOutcome.done true
      { st with
        hpep := { st.hpep with alpha := alpha2, type := HitPointType.CONSTANT_COLOR }
        lightGroupData := addRadiance cfg.toXYZ rayWeight L2 st.lightGroupData
        pathThroughput := pathThroughput
        L := L2 }
  else
    let pathThroughput := ev.intersectThroughput st.pathThroughput / ev.spdf
    let distance := if st.vertexIndex = 0 then some ev.distance else st.hpep.distance
    let alpha := ev.volumeAlpha st.hpep.alpha
    let L1 := addVolumeRadiance ev prevThroughput st.L
    let wo := st.rayD.neg
    let L2 := addAreaRadiance ev pathThroughput L1
    let hpep1 := { st.hpep with alpha := alpha, distance := distance }
    if pathLength = cfg.maxDepth then
      -- lines 409-414
      StepOutcome.done true
        { st with
          hpep := { hpep1 with type := HitPointType.CONSTANT_COLOR }
          lightGroupData := addRadiance cfg.toXYZ rayWeight L2 st.lightGroupData
          pathThroughput := pathThroughput
          L := L2 }
    else
      match ev.sampleF with
      | none =>
        -- lines 423-429
        StepOutcome.done false
          { st with
            hpep := { hpep1 with type := HitPointType.CONSTANT_COLOR }
            lightGroupData := addRadiance cfg.toXYZ rayWeight L2 st.lightGroupData
            pathThroughput := pathThroughput
            L := L2 }
      | some s =>
        if s.isGather then
          -- lines 431-442
          StepOutcome.done true
            { st with
              hpep :=
                { hpep1 with
                  type := HitPointType.SURFACE
                  bsdfNG := if Dot ev.ng wo > 0 then ev.ng else ev.ng.neg
                  pathThroughput := pathThroughput * rayWeight
                  position := ev.p
                  wo := wo }
              lightGroupData := addRadiance cfg.toXYZ rayWeight L2 st.lightGroupData
              pathThroughput := pathThroughput
              L := L2 }
        else
          let vertexIndex :=
            if s.flags ≠ BxDFType.transmissionSpecular ∨ ¬ (ev.pdfTransmissionSpecular > 0) then
              (st.vertexIndex + 1) % UINT_MOD
            else st.vertexIndex
          let pathThroughput2 := pathThroughput * s.f
          if pathThroughput2 = 0 then
            -- lines 449-454
            StepOutcome.done true
              { st with
                hpep := { hpep1 with type := HitPointType.CONSTANT_COLOR }
                lightGroupData := addRadiance cfg.toXYZ rayWeight L2 st.lightGroupData
                pathThroughput := pathThroughput2
                L := L2
                vertexIndex := vertexIndex }
          else
            StepOutcome.next
              { st with
                hpep := hpep1
                pathThroughput := pathThroughput2
                L := L2
                rayD := s.wi
                vertexIndex := vertexIndex }

/-- What a call of `TraceEyePath` leaves behind: the returned value, the hit point, the
number of iterations of the loop (one vertex each) and the locals at the `return`. -/
structure TraceResult where
  ok : Bool
  hp : HitPoint
  vertices : Nat
  final : PathState

/-- The loop `for (u_int pathLength = 0; ; ++pathLength)` of `TraceEyePath`, run for at most
`fuel` iterations: the returned value, the number of iterations and the variables at the
`return`; `none` if no `return` is reached within `fuel` iterations. -/
def traceLoop (cfg : EyeConfig) (rayWeight : ℚ) (events : Nat → VertexEvents) :
    Nat → Nat → PathState → Option (Bool × Nat × PathState)
  | 0, _, _ => none
  | fuel + 1, pathLength, st =>
    match traceStep cfg rayWeight (events pathLength) pathLength st with
    | StepOutcome.done ret st1 => some (ret, pathLength + 1, st1)
    | StepOutcome.next st1 =>
      traceLoop cfg rayWeight events fuel ((pathLength + 1) % UINT_MOD) st1

/-- The hit point with its slot `eyePass[passIndex]` replaced. -/
def setEyePass (hp : HitPoint) (passIndex : Nat) (e : HitPointEyePass) : HitPoint :=
  if passIndex = 0 then { hp with eyePass0 := e } else { hp with eyePass1 := e }

/-- The variables of `TraceEyePath` on entry to its loop (lines 307-331). -/
def traceInit (passIndex : Nat) (sample : EyeSample) (hp : HitPoint) : PathState :=
  { hpep := { hp.eyePass passIndex with alpha := 1, distance := none }
    lightGroupData := hp.lightGroupData
    pathThroughput := 1
    L := List.replicate hp.lightGroupData.length 0
    rayD := sample.rayD
    vertexIndex := 0 }

/-- Method `HitPoints::TraceEyePath(hp, sample, u)` on the slot `passIndex =
currentEyePass % 2`, its loop given `maxDepth + 1` iterations. -/
def TraceEyePath (cfg : EyeConfig) (passIndex : Nat) (sample : EyeSample) (hp : HitPoint) :
    Option TraceResult :=
  match traceLoop cfg sample.rayWeight sample.events (cfg.maxDepth + 1) 0
      (traceInit passIndex sample hp) with
  | some (ret, n, st) =>
    some
      { ok := ret
        hp := { setEyePass hp passIndex st.hpep with lightGroupData := st.lightGroupData }
        vertices := n
        final := st }
  | none => none

/-- Lines 286-300: the loop `for (int j = 0; j < 9; ++j)` of retries, with `remaining`
iterations to go; attempt number `a` uses the sample `samples a`.  `calls` lists the values
returned by the calls of `TraceEyePath` made so far for the hit point. -/
def retryLoop (cfg : EyeConfig) (passIndex : Nat) (samples : Nat → EyeSample) :
    Nat → Nat → HitPoint → List Bool → Option (HitPoint × List Bool)
  | 0, _, hp, calls => some (hp, calls)
  | remaining + 1, a, hp, calls =>
    match TraceEyePath cfg passIndex (samples a) hp with
    | none => none
    | some r =>
      if r.ok then some (r.hp, calls ++ [true])
      else retryLoop cfg passIndex samples remaining (a + 1) r.hp (calls ++ [false])

/-- Lines 254-302: the body of the loop of `SetHitPoints` for one hit point: the hit point
afterwards and the values returned by the successive calls of `TraceEyePath`. -/
def setHitPoint (cfg : EyeConfig) (passIndex : Nat) (samples : Nat → EyeSample)
    (hp : HitPoint) : Option (HitPoint × List Bool) :=
  match TraceEyePath cfg passIndex (samples 0) hp with
  | none => none
  | some r =>
    if r.ok = false then retryLoop cfg passIndex samples 9 1 r.hp [false]
    else some (r.hp, [true])

/-- The loop `for (u_int i = first; i < last; ++i)` of `SetHitPoints` over the indices
`is`. -/
def setLoop (body : Nat → HitPoint → Option (HitPoint × List Bool)) :
    List Nat → List HitPoint → Option (List HitPoint)
  | [], l => some l
  | i :: is, l =>
    match l[i]? with
    | none => setLoop body is l
    | some hp =>
      match body i hp with
      | none => none
      | some r => setLoop body is (l.set i r.1)

/-- Method `HitPoints::SetHitPoints(rng, index, count)`; `samples i a` is the sample of
attempt `a` for hit point `i`. -/
def SetHitPoints (cfg : EyeConfig) (samples : Nat → Nat → EyeSample) (hps : HitPoints)
    (index count : Nat) : Option HitPoints :=
  let first := first hps.hitPoints.length index count
  let last := last hps.hitPoints.length index count
  match setLoop (fun i hp => setHitPoint cfg (hps.currentEyePass % 2) (samples i) hp)
      (List.range' first (last - first)) hps.hitPoints with
  | some l => some { hps with hitPoints := l }
  | none => none

end HitPoints

end lux

namespace lux

namespace HitPoints

/-! ### Quantities the specification of `TraceEyePath` is written with -/

/-- The direction of the ray that reaches vertex `k` of the eye path: the camera ray for
`k = 0`, and the direction `wi` sampled at vertex `k - 1` otherwise. -/
def rayDirAt (sample : EyeSample) : Nat → Vector
  | 0 => sample.rayD
  | k + 1 =>
    match (sample.events k).sampleF with
    | some s => s.wi
    | none => sample.rayD

/-- The path goes on after vertex `k`, as far as the tests on the sampled event go: the ray
found an intersection, the path length is below `maxEyePathDepth`, and `SampleF` succeeded
with flags that are neither diffuse nor glossy with a density below 100. -/
def PassesVertex (cfg : EyeConfig) (sample : EyeSample) (k : Nat) : Prop :=
  (sample.events k).hit = true ∧ k ≠ cfg.maxDepth ∧
    ∃ s, (sample.events k).sampleF = some s ∧ s.isGather = false

/-- Vertex `k` is a gather point: the ray found an intersection, the path length is below
`maxEyePathDepth`, and `SampleF` succeeded with flags that are diffuse, or glossy with a
density below 100. -/
def GatherVertex (cfg : EyeConfig) (sample : EyeSample) (k : Nat) : Prop :=
  (sample.events k).hit = true ∧ k ≠ cfg.maxDepth ∧
    ∃ s, (sample.events k).sampleF = some s ∧ s.isGather = true

/-- At vertex `k` the BSDF sampling failed: the ray found an intersection, the path length
is below `maxEyePathDepth`, and `SampleF` returned false. -/
def SamplingFailsAt (cfg : EyeConfig) (sample : EyeSample) (k : Nat) : Prop :=
  (sample.events k).hit = true ∧ k ≠ cfg.maxDepth ∧ (sample.events k).sampleF = none

/-! ### Eye paths used in the worked examples -/

/-- A vertex on a mirror: the sampled event is a specular reflection. -/
def exampleSpecularVertex : VertexEvents :=
  { hit := true, intersectThroughput := fun t => t, spdf := 1, Lv := 0, volumeGroup := 0,
    volumeAlpha := fun a => a, lightLe := [], distance := 2, areaLe := none,
    p := ⟨0, 0, 0⟩, ng := ⟨0, 0, 1⟩,
    sampleF := some
      { wi := ⟨0, 1, 0⟩, f := 1 / 2, pdf := 1,
        flags := { reflection := true, transmission := false, diffuse := false,
                   glossy := false, specular := true } },
    pdfTransmissionSpecular := 0 }

/-- A vertex on an emitting diffuse surface whose geometric normal points away from the
eye. -/
def exampleDiffuseVertex : VertexEvents :=
  { hit := true, intersectThroughput := fun t => t, spdf := 1, Lv := 0, volumeGroup := 0,
    volumeAlpha := fun a => a, lightLe := [], distance := 1, areaLe := some (0, 3),
    p := ⟨0, 1, 0⟩, ng := ⟨0, 1, 0⟩,
    sampleF := some
      { wi := ⟨1, 0, 0⟩, f := 1, pdf := 1 / 2,
        flags := { reflection := true, transmission := false, diffuse := true,
                   glossy := false, specular := false } },
    pdfTransmissionSpecular := 0 }

/-- A vertex at which `SampleF` returns false. -/
def exampleFailingVertex : VertexEvents :=
  { exampleDiffuseVertex with sampleF := none }

/-- An eye sample whose path meets a mirror and then a diffuse surface. -/
def exampleEyeSample : EyeSample :=
  { rayWeight := 2, rayD := ⟨0, 0, -1⟩,
    events := fun k => if k = 0 then exampleSpecularVertex else exampleDiffuseVertex }

/-- An eye sample whose path fails at its first vertex. -/
def exampleFailingSample : EyeSample :=
  { rayWeight := 2, rayD := ⟨0, 0, -1⟩, events := fun _ => exampleFailingVertex }

/-- A configuration with `maxEyePathDepth = 16`. -/
def exampleEyeConfig : EyeConfig :=
  { maxDepth := 16, includeEnvironment := true, toXYZ := fun s => ⟨s, s, s⟩ }

/-- The samples of the successive attempts for one hit point: the first two fail, the
later ones succeed. -/
def exampleSamples (a : Nat) : EyeSample :=
  if a < 2 then exampleFailingSample else exampleEyeSample

/-- The samples of a hit point none of whose attempts succeeds. -/
def exampleFailingSamples (_a : Nat) : EyeSample := exampleFailingSample

end HitPoints

end lux

namespace lux

/-! ## `hashgrid.cpp` in single precision and 32-bit integers

The definitions of this section embed `RefreshMutex` and the lookup of `AddFlux` once more,
with every `float` operation rounded by a function `fl` and with `abs` evaluated on 32-bit
integers.  The conversion `int(x)` stays the truncation `toInt`: its argument is taken to fit
in an `int`.  With `fl` the identity, and corners whose truncations have a magnitude below
`INT_MAX`, the build is that of the exact embedding (`RefreshMutex32_exact`). -/

/-- Rounding of a rational to the nearest integer, ties to the even one. -/
def roundHalfEven (x : ℚ) : Int :=
  if x - ⌊x⌋ < 1 / 2 then ⌊x⌋
  else if 1 / 2 < x - ⌊x⌋ then ⌊x⌋ + 1
  else if ⌊x⌋ % 2 = 0 then ⌊x⌋ else ⌊x⌋ + 1

/-- Rounding of a real result to a `float` (IEEE 754 binary32, round to nearest, ties to
even), for results in the range of the normal numbers: 24 significant bits at the binary
exponent of `x`. -/
def binary32 (x : ℚ) : ℚ :=
  if x = 0 then 0
  else (roundHalfEven (x / 2 ^ (Int.log 2 |x| - 23)) : ℚ) * 2 ^ (Int.log 2 |x| - 23)

/-- A `Point` with each coordinate rounded by `fl`. -/
def Point.round (fl : ℚ → ℚ) (p : Point) : Point := ⟨fl p.x, fl p.y, fl p.z⟩

/-- A `Vector` with each coordinate rounded by `fl`. -/
def Vector.round (fl : ℚ → ℚ) (v : Vector) : Vector := ⟨fl v.x, fl v.y, fl v.z⟩

namespace hybridsppm

namespace HashGrid

/-- The least `int`. -/
def INT_MIN : Int := -2147483648

/-- The greatest `int`. -/
def INT_MAX : Int := 2147483647

/-- The value of an `int` computation whose exact result is `n`: `n` reduced modulo 2^32
into the range of `int`. -/
def wrapInt (n : Int) : Int := (n + 2147483648) % 4294967296 - 2147483648

/-- Value of `abs(n)` for an `int`: `n < 0 ? -n : n`, the negation computed in 32 bits, so
that `abs(INT_MIN)` is `INT_MIN`. -/
def abs32 (n : Int) : Int := if n < 0 then wrapInt (-n) else n

/-- The cell coordinate `abs(int(x))` of a scaled offset `x`, as the `int` it is. -/
def cellIndex32 (x : ℚ) : Int := abs32 (toInt x)

/-- The values taken by `i` in `for (int i = lo; i <= hi; i++)`. -/
def intRange (lo hi : Int) : List Int :=
  (List.range (hi + 1 - lo).toNat).map (fun (k : Nat) => lo + (k : Int))

/-- The grid under construction in `RefreshMutex`: the array of buckets, the local
`entryCount`, and the arguments of the calls of `Hash` made so far, latest first. -/
structure BuildState where
  grid : Grid
  entryCount : Nat
  hashCalls : List (Int × Int × Int)

/-- Lines 87-93: `int hv = Hash(ix, iy, iz); if (grid[hv] == NULL) grid[hv] = new list;
grid[hv]->push_front(hp); ++entryCount;`. -/
def pushFront32 (Hash : Int → Int → Int → Nat) (st : BuildState) (ix iy iz : Int)
    (hp : Nat) : BuildState :=
  { grid := fun k => if k = Hash ix iy iz then some (hp :: (st.grid k).getD []) else st.grid k
    entryCount := (st.entryCount + 1) % ULLONG_MOD
    hashCalls := (ix, iy, iz) :: st.hashCalls }

/-- Lines 47-49: `cellSize = sqrtf(maxPhotonRadius2) * 2.f; invCellSize = 1.f / cellSize;`. -/
def invCellSize32 (fl sqrtf : ℚ → ℚ) (hps : HitPoints) : ℚ :=
  let cellSize := fl (sqrtf hps.maxPhotonRadius2 * 2)
  fl (1 / cellSize)

/-- Lines 79-81: `bMin = ((hp->position - rad) - hpBBox.pMin) * invCellSize`, each of the
three operations rounded. -/
def extentMin32 (fl sqrtf : ℚ → ℚ) (pMin : Point) (invCellSize : ℚ) (hp : HitPoint) :
    Vector :=
  let photonRadius := sqrtf hp.accumPhotonRadius2
  let rad : Vector := ⟨photonRadius, photonRadius, photonRadius⟩
  (((((hp.position.subVector rad).round fl).sub pMin).round fl).scale invCellSize).round fl

/-- Lines 79-82: `bMax = ((hp->position + rad) - hpBBox.pMin) * invCellSize`, each of the
three operations rounded. -/
def extentMax32 (fl sqrtf : ℚ → ℚ) (pMin : Point) (invCellSize : ℚ) (hp : HitPoint) :
    Vector :=
  let photonRadius := sqrtf hp.accumPhotonRadius2
  let rad : Vector := ⟨photonRadius, photonRadius, photonRadius⟩
  (((((hp.position.addVector rad).round fl).sub pMin).round fl).scale invCellSize).round fl

/-- Lines 79-100: the body of `if (hp->type == SURFACE)` for the hit point `hp` of index
`i`. -/
def insertHitPoint32 (fl sqrtf : ℚ → ℚ) (Hash : Int → Int → Int → Nat) (pMin : Point)
    (invCellSize : ℚ) (i : Nat) (hp : HitPoint) (st : BuildState) : BuildState :=
  let bMin := extentMin32 fl sqrtf pMin invCellSize hp
  let bMax := extentMax32 fl sqrtf pMin invCellSize hp
  (intRange (cellIndex32 bMin.z) (cellIndex32 bMax.z)).foldl
    (fun (st : BuildState) (iz : Int) =>
      (intRange (cellIndex32 bMin.y) (cellIndex32 bMax.y)).foldl
        (fun (st : BuildState) (iy : Int) =>
          (intRange (cellIndex32 bMin.x) (cellIndex32 bMax.x)).foldl
            (fun (st : BuildState) (ix : Int) => pushFront32 Hash st ix iy iz i) st) st) st

/-- Lines 76-101: the body of the loop over hit points. -/
def visitHitPoint32 (fl sqrtf : ℚ → ℚ) (Hash : Int → Int → Int → Nat) (hps : HitPoints)
    (invCellSize : ℚ) (st : BuildState) (i : Nat) : BuildState :=
  match hps.hitPoints[i]? with
  | some hp =>
    if hp.type = HitPointType.SURFACE then
      insertHitPoint32 fl sqrtf Hash hps.bbox.pMin invCellSize i hp st
    else st
  | none => st

/-- Method `HashGrid::RefreshMutex()` in single precision: the rebuilt grid, and the state of
the construction at the end of the loop. -/
def RefreshMutex32 (fl sqrtf : ℚ → ℚ) (Hash : Int → Int → Int → Nat) (self : HashGrid)
    (hps : HitPoints) : HashGrid × BuildState :=
  let hitPointsCount := hps.hitPoints.length % UINT_MOD
  let invCellSize := invCellSize32 fl sqrtf hps
  let gridSize := hitPointsCount
  let st := (List.range hitPointsCount).foldl
    (visitHitPoint32 fl sqrtf Hash hps invCellSize)
    { grid := clearGrid gridSize self.grid, entryCount := 0, hashCalls := [] }
  ({ gridSize := gridSize, invCellSize := invCellSize, grid := some st.grid }, st)

/-- Line 120 of `AddFlux`: `hh = (hitPoint - pMin) * invCellSize`, both operations
rounded. -/
def lookupOffset32 (fl : ℚ → ℚ) (self : HashGrid) (pMin : Point) (hitPoint : Point) :
    Vector :=
  (((hitPoint.sub pMin).round fl).scale self.invCellSize).round fl

/-- Lines 121-123 of `AddFlux`: the coordinates `ix`, `iy`, `iz` handed to `Hash`. -/
def lookupCell32 (fl : ℚ → ℚ) (self : HashGrid) (pMin : Point) (hitPoint : Point) :
    Int × Int × Int :=
  let hh := lookupOffset32 fl self pMin hitPoint
  (cellIndex32 hh.x, cellIndex32 hh.y, cellIndex32 hh.z)

/-- Line 125 of `AddFlux`: the bucket `grid[Hash(ix, iy, iz)]`. -/
def lookupBucket32 (fl : ℚ → ℚ) (Hash : Int → Int → Int → Nat) (self : HashGrid)
    (pMin : Point) (hitPoint : Point) : Option (List Nat) :=
  let c := lookupCell32 fl self pMin hitPoint
  match self.grid with
  | some g => g (Hash c.1 c.2.1 c.2.2)
  | none => none

/-! ### Quantities the statements about the single-precision build are written with -/

/-- The truncation `int(x)` has a magnitude below `INT_MAX`: it fits in an `int`, its
absolute value does too, and a loop counter can step past it. -/
def TruncatesInside (x : ℚ) : Prop := -INT_MAX < toInt x ∧ toInt x < INT_MAX

/-- Every coordinate of `v` truncates to a magnitude below `INT_MAX`. -/
def TruncateInside (v : Vector) : Prop :=
  TruncatesInside v.x ∧ TruncatesInside v.y ∧ TruncatesInside v.z

end HashGrid

/-- The `SURFACE` hit points of the store. -/
def surfaceHitPoints (hps : HitPoints) : List HitPoint :=
  hps.hitPoints.filter (fun hp => decide (hp.type = HitPointType.SURFACE))

/-! ### Stores used in the worked examples of the single-precision build -/

end hybridsppm

end lux

/-! ## The work partition without wrap-around -/

namespace lux

open HitPoints

theorem workSize_eq (n c : Nat) (hn : n < UINT_MOD) : workSize n c = n / c := by
  unfold workSize
  exact Nat.mod_eq_of_lt (lt_of_le_of_lt (Nat.div_le_self n c) hn)

theorem first_eq (n i c : Nat) (hn : n < UINT_MOD) (hi : i < c) :
    first n i c = n / c * i := by
  unfold first
  rw [workSize_eq n c hn]
  apply Nat.mod_eq_of_lt
  have h1 : n / c * i ≤ n / c * c := Nat.mul_le_mul_left _ (le_of_lt hi)
  have h2 : n / c * c ≤ n := Nat.div_mul_le_self n c
  omega

theorem last_eq (n i c : Nat) (hn : n < UINT_MOD) (hc : c < UINT_MOD) (hi : i < c) :
    last n i c = if i = c - 1 then n else n / c * i + n / c := by
  unfold last
  rw [first_eq n i c hn hi, workSize_eq n c hn]
  have hc1 : (c + UINT_MOD - 1) % UINT_MOD = c - 1 := by
    unfold UINT_MOD at *
    omega
  rw [hc1]
  by_cases h : i = c - 1
  · simp only [h, if_true]
    exact Nat.mod_eq_of_lt hn
  · simp only [h, if_false]
    apply Nat.mod_eq_of_lt
    have h1 : n / c * (i + 1) ≤ n / c * c := Nat.mul_le_mul_left _ (by omega)
    have h2 : n / c * c ≤ n := Nat.div_mul_le_self n c
    have h3 : n / c * (i + 1) = n / c * i + n / c := by ring
    omega

theorem range_mem_iff (n c i k : Nat) (hn : n < UINT_MOD) (hc : c < UINT_MOD) (hi : i < c) :
    (first n i c ≤ k ∧ k < last n i c) ↔
      (k < n ∧ if k < n / c * (c - 1) then i = k / (n / c) else i = c - 1) := by
  rw [last_eq n i c hn hc hi, first_eq n i c hn hi]
  have hdm : c * (n / c) + n % c = n := Nat.div_add_mod n c
  generalize n / c = w at hdm ⊢
  generalize n % c = r at hdm ⊢
  have hcomm : c * w = w * c := Nat.mul_comm _ _
  have hlast : w * (c - 1) + w = w * c := by
    have : c = (c - 1) + 1 := by omega
    conv_rhs => rw [this]
    ring
  have hwpos : k < w * (c - 1) → 0 < w := by
    intro hlt
    rcases Nat.eq_zero_or_pos w with h0 | h0
    · rw [h0] at hlt; simp at hlt
    · exact h0
  have hdiv : k < w * (c - 1) → k / w < c - 1 := by
    intro hlt
    rw [Nat.div_lt_iff_lt_mul (hwpos hlt), Nat.mul_comm]; exact hlt
  by_cases h : i = c - 1
  · rw [if_pos h]
    by_cases hlt : k < w * (c - 1)
    · rw [if_pos hlt]
      have := hdiv hlt
      constructor
      · rintro ⟨h1, _⟩; rw [h] at h1; omega
      · rintro ⟨_, hh⟩; omega
    · rw [if_neg hlt]
      constructor
      · rintro ⟨_, h2⟩; exact ⟨h2, h⟩
      · rintro ⟨h2, _⟩; rw [h]; exact ⟨by omega, h2⟩
  · rw [if_neg h]
    have hi1 : w * (i + 1) ≤ w * (c - 1) := Nat.mul_le_mul_left _ (by omega)
    have hi2 : w * (i + 1) = w * i + w := by ring
    by_cases hlt : k < w * (c - 1)
    · rw [if_pos hlt]
      have hw := hwpos hlt
      constructor
      · rintro ⟨h1, h2⟩
        refine ⟨by omega, ?_⟩
        symm
        apply Nat.div_eq_of_lt_le
        · rw [Nat.mul_comm]; exact h1
        · rw [Nat.mul_comm, hi2]; exact h2
      · rintro ⟨_, hh⟩
        subst hh
        have e1 := Nat.div_add_mod k w
        have e2 := Nat.mod_lt k hw
        constructor <;> omega
    · rw [if_neg hlt]
      constructor
      · rintro ⟨_, h2⟩; omega
      · rintro ⟨_, hh⟩; exact absurd hh h

end lux

/-! ## Auxiliary facts -/

namespace lux

open HitPoints

/-- Running a loop `for (i = a; i < a + len; ++i) l[i] = f(l[i])` changes exactly the
entries with index in `[a, a + len)`. -/
theorem foldl_modify_range (α : Type) (f : α → α) (len : Nat) :
    ∀ (a : Nat) (l : List α) (m : Nat),
      ((List.range' a len).foldl (fun l i => l.modify f i) l)[m]? =
        (l[m]?).map (fun x => if a ≤ m ∧ m < a + len then f x else x) := by
  induction len with
  | zero =>
    intro a l m
    have h2 : ¬ (a ≤ m ∧ m < a + 0) := by omega
    rw [List.range'_zero, List.foldl_nil]
    cases h : l[m]? with
    | none => rfl
    | some x => rw [Option.map_some', if_neg h2]
  | succ len ih =>
    intro a l m
    rw [List.range'_succ, List.foldl_cons, ih, List.getElem?_modify]
    cases h : l[m]? with
    | none => simp
    | some x =>
      simp only [Option.map_eq_map, Option.map_some']
      by_cases h1 : a = m
      · subst h1
        have h2 : ¬ (a + 1 ≤ a ∧ a < a + 1 + len) := by omega
        have h3 : a ≤ a ∧ a < a + (len + 1) := by omega
        rw [if_pos rfl, if_neg h2, if_pos h3]
      · by_cases h2 : a + 1 ≤ m ∧ m < a + 1 + len
        · have h3 : a ≤ m ∧ m < a + (len + 1) := by omega
          rw [if_neg h1, if_pos h2, if_pos h3]
        · have h3 : ¬ (a ≤ m ∧ m < a + (len + 1)) := by omega
          rw [if_neg h1, if_neg h2, if_neg h3]

/-- Entry `i` of the array after `AccumulateFlux`: the loop body applied to the old entry
when `i` is in the worker's range, the old entry otherwise. -/
theorem AccumulateFlux_getElem (hps : HitPoints) (fluxScale : ℚ) (index count i : Nat) :
    (AccumulateFlux hps fluxScale index count).hitPoints[i]? =
      (hps.hitPoints[i]?).map (fun hp =>
        if first hps.hitPoints.length index count ≤ i ∧
            i < last hps.hitPoints.length index count then
          accumulateHitPoint hps.photonAlpha fluxScale (hps.currentPhotonPass % 2) hp
        else hp) := by
  unfold AccumulateFlux
  simp only []
  rw [foldl_modify_range]
  congr 1
  funext hp
  by_cases h : first hps.hitPoints.length index count ≤ i ∧
      i < last hps.hitPoints.length index count
  · have h2 : first hps.hitPoints.length index count ≤ i ∧
        i < first hps.hitPoints.length index count +
          (last hps.hitPoints.length index count - first hps.hitPoints.length index count) := by
      omega
    rw [if_pos h, if_pos h2]
  · have h2 : ¬ (first hps.hitPoints.length index count ≤ i ∧
        i < first hps.hitPoints.length index count +
          (last hps.hitPoints.length index count - first hps.hitPoints.length index count)) := by
      omega
    rw [if_neg h, if_neg h2]

theorem foldl_add_mod (α : Type) (f : α → Nat) (M : Nat) (l : List α) :
    ∀ s, s < M → l.foldl (fun s d => (s + f d) % M) s = (s + (l.map f).sum) % M := by
  induction l with
  | nil => intro s hs; simp [Nat.mod_eq_of_lt hs]
  | cons d l ih =>
    intro s hs
    have hM : 0 < M := by omega
    rw [List.foldl_cons, ih _ (Nat.mod_lt _ hM), List.map_cons, List.sum_cons,
      Nat.mod_add_mod, Nat.add_assoc]

theorem sumPhotonCount_eq (lgd : List HitPointLightGroup) :
    sumPhotonCount lgd = (lgd.map (fun d => d.photonCount)).sum % ULLONG_MOD := by
  unfold sumPhotonCount
  rw [foldl_add_mod _ _ _ _ _ (by unfold ULLONG_MOD; omega), Nat.zero_add]

theorem sumAccumPhotonCount_eq (lgd : List HitPointLightGroup) :
    sumAccumPhotonCount lgd = (lgd.map (fun d => d.accumPhotonCount)).sum % ULLONG_MOD := by
  unfold sumAccumPhotonCount
  rw [foldl_add_mod _ _ _ _ _ (by unfold ULLONG_MOD; omega), Nat.zero_add]

/-- The reduction factor lies in `[0, 1]` when the denominator's two terms are non-negative
and `alpha ≤ 1`, whatever the 64-bit sum `pcount` wrapped to. -/
theorem reductionFactor_bounds (alpha : ℚ) (N M : Nat) (hM : 0 < M) (h0 : 0 ≤ alpha)
    (h1 : alpha ≤ 1) :
    0 ≤ reductionFactor alpha N M ∧ reductionFactor alpha N M ≤ 1 := by
  unfold reductionFactor
  simp only []
  have hMq : (0 : ℚ) < (M : ℚ) := by exact_mod_cast hM
  have hNq : (0 : ℚ) ≤ (N : ℚ) := by exact_mod_cast Nat.zero_le N
  have hden : (0 : ℚ) < (N : ℚ) * alpha + (M : ℚ) := by
    have := mul_nonneg hNq h0
    linarith
  have hp : (((N + M) % ULLONG_MOD : Nat) : ℚ) ≤ (N : ℚ) + (M : ℚ) := by
    have : (N + M) % ULLONG_MOD ≤ N + M := Nat.mod_le _ _
    exact_mod_cast this
  have hp0 : (0 : ℚ) ≤ (((N + M) % ULLONG_MOD : Nat) : ℚ) := by exact_mod_cast Nat.zero_le _
  constructor
  · exact div_nonneg (mul_nonneg h0 hp0) (le_of_lt hden)
  · rw [div_le_one hden]
    have e1 : alpha * (((N + M) % ULLONG_MOD : Nat) : ℚ) ≤ alpha * ((N : ℚ) + (M : ℚ)) :=
      mul_le_mul_of_nonneg_left hp h0
    have e2 : alpha * (M : ℚ) ≤ 1 * (M : ℚ) := mul_le_mul_of_nonneg_right h1 (le_of_lt hMq)
    nlinarith

end lux

namespace lux

open HitPoints

theorem sumPhotonCount_of_lt (hp : HitPoint) (h : totalPhotonCount hp < ULLONG_MOD) :
    sumPhotonCount hp.lightGroupData = totalPhotonCount hp := by
  rw [sumPhotonCount_eq]
  exact Nat.mod_eq_of_lt h

theorem sumAccumPhotonCount_of_lt (hp : HitPoint) (h : totalAccumPhotonCount hp < ULLONG_MOD) :
    sumAccumPhotonCount hp.lightGroupData = totalAccumPhotonCount hp := by
  rw [sumAccumPhotonCount_eq]
  exact Nat.mod_eq_of_lt h

theorem reductionFactor_eq_spec (alpha : ℚ) (N M : Nat) (h : N + M < ULLONG_MOD) :
    reductionFactor alpha N M = specReductionFactor alpha N M := by
  unfold reductionFactor specReductionFactor
  simp only [Nat.mod_eq_of_lt h, Nat.cast_add]

/-- The light groups of a `SURFACE` hit point after its merge. -/
theorem accumulateSurface_lightGroupData (alpha fluxScale : ℚ) (hp : HitPoint) :
    (accumulateSurface alpha fluxScale hp).lightGroupData =
      hp.lightGroupData.map (fun d =>
        if 0 < sumAccumPhotonCount hp.lightGroupData then
          mergeFlux fluxScale
            (reductionFactor alpha (sumPhotonCount hp.lightGroupData)
              (sumAccumPhotonCount hp.lightGroupData)) (mergeCounts d)
        else mergeCounts d) := by
  unfold accumulateSurface
  simp only [gt_iff_lt]
  by_cases h : 0 < sumAccumPhotonCount hp.lightGroupData
  · simp only [if_pos h, List.map_map]
    rfl
  · simp only [if_neg h]

/-- The radius² of a `SURFACE` hit point after its merge. -/
theorem accumulateSurface_radius (alpha fluxScale : ℚ) (hp : HitPoint) :
    (accumulateSurface alpha fluxScale hp).accumPhotonRadius2 =
      if 0 < sumAccumPhotonCount hp.lightGroupData then
        hp.accumPhotonRadius2 *
          reductionFactor alpha (sumPhotonCount hp.lightGroupData)
            (sumAccumPhotonCount hp.lightGroupData)
      else hp.accumPhotonRadius2 := by
  unfold accumulateSurface
  simp only [gt_iff_lt]
  by_cases h : 0 < sumAccumPhotonCount hp.lightGroupData
  · simp only [if_pos h]
  · simp only [if_neg h]

theorem accumulateHitPoint_radius_le (alpha fluxScale : ℚ) (passIndex : Nat) (hp : HitPoint)
    (hr : 0 ≤ hp.accumPhotonRadius2) (ha0 : 0 < alpha) (ha1 : alpha ≤ 1) :
    (accumulateHitPoint alpha fluxScale passIndex hp).accumPhotonRadius2 ≤
      hp.accumPhotonRadius2 := by
  unfold accumulateHitPoint
  by_cases hs : (hp.eyePass passIndex).type = HitPointType.SURFACE
  · rw [if_pos hs, accumulateSurface_radius]
    by_cases hM : 0 < sumAccumPhotonCount hp.lightGroupData
    · rw [if_pos hM]
      have hb := reductionFactor_bounds alpha (sumPhotonCount hp.lightGroupData)
        (sumAccumPhotonCount hp.lightGroupData) hM (le_of_lt ha0) ha1
      exact mul_le_of_le_one_right hr hb.2
    · rw [if_neg hM]
  · rw [if_neg hs]

theorem mergeCounts_eq_self (d : HitPointLightGroup) (h : d.accumPhotonCount = 0) :
    mergeCounts d = d := by
  cases d
  simp only at h
  simp only [mergeCounts, h, Nat.add_zero]

theorem sum_eq_zero_of_all_zero (α : Type) (f : α → Nat) (l : List α)
    (h : ∀ d ∈ l, f d = 0) : (l.map f).sum = 0 := by
  induction l with
  | nil => rfl
  | cons d l ih =>
    rw [List.map_cons, List.sum_cons, h d (List.mem_cons_self d l),
      ih (fun e he => h e (List.mem_cons_of_mem d he))]

/-- The `SURFACE` branch returns a hit point none of whose light groups has a photon in
flight as it is. -/
theorem accumulateSurface_stagnant (alpha fluxScale : ℚ) (hp : HitPoint)
    (h0 : ∀ d ∈ hp.lightGroupData, d.accumPhotonCount = 0) :
    accumulateSurface alpha fluxScale hp = hp := by
  have hsum : sumAccumPhotonCount hp.lightGroupData = 0 := by
    rw [sumAccumPhotonCount_eq, sum_eq_zero_of_all_zero _ _ _ h0]
    rfl
  have hmap : hp.lightGroupData.map mergeCounts = hp.lightGroupData := by
    conv_rhs => rw [← List.map_id hp.lightGroupData]
    apply List.map_congr_left
    intro d hd
    exact mergeCounts_eq_self d (h0 d hd)
  unfold accumulateSurface
  simp only [hsum, gt_iff_lt, lt_irrefl, if_false, hmap]

theorem sum_map_add (α : Type) (f g : α → Nat) (l : List α) :
    (l.map (fun d => f d + g d)).sum = (l.map f).sum + (l.map g).sum := by
  induction l with
  | nil => rfl
  | cons d l ih =>
    simp only [List.map_cons, List.sum_cons, ih]
    omega

end lux

/-! ## Claims about the work partition -/

namespace lux

open HitPoints

/-- C1. For a population of `n` hit points and `c ≥ 1` workers (both `u_int` values), the
ranges `[first_i, last_i)` computed by `AccumulateFlux` / `SetHitPoints` for `i = 0..c-1`
tile `[0, n)`: every index below `n` lies in exactly one range, and no range reaches
beyond `n`. -/
theorem C1_partition_tiles (n c : Nat) (hn : n < UINT_MOD) (hc1 : 1 ≤ c) (hc : c < UINT_MOD) :
    (∀ k, k < n → ∃! i, i < c ∧ first n i c ≤ k ∧ k < last n i c) ∧
    (∀ i k, i < c → first n i c ≤ k → k < last n i c → k < n) := by
  constructor
  · intro k hk
    by_cases hlt : k < n / c * (c - 1)
    · have hw : 0 < n / c := by
        rcases Nat.eq_zero_or_pos (n / c) with h0 | h0
        · rw [h0] at hlt; simp at hlt
        · exact h0
      have hic : k / (n / c) < c := by
        have : k / (n / c) < c - 1 := by
          rw [Nat.div_lt_iff_lt_mul hw, Nat.mul_comm]; exact hlt
        omega
      refine ⟨k / (n / c), ⟨hic, ?_⟩, ?_⟩
      · rw [range_mem_iff n c _ k hn hc hic, if_pos hlt]; exact ⟨hk, rfl⟩
      · rintro j ⟨hj, hj2⟩
        rw [range_mem_iff n c _ k hn hc hj, if_pos hlt] at hj2
        exact hj2.2
    · have hic : c - 1 < c := by omega
      refine ⟨c - 1, ⟨hic, ?_⟩, ?_⟩
      · rw [range_mem_iff n c _ k hn hc hic, if_neg hlt]; exact ⟨hk, rfl⟩
      · rintro j ⟨hj, hj2⟩
        rw [range_mem_iff n c _ k hn hc hj, if_neg hlt] at hj2
        exact hj2.2
  · intro i k hi h1 h2
    exact ((range_mem_iff n c i k hn hc hi).mp ⟨h1, h2⟩).1

/-- Witness of C1: 10 hit points shared by 3 workers. -/
theorem C1_partition_tiles_witness :
    (10 < UINT_MOD ∧ 1 ≤ 3 ∧ 3 < UINT_MOD) ∧
    ((∀ k, k < 10 → ∃! i, i < 3 ∧ first 10 i 3 ≤ k ∧ k < last 10 i 3) ∧
     (∀ i k, i < 3 → first 10 i 3 ≤ k → k < last 10 i 3 → k < 10)) :=
  ⟨by decide, C1_partition_tiles 10 3 (by decide) (by decide) (by decide)⟩

/-- C2. For a population of `n` hit points, `c` workers and a worker index `i < c`, the range
of worker `i` satisfies `0 ≤ first ≤ last ≤ n` (neither assertion fires); a non-final range
(`i < c - 1`) has `n / c` elements and the final one (`i = c - 1`) has `n / c + n % c`. -/
theorem C2_partition_bounds (n c i : Nat) (hn : n < UINT_MOD) (hc : c < UINT_MOD) (hi : i < c) :
    0 ≤ first n i c ∧
    first n i c ≤ last n i c ∧
    last n i c ≤ n ∧
    (i < c - 1 → last n i c - first n i c = n / c) ∧
    (i = c - 1 → last n i c - first n i c = n / c + n % c) := by
  rw [last_eq n i c hn hc hi, first_eq n i c hn hi]
  have hdm : c * (n / c) + n % c = n := Nat.div_add_mod n c
  generalize n / c = w at hdm ⊢
  generalize n % c = r at hdm ⊢
  have hi1 : w * (i + 1) ≤ w * c := Nat.mul_le_mul_left _ (by omega)
  have hi2 : w * (i + 1) = w * i + w := by ring
  have hcomm : c * w = w * c := Nat.mul_comm _ _
  by_cases h : i = c - 1
  · have hc2 : w * c = w * i + w := by
      have : c = i + 1 := by omega
      rw [this]; ring
    rw [if_pos h]
    refine ⟨Nat.zero_le _, by omega, le_refl _, fun _ => by omega, fun _ => by omega⟩
  · rw [if_neg h]
    refine ⟨Nat.zero_le _, by omega, by omega, fun _ => by omega, fun hh => absurd hh h⟩

/-- Witness of C2: the last of 3 workers on 10 hit points gets `[6, 10)`. -/
theorem C2_partition_bounds_witness :
    (10 < UINT_MOD ∧ 3 < UINT_MOD ∧ 2 < 3) ∧
    (0 ≤ first 10 2 3 ∧ first 10 2 3 ≤ last 10 2 3 ∧ last 10 2 3 ≤ 10 ∧
      (2 < 3 - 1 → last 10 2 3 - first 10 2 3 = 10 / 3) ∧
      (2 = 3 - 1 → last 10 2 3 - first 10 2 3 = 10 / 3 + 10 % 3)) :=
  ⟨by decide, C2_partition_bounds 10 3 2 (by decide) (by decide) (by decide)⟩

/-! ## Claims about `AccumulateFlux` -/

/-- C3. Radius monotonicity: for every hit point of the store with `accumPhotonRadius2 ≥ 0`,
whatever its type, its photon counts and the worker range, and every `photonAlpha` in
`(0, 1]`, `accumPhotonRadius2` after `AccumulateFlux` is at most its value before. -/
theorem C3_radius_monotone (hps : HitPoints) (fluxScale : ℚ) (index count i : Nat)
    (hp : HitPoint) (hget : hps.hitPoints[i]? = some hp)
    (hr : 0 ≤ hp.accumPhotonRadius2)
    (ha0 : 0 < hps.photonAlpha) (ha1 : hps.photonAlpha ≤ 1) :
    ∃ hp1, (AccumulateFlux hps fluxScale index count).hitPoints[i]? = some hp1 ∧
      hp1.accumPhotonRadius2 ≤ hp.accumPhotonRadius2 := by
  rw [AccumulateFlux_getElem, hget, Option.map_some']
  refine ⟨_, rfl, ?_⟩
  split
  · exact accumulateHitPoint_radius_le _ _ _ hp hr ha0 ha1
  · exact le_refl _

/-- Witness of C3: the first hit point of the example store, merged by a single worker. -/
theorem C3_radius_monotone_witness :
    (exampleStore.hitPoints[0]? = some exampleHitPoint ∧
      0 ≤ exampleHitPoint.accumPhotonRadius2 ∧
      0 < exampleStore.photonAlpha ∧ exampleStore.photonAlpha ≤ 1) ∧
    ∃ hp1, (AccumulateFlux exampleStore 1 0 1).hitPoints[0]? = some hp1 ∧
      hp1.accumPhotonRadius2 ≤ exampleHitPoint.accumPhotonRadius2 :=
  ⟨⟨rfl, by norm_num [exampleHitPoint], by norm_num [exampleStore],
      by norm_num [exampleStore]⟩,
    C3_radius_monotone exampleStore 1 0 1 0 exampleHitPoint rfl
      (by norm_num [exampleHitPoint]) (by norm_num [exampleStore])
      (by norm_num [exampleStore])⟩

/-- C4, as stated, fails: with `alpha = -1 ≤ 1`, 3 settled photons and 1 in flight the
factor is `(-1 * 4) / (3 * (-1) + 1) = 2 > 1`. -/
theorem C4_counterexample :
    (0 < (1 : Nat) ∧ (-1 : ℚ) ≤ 1) ∧ reductionFactor (-1) 3 1 = 2 ∧
      ¬ reductionFactor (-1) 3 1 ≤ 1 := by
  have h : reductionFactor (-1) 3 1 = 2 := by
    unfold reductionFactor ULLONG_MOD
    norm_num
  refine ⟨⟨by decide, by norm_num⟩, h, ?_⟩
  rw [h]
  norm_num

/-- C4 (amended). The factor `g = alpha * pcount / (photonCount * alpha + accumPhotonCount)`
computed by `AccumulateFlux` satisfies `g ≤ 1` whenever `accumPhotonCount > 0` and
`0 ≤ alpha ≤ 1`. -/
theorem C4_factor_le_one (alpha : ℚ) (photonCount accumPhotonCount : Nat)
    (hM : 0 < accumPhotonCount) (h0 : 0 ≤ alpha) (h1 : alpha ≤ 1) :
    reductionFactor alpha photonCount accumPhotonCount ≤ 1 :=
  (reductionFactor_bounds alpha photonCount accumPhotonCount hM h0 h1).2

/-- Witness of C4 (amended): `alpha = 7/10`, 3 settled photons, 1 in flight. -/
theorem C4_factor_le_one_witness :
    (0 < (1 : Nat) ∧ (0 : ℚ) ≤ 7 / 10 ∧ (7 / 10 : ℚ) ≤ 1) ∧
      reductionFactor (7 / 10) 3 1 ≤ 1 :=
  ⟨⟨by decide, by norm_num, by norm_num⟩,
    C4_factor_le_one (7 / 10) 3 1 (by decide) (by norm_num) (by norm_num)⟩

/-- C5. Stagnant point: a `SURFACE` hit point whose in-flight `accumPhotonCount` is 0 in
every light group keeps its `accumPhotonRadius2`, every light group's `reflectedFlux` and
every light group's `photonCount` through `AccumulateFlux`. -/
theorem C5_stagnant_unchanged (hps : HitPoints) (fluxScale : ℚ) (index count i : Nat)
    (hp : HitPoint) (hget : hps.hitPoints[i]? = some hp)
    (hsurf : (hp.eyePass (hps.currentPhotonPass % 2)).type = HitPointType.SURFACE)
    (hzero : ∀ d ∈ hp.lightGroupData, d.accumPhotonCount = 0) :
    ∃ hp1, (AccumulateFlux hps fluxScale index count).hitPoints[i]? = some hp1 ∧
      hp1.accumPhotonRadius2 = hp.accumPhotonRadius2 ∧
      hp1.lightGroupData.map (fun d => d.reflectedFlux) =
        hp.lightGroupData.map (fun d => d.reflectedFlux) ∧
      hp1.lightGroupData.map (fun d => d.photonCount) =
        hp.lightGroupData.map (fun d => d.photonCount) := by
  rw [AccumulateFlux_getElem, hget, Option.map_some']
  refine ⟨hp, ?_, rfl, rfl, rfl⟩
  split
  · unfold accumulateHitPoint
    rw [if_pos hsurf, accumulateSurface_stagnant _ _ hp hzero]
  · rfl

/-- Witness of C5: the second hit point of the example store received no photon. -/
theorem C5_stagnant_unchanged_witness :
    (exampleStore.hitPoints[1]? = some exampleStagnantHitPoint ∧
      (exampleStagnantHitPoint.eyePass (exampleStore.currentPhotonPass % 2)).type =
        HitPointType.SURFACE ∧
      ∀ d ∈ exampleStagnantHitPoint.lightGroupData, d.accumPhotonCount = 0) ∧
    ∃ hp1, (AccumulateFlux exampleStore 1 0 1).hitPoints[1]? = some hp1 ∧
      hp1.accumPhotonRadius2 = exampleStagnantHitPoint.accumPhotonRadius2 ∧
      hp1.lightGroupData.map (fun d => d.reflectedFlux) =
        exampleStagnantHitPoint.lightGroupData.map (fun d => d.reflectedFlux) ∧
      hp1.lightGroupData.map (fun d => d.photonCount) =
        exampleStagnantHitPoint.lightGroupData.map (fun d => d.photonCount) :=
  ⟨⟨rfl, rfl, by simp [exampleStagnantHitPoint]⟩,
    C5_stagnant_unchanged exampleStore 1 0 1 1 exampleStagnantHitPoint rfl rfl
      (by simp [exampleStagnantHitPoint])⟩

/-- C6. For a `SURFACE` hit point in the processed range whose summed in-flight photon count
`M` is positive (the sums fitting the 64-bit accumulators), `AccumulateFlux` multiplies
`accumPhotonRadius2` by `g = alpha * (N + M) / (N * alpha + M)`, `N` being the summed settled
count before the merge, and for every light group `j` sets `reflectedFlux[j]` to
`(old reflectedFlux[j] + fluxScale * old accumReflectedFlux[j]) * g` and
`accumReflectedFlux[j]` to 0. -/
theorem C6_flux_merge (hps : HitPoints) (fluxScale : ℚ) (index count i : Nat)
    (hp : HitPoint) (hget : hps.hitPoints[i]? = some hp)
    (hfirst : first hps.hitPoints.length index count ≤ i)
    (hlast : i < last hps.hitPoints.length index count)
    (hsurf : (hp.eyePass (hps.currentPhotonPass % 2)).type = HitPointType.SURFACE)
    (hM : 0 < totalAccumPhotonCount hp)
    (h64 : totalPhotonCount hp + totalAccumPhotonCount hp < ULLONG_MOD) :
    ∃ hp1, (AccumulateFlux hps fluxScale index count).hitPoints[i]? = some hp1 ∧
      hp1.accumPhotonRadius2 =
        hp.accumPhotonRadius2 *
          specReductionFactor hps.photonAlpha (totalPhotonCount hp) (totalAccumPhotonCount hp) ∧
      hp1.lightGroupData.length = hp.lightGroupData.length ∧
      ∀ (j : Nat) (d : HitPointLightGroup), hp.lightGroupData[j]? = some d →
        ∃ d1 : HitPointLightGroup, hp1.lightGroupData[j]? = some d1 ∧
          d1.reflectedFlux =
            XYZColor.scale
              (XYZColor.add d.reflectedFlux (XYZColor.scaleLeft fluxScale d.accumReflectedFlux))
              (specReductionFactor hps.photonAlpha (totalPhotonCount hp)
                (totalAccumPhotonCount hp)) ∧
          d1.accumReflectedFlux = XYZColor.zero := by
  have hN : sumPhotonCount hp.lightGroupData = totalPhotonCount hp :=
    sumPhotonCount_of_lt hp (by omega)
  have hA : sumAccumPhotonCount hp.lightGroupData = totalAccumPhotonCount hp :=
    sumAccumPhotonCount_of_lt hp (by omega)
  rw [AccumulateFlux_getElem, hget, Option.map_some', if_pos ⟨hfirst, hlast⟩]
  unfold accumulateHitPoint
  rw [if_pos hsurf]
  refine ⟨_, rfl, ?_, ?_, ?_⟩
  · rw [accumulateSurface_radius, hN, hA, if_pos hM, reductionFactor_eq_spec _ _ _ h64]
  · rw [accumulateSurface_lightGroupData, List.length_map]
  · intro j d hd
    rw [accumulateSurface_lightGroupData, List.getElem?_map, hd, Option.map_some', hN, hA,
      if_pos hM, reductionFactor_eq_spec _ _ _ h64]
    exact ⟨_, rfl, rfl, rfl⟩

/-- Witness of C6: the first hit point of the example store (3 settled photons, 1 in
flight), merged by a single worker. -/
theorem C6_flux_merge_witness :
    (exampleStore.hitPoints[0]? = some exampleHitPoint ∧
      first exampleStore.hitPoints.length 0 1 ≤ 0 ∧
      0 < last exampleStore.hitPoints.length 0 1 ∧
      (exampleHitPoint.eyePass (exampleStore.currentPhotonPass % 2)).type =
        HitPointType.SURFACE ∧
      0 < totalAccumPhotonCount exampleHitPoint ∧
      totalPhotonCount exampleHitPoint + totalAccumPhotonCount exampleHitPoint < ULLONG_MOD) ∧
    ∃ hp1, (AccumulateFlux exampleStore 1 0 1).hitPoints[0]? = some hp1 ∧
      hp1.accumPhotonRadius2 =
        exampleHitPoint.accumPhotonRadius2 *
          specReductionFactor exampleStore.photonAlpha (totalPhotonCount exampleHitPoint)
            (totalAccumPhotonCount exampleHitPoint) ∧
      hp1.lightGroupData.length = exampleHitPoint.lightGroupData.length ∧
      ∀ (j : Nat) (d : HitPointLightGroup), exampleHitPoint.lightGroupData[j]? = some d →
        ∃ d1 : HitPointLightGroup, hp1.lightGroupData[j]? = some d1 ∧
          d1.reflectedFlux =
            XYZColor.scale
              (XYZColor.add d.reflectedFlux (XYZColor.scaleLeft 1 d.accumReflectedFlux))
              (specReductionFactor exampleStore.photonAlpha (totalPhotonCount exampleHitPoint)
                (totalAccumPhotonCount exampleHitPoint)) ∧
          d1.accumReflectedFlux = XYZColor.zero :=
  ⟨⟨rfl, by decide, by decide, rfl, by decide, by decide⟩,
    C6_flux_merge exampleStore 1 0 1 0 exampleHitPoint rfl (by decide) (by decide) rfl
      (by decide) (by decide)⟩

/-- C7. For a `SURFACE` hit point in the processed range and every light group `j`, after
`AccumulateFlux` `photonCount[j]` is the old `photonCount[j] + accumPhotonCount[j]` and
`accumPhotonCount[j]` is 0, whether or not a photon arrived; hence the total
`photonCount + accumPhotonCount` over the light groups is conserved. -/
theorem C7_count_merge (hps : HitPoints) (fluxScale : ℚ) (index count i : Nat)
    (hp : HitPoint) (hget : hps.hitPoints[i]? = some hp)
    (hfirst : first hps.hitPoints.length index count ≤ i)
    (hlast : i < last hps.hitPoints.length index count)
    (hsurf : (hp.eyePass (hps.currentPhotonPass % 2)).type = HitPointType.SURFACE) :
    ∃ hp1, (AccumulateFlux hps fluxScale index count).hitPoints[i]? = some hp1 ∧
      hp1.lightGroupData.length = hp.lightGroupData.length ∧
      (∀ (j : Nat) (d : HitPointLightGroup), hp.lightGroupData[j]? = some d →
        ∃ d1 : HitPointLightGroup, hp1.lightGroupData[j]? = some d1 ∧
          d1.photonCount = d.photonCount + d.accumPhotonCount ∧ d1.accumPhotonCount = 0) ∧
      totalPhotonCount hp1 + totalAccumPhotonCount hp1 =
        totalPhotonCount hp + totalAccumPhotonCount hp := by
  rw [AccumulateFlux_getElem, hget, Option.map_some', if_pos ⟨hfirst, hlast⟩]
  unfold accumulateHitPoint
  rw [if_pos hsurf]
  refine ⟨_, rfl, ?_, ?_, ?_⟩
  · rw [accumulateSurface_lightGroupData, List.length_map]
  · intro j d hd
    rw [accumulateSurface_lightGroupData, List.getElem?_map, hd, Option.map_some']
    refine ⟨_, rfl, ?_, ?_⟩ <;> split <;> rfl
  · unfold totalPhotonCount totalAccumPhotonCount
    rw [accumulateSurface_lightGroupData, List.map_map, List.map_map]
    have h1 : ∀ d : HitPointLightGroup,
        ((fun d => d.photonCount) ∘ fun d =>
          if 0 < sumAccumPhotonCount hp.lightGroupData then
            mergeFlux fluxScale
              (reductionFactor hps.photonAlpha (sumPhotonCount hp.lightGroupData)
                (sumAccumPhotonCount hp.lightGroupData)) (mergeCounts d)
          else mergeCounts d) d = d.photonCount + d.accumPhotonCount := by
      intro d
      simp only [Function.comp]
      split <;> rfl
    have h2 : ∀ d : HitPointLightGroup,
        ((fun d => d.accumPhotonCount) ∘ fun d =>
          if 0 < sumAccumPhotonCount hp.lightGroupData then
            mergeFlux fluxScale
              (reductionFactor hps.photonAlpha (sumPhotonCount hp.lightGroupData)
                (sumAccumPhotonCount hp.lightGroupData)) (mergeCounts d)
          else mergeCounts d) d = 0 := by
      intro d
      simp only [Function.comp]
      split <;> rfl
    rw [funext h1, funext h2, sum_map_add,
      sum_eq_zero_of_all_zero _ (fun _ => 0) _ (fun _ _ => rfl)]
    rfl

/-- Witness of C7: the first hit point of the example store. -/
theorem C7_count_merge_witness :
    (exampleStore.hitPoints[0]? = some exampleHitPoint ∧
      first exampleStore.hitPoints.length 0 1 ≤ 0 ∧
      0 < last exampleStore.hitPoints.length 0 1 ∧
      (exampleHitPoint.eyePass (exampleStore.currentPhotonPass % 2)).type =
        HitPointType.SURFACE) ∧
    ∃ hp1, (AccumulateFlux exampleStore 1 0 1).hitPoints[0]? = some hp1 ∧
      hp1.lightGroupData.length = exampleHitPoint.lightGroupData.length ∧
      (∀ (j : Nat) (d : HitPointLightGroup), exampleHitPoint.lightGroupData[j]? = some d →
        ∃ d1 : HitPointLightGroup, hp1.lightGroupData[j]? = some d1 ∧
          d1.photonCount = d.photonCount + d.accumPhotonCount ∧ d1.accumPhotonCount = 0) ∧
      totalPhotonCount hp1 + totalAccumPhotonCount hp1 =
        totalPhotonCount exampleHitPoint + totalAccumPhotonCount exampleHitPoint :=
  ⟨⟨rfl, by decide, by decide, rfl⟩,
    C7_count_merge exampleStore 1 0 1 0 exampleHitPoint rfl (by decide) (by decide) rfl⟩

end lux

/-! ## The hash grid: auxiliary facts -/

namespace lux

open hybridsppm hybridsppm.HashGrid

/-- Visiting the entries `ks` of a bucket applies the visit to the hit point `i` once per
occurrence of `i` in `ks`. -/
theorem foldl_modify_list (α : Type) (f : α → α) (ks : List Nat) :
    ∀ (l : List α) (i : Nat),
      (ks.foldl (fun l k => l.modify f k) l)[i]? = (l[i]?).map (f^[ks.count i]) := by
  induction ks with
  | nil =>
    intro l i
    cases h : l[i]? with
    | none => simp [h]
    | some x => simp [h]
  | cons k ks ih =>
    intro l i
    rw [List.foldl_cons, ih, List.getElem?_modify]
    cases h : l[i]? with
    | none => rfl
    | some x =>
      simp only [Option.map_eq_map, Option.map_some', Option.some.injEq]
      by_cases hk : k = i
      · subst hk
        rw [if_pos rfl, List.count_cons_self, Function.iterate_succ_apply]
      · rw [if_neg hk, List.count_cons_of_ne (fun h => hk h.symm)]

theorem iterate_fixed (α : Type) (f : α → α) (x : α) (h : f x = x) : ∀ n, f^[n] x = x := by
  intro n
  induction n with
  | zero => rfl
  | succ n ih => rw [Function.iterate_succ_apply, h, ih]

/-- A photon beyond the gather radius leaves the visited hit point as it is. -/
theorem addFluxHitPoint_far (F : Nat → Vector → Vector → SWCSpectrum) (P : Point) (wi : Vector)
    (photonFlux : SWCSpectrum) (hp : hybridsppm.HitPoint)
    (hfar : DistanceSquared hp.position P > hp.accumPhotonRadius2) :
    addFluxHitPoint F P wi photonFlux hp = hp := by
  unfold addFluxHitPoint
  simp only [if_pos hfar]

/-- Entry `i` of the array after `AddFlux`. -/
theorem AddFlux_getElem (Hash : Int → Int → Int → Nat)
    (F : Nat → Vector → Vector → SWCSpectrum) (self : HashGrid) (hps : hybridsppm.HitPoints)
    (P : Point) (wi : Vector) (photonFlux : SWCSpectrum) (i : Nat) :
    (AddFlux Hash F self hps P wi photonFlux).hitPoints[i]? =
      (hps.hitPoints[i]?).map
        ((addFluxHitPoint F P wi photonFlux)^[
          ((lookupBucket Hash self hps.bbox.pMin P).getD []).count i]) := by
  unfold AddFlux
  cases hb : lookupBucket Hash self hps.bbox.pMin P with
  | none =>
    simp only [Option.getD_none, List.count_nil, Function.iterate_zero]
    cases hps.hitPoints[i]? <;> rfl
  | some bucket =>
    simp only [Option.getD_some]
    rw [foldl_modify_list]

end lux

namespace lux

open hybridsppm hybridsppm.HashGrid

theorem foldl_preserves (σ β : Type) (P : σ → Prop) (f : σ → β → σ)
    (hf : ∀ s b, P s → P (f s b)) (xs : List β) : ∀ s, P s → P (xs.foldl f s) := by
  induction xs with
  | nil => intro s hs; exact hs
  | cons x xs ih => intro s hs; exact ih _ (hf s x hs)

end lux

namespace lux

open hybridsppm hybridsppm.HashGrid

theorem exampleSqrt_one : exampleSqrt 1 = 1 := by
  unfold exampleSqrt
  rw [Nat.ceil_one]
  norm_num

/-- C8. For every grid state, photon position `P` and hit point `hp` of the store, if the
squared distance between `hp.position` and `P` exceeds `hp.accumPhotonRadius2` then
`AddFlux(P, ...)` changes neither `hp.accumPhotonCount` nor `hp.accumReflectedFlux`,
whatever bucket `P` hashes to. -/
theorem C8_beyond_radius_no_hit (Hash : Int → Int → Int → Nat)
    (F : Nat → Vector → Vector → SWCSpectrum) (self : HashGrid) (hps : hybridsppm.HitPoints)
    (P : Point) (wi : Vector) (photonFlux : SWCSpectrum) (i : Nat) (hp : hybridsppm.HitPoint)
    (hget : hps.hitPoints[i]? = some hp)
    (hfar : DistanceSquared hp.position P > hp.accumPhotonRadius2) :
    ∃ hp1 : hybridsppm.HitPoint,
      (AddFlux Hash F self hps P wi photonFlux).hitPoints[i]? = some hp1 ∧
      hp1.accumPhotonCount = hp.accumPhotonCount ∧
      hp1.accumReflectedFlux = hp.accumReflectedFlux := by
  rw [AddFlux_getElem, hget, Option.map_some',
    iterate_fixed _ _ hp (addFluxHitPoint_far F P wi photonFlux hp hfar)]
  exact ⟨hp, rfl, rfl, rfl⟩

/-- Witness of C8: a photon two units away from the example hit point of radius² 1. -/
theorem C8_beyond_radius_no_hit_witness :
    (originStore.hitPoints[0]? = some originHitPoint ∧
      DistanceSquared originHitPoint.position ⟨2, 0, 0⟩ >
        originHitPoint.accumPhotonRadius2) ∧
    ∃ hp1 : hybridsppm.HitPoint,
      (AddFlux (exampleHash 1) exampleF originGrid originStore ⟨2, 0, 0⟩ ⟨0, 0, 1⟩
        2).hitPoints[0]? = some hp1 ∧
      hp1.accumPhotonCount = originHitPoint.accumPhotonCount ∧
      hp1.accumReflectedFlux = originHitPoint.accumReflectedFlux :=
  ⟨⟨rfl, by norm_num [DistanceSquared, originHitPoint]⟩,
    C8_beyond_radius_no_hit (exampleHash 1) exampleF originGrid originStore ⟨2, 0, 0⟩
      ⟨0, 0, 1⟩ 2 0 originHitPoint rfl (by norm_num [DistanceSquared, originHitPoint])⟩

end lux

namespace lux

open hybridsppm hybridsppm.HashGrid

theorem toInt_neg_half : toInt (-(1 / 2)) = 0 := by
  unfold toInt
  have h : ¬ (0 : ℚ) ≤ -(1 / 2) := by norm_num
  rw [if_neg h, Int.ceil_eq_iff]
  norm_num

end lux

/-! ## Further claims about the hash grid -/

namespace lux

open hybridsppm hybridsppm.HashGrid

theorem foldl_related (σ β : Type) (R : σ → σ → Prop) (f : σ → β → σ)
    (hf : ∀ s t b, R s t → R (f s b) (f t b)) (xs : List β) :
    ∀ s t, R s t → R (xs.foldl f s) (xs.foldl f t) := by
  induction xs with
  | nil => intro s t h; exact h
  | cons x xs ih => intro s t h; exact ih _ _ (hf s t x h)

theorem pushFront_onlySurface (hps : hybridsppm.HitPoints) (n : Nat) (st : Grid × Nat)
    (hv j : Nat) (hj : IsSurface hps j) (h : OnlySurface hps n st) :
    OnlySurface hps n (pushFront st hv j) := by
  intro k hk l hl i hi
  unfold pushFront at hl
  simp only at hl
  by_cases hkv : k = hv
  · rw [if_pos hkv] at hl
    have hl2 : l = j :: (st.1 k).getD [] := (Option.some.inj hl).symm
    rw [hl2] at hi
    rcases List.mem_cons.mp hi with h1 | h1
    · rw [h1]; exact hj
    · cases hb : st.1 k with
      | none => rw [hb] at h1; simp at h1
      | some l0 =>
        rw [hb] at h1
        exact h k hk l0 hb i h1
  · rw [if_neg hkv] at hl
    exact h k hk l hl i hi

theorem insertHitPoint_onlySurface (sqrtf : ℚ → ℚ) (Hash : Int → Int → Int → Nat)
    (hps : hybridsppm.HitPoints) (n : Nat) (pMin : Point) (invCellSize : ℚ) (j : Nat)
    (hp : hybridsppm.HitPoint) (st : Grid × Nat) (hj : IsSurface hps j)
    (h : OnlySurface hps n st) :
    OnlySurface hps n (insertHitPoint sqrtf Hash pMin invCellSize j hp st) := by
  unfold insertHitPoint
  simp only
  refine foldl_preserves _ _ (OnlySurface hps n) _ ?_ _ st h
  intro s iz hs
  refine foldl_preserves _ _ (OnlySurface hps n) _ ?_ _ s hs
  intro s iy hs
  refine foldl_preserves _ _ (OnlySurface hps n) _ ?_ _ s hs
  intro s ix hs
  exact pushFront_onlySurface hps n s _ j hj hs

theorem visitHitPoint_onlySurface (sqrtf : ℚ → ℚ) (Hash : Int → Int → Int → Nat)
    (hps : hybridsppm.HitPoints) (n : Nat) (invCellSize : ℚ) (st : Grid × Nat) (j : Nat)
    (h : OnlySurface hps n st) :
    OnlySurface hps n (visitHitPoint sqrtf Hash hps invCellSize st j) := by
  unfold visitHitPoint
  cases hget : hps.hitPoints[j]? with
  | none => exact h
  | some hp =>
    simp only
    by_cases hs : hp.type = HitPointType.SURFACE
    · rw [if_pos hs]
      exact insertHitPoint_onlySurface _ _ _ _ _ _ _ _ _ ⟨hp, hget, hs⟩ h
    · rw [if_neg hs]
      exact h

theorem pushFront_agree (n : Nat) (s t : Grid × Nat) (hv j : Nat)
    (h : ∀ k, k < n → s.1 k = t.1 k) :
    ∀ k, k < n → (pushFront s hv j).1 k = (pushFront t hv j).1 k := by
  intro k hk
  unfold pushFront
  simp only
  by_cases hkv : k = hv
  · rw [if_pos hkv, if_pos hkv]
    subst hkv
    rw [h k hk]
  · rw [if_neg hkv, if_neg hkv]
    exact h k hk

theorem visitHitPoint_agree (sqrtf : ℚ → ℚ) (Hash : Int → Int → Int → Nat)
    (hps : hybridsppm.HitPoints) (n : Nat) (invCellSize : ℚ) (s t : Grid × Nat) (j : Nat)
    (h : ∀ k, k < n → s.1 k = t.1 k) :
    ∀ k, k < n → (visitHitPoint sqrtf Hash hps invCellSize s j).1 k =
      (visitHitPoint sqrtf Hash hps invCellSize t j).1 k := by
  unfold visitHitPoint
  cases hps.hitPoints[j]? with
  | none => exact h
  | some hp =>
    simp only
    by_cases hs : hp.type = HitPointType.SURFACE
    · rw [if_pos hs, if_pos hs]
      unfold insertHitPoint
      simp only
      refine foldl_related (Grid × Nat) Nat (fun s t => ∀ k, k < n → s.1 k = t.1 k) _ ?_ _ s t h
      intro s t iz hst
      refine foldl_related (Grid × Nat) Nat (fun s t => ∀ k, k < n → s.1 k = t.1 k) _ ?_ _ s t hst
      intro s t iy hst
      refine foldl_related (Grid × Nat) Nat (fun s t => ∀ k, k < n → s.1 k = t.1 k) _ ?_ _ s t hst
      intro s t ix hst
      exact pushFront_agree n s t _ j hst
    · rw [if_neg hs, if_neg hs]
      exact h

/-- C11. After `RefreshMutex`, every reference held by a bucket of the grid (`k < gridSize`)
is to a `SURFACE` hit point of the store, so `CONSTANT_COLOR` hit points are never
registered; and the buckets do not depend on the grid state before the call: entries of a
previous build are discarded, and rebuilding over the same hit points gives the same
buckets. -/
theorem C11_only_surface_fresh_build (sqrtf : ℚ → ℚ) (Hash : Int → Int → Int → Nat)
    (self other : HashGrid) (hps : hybridsppm.HitPoints) :
    (∀ (k : Nat) (l : List Nat) (i : Nat),
      k < (RefreshMutex sqrtf Hash self hps).1.gridSize →
      (RefreshMutex sqrtf Hash self hps).1.bucket k = some l → i ∈ l → IsSurface hps i) ∧
    (∀ k : Nat, k < (RefreshMutex sqrtf Hash self hps).1.gridSize →
      (RefreshMutex sqrtf Hash other hps).1.bucket k =
        (RefreshMutex sqrtf Hash self hps).1.bucket k) ∧
    (∀ k : Nat, k < (RefreshMutex sqrtf Hash self hps).1.gridSize →
      (RefreshMutex sqrtf Hash (RefreshMutex sqrtf Hash self hps).1 hps).1.bucket k =
        (RefreshMutex sqrtf Hash self hps).1.bucket k) := by
  have hclear : ∀ (g : Option Grid) (k : Nat), k < hps.hitPoints.length % UINT_MOD →
      clearGrid (hps.hitPoints.length % UINT_MOD) g k = none := by
    intro g k hk
    unfold clearGrid
    cases g with
    | none => rfl
    | some a => simp only [if_pos hk]
  have hagree : ∀ (a b : HashGrid) (k : Nat), k < hps.hitPoints.length % UINT_MOD →
      (RefreshMutex sqrtf Hash a hps).1.bucket k = (RefreshMutex sqrtf Hash b hps).1.bucket k := by
    intro a b k hk
    unfold RefreshMutex HashGrid.bucket
    simp only
    refine foldl_related (Grid × Nat) Nat
      (fun s t => ∀ k, k < hps.hitPoints.length % UINT_MOD → s.1 k = t.1 k) _ ?_ _ _ _ ?_ k hk
    · intro s t j hst
      exact visitHitPoint_agree _ _ _ _ _ s t j hst
    · intro k hk
      simp only
      rw [hclear a.grid k hk, hclear b.grid k hk]
  refine ⟨?_, ?_, ?_⟩
  · intro k l i hk hl hi
    have hinv : OnlySurface hps (hps.hitPoints.length % UINT_MOD)
        ((List.range (hps.hitPoints.length % UINT_MOD)).foldl
          (visitHitPoint sqrtf Hash hps (1 / (sqrtf hps.maxPhotonRadius2 * 2)))
          (clearGrid (hps.hitPoints.length % UINT_MOD) self.grid, 0)) := by
      refine foldl_preserves _ _ (OnlySurface hps (hps.hitPoints.length % UINT_MOD)) _ ?_ _ _ ?_
      · intro s j hs
        exact visitHitPoint_onlySurface _ _ _ _ _ s j hs
      · intro k hk l hl
        simp only at hl
        rw [hclear self.grid k hk] at hl
        exact absurd hl (by simp)
    exact hinv k hk l hl i hi
  · intro k hk
    exact hagree other self k hk
  · intro k hk
    exact hagree _ self k hk

end lux

namespace lux

open hybridsppm hybridsppm.HashGrid

/-- A photon within the gather radius and with `Dot(normal, wi) > 0.0001`, visiting the hit
point `n` times, adds `n` to its in-flight photon count and `n` times its contribution to
its in-flight flux, and changes nothing else. -/
theorem addFluxHitPoint_iterate (F : Nat → Vector → Vector → SWCSpectrum) (P : Point)
    (wi : Vector) (photonFlux : SWCSpectrum) (hp : hybridsppm.HitPoint)
    (hnear : ¬ DistanceSquared hp.position P > hp.accumPhotonRadius2)
    (hdot : ¬ Dot hp.normal wi ≤ (1 : ℚ) / 10000) :
    ∀ n : Nat, (addFluxHitPoint F P wi photonFlux)^[n] hp =
      { hp with
        accumPhotonCount := hp.accumPhotonCount + n
        accumReflectedFlux :=
          hp.accumReflectedFlux + (n : ℚ) * (photonFlux * F hp.bsdf wi hp.wo * hp.throughput) } := by
  intro n
  induction n with
  | zero =>
    cases hp
    simp
  | succ n ih =>
    rw [Function.iterate_succ_apply', ih]
    unfold addFluxHitPoint
    simp only [if_neg hnear, if_neg hdot]
    cases hp
    simp only [hybridsppm.HitPoint.mk.injEq, true_and, and_true]
    constructor
    · omega
    · push_cast
      ring

/-- A photon with `Dot(normal, wi) ≤ 0.0001` leaves the visited hit point as it is. -/
theorem addFluxHitPoint_backfacing (F : Nat → Vector → Vector → SWCSpectrum) (P : Point)
    (wi : Vector) (photonFlux : SWCSpectrum) (hp : hybridsppm.HitPoint)
    (hdot : Dot hp.normal wi ≤ (1 : ℚ) / 10000) :
    addFluxHitPoint F P wi photonFlux hp = hp := by
  unfold addFluxHitPoint
  simp only [if_pos hdot, ite_self]

theorem toInt_half : toInt (1 / 2) = 0 := by
  unfold toInt
  have h : (0 : ℚ) ≤ 1 / 2 := by norm_num
  rw [if_pos h, Int.floor_eq_iff]
  norm_num

theorem toInt_zero : toInt 0 = 0 := by
  unfold toInt
  simp

/-- The grid built over the single hit point of `originStore` holds it once, in the bucket
of cell `(0, 0, 0)`, whatever the hash. -/
theorem originStore_bucket (Hash : Int → Int → Int → Nat) :
    lookupBucket Hash (HashGrid.new exampleSqrt Hash originStore) originStore.bbox.pMin
      ⟨0, 0, 0⟩ = some [0] := by
  have hr : cellRange (-(1 / 2)) (1 / 2) = [0] := by
    unfold cellRange cellIndex
    rw [toInt_neg_half, toInt_half]
    rfl
  have hc : cellIndex 0 = 0 := by
    unfold cellIndex
    rw [toInt_zero]
    rfl
  unfold lookupBucket HashGrid.new RefreshMutex
  simp only [originStore, List.length_singleton, clearGrid]
  have h1 : (1 : Nat) % UINT_MOD = 1 := by decide
  rw [h1]
  simp only [List.range_succ, List.range_zero, List.nil_append, List.foldl_cons, List.foldl_nil,
    visitHitPoint, List.getElem?_cons_zero, originHitPoint, if_true, insertHitPoint,
    exampleSqrt_one, Point.subVector, Point.sub, Vector.scale, Point.addVector]
  norm_num [hr, hc, pushFront]

/-- C13. For a hit point `hp` referenced by the bucket of the photon position `P`, with
`DistanceSquared(hp.position, P) ≤ hp.accumPhotonRadius2` and `Dot(hp.normal, wi) > 0.0001`,
one sequential call of `AddFlux` adds, per occurrence of `hp` in the bucket, 1 to
`hp.accumPhotonCount` and `photonFlux * F(wi, hp.wo) * hp.throughput` to
`hp.accumReflectedFlux`.  End-to-end example: for the single hit point at the origin
(radius² 1, normal `(0, 0, 1)`) and a flux 2 arriving from `(0, 0, 1)` at the origin, the
bucket lists the hit point once, the in-flight count becomes 1 and the in-flight flux
`2 * F * throughput`. -/
theorem C13_accepted_photon (Hash : Int → Int → Int → Nat)
    (F : Nat → Vector → Vector → SWCSpectrum) (self : HashGrid) (hps : hybridsppm.HitPoints)
    (P : Point) (wi : Vector) (photonFlux : SWCSpectrum) (i : Nat) (hp : hybridsppm.HitPoint)
    (bucket : List Nat) (hget : hps.hitPoints[i]? = some hp)
    (hbucket : lookupBucket Hash self hps.bbox.pMin P = some bucket) (hmem : i ∈ bucket)
    (hnear : DistanceSquared hp.position P ≤ hp.accumPhotonRadius2)
    (hdot : Dot hp.normal wi > (1 : ℚ) / 10000) :
    (∃ hp1 : hybridsppm.HitPoint,
      (AddFlux Hash F self hps P wi photonFlux).hitPoints[i]? = some hp1 ∧
      1 ≤ bucket.count i ∧
      hp1.accumPhotonCount = hp.accumPhotonCount + bucket.count i ∧
      hp1.accumReflectedFlux =
        hp.accumReflectedFlux +
          (bucket.count i : ℚ) * (photonFlux * F hp.bsdf wi hp.wo * hp.throughput)) ∧
    (lookupBucket Hash (HashGrid.new exampleSqrt Hash originStore) originStore.bbox.pMin
        ⟨0, 0, 0⟩ = some [0] ∧
      ∃ hp1 : hybridsppm.HitPoint,
        (AddFlux Hash F (HashGrid.new exampleSqrt Hash originStore) originStore ⟨0, 0, 0⟩
          ⟨0, 0, 1⟩ 2).hitPoints = [hp1] ∧
        hp1.accumPhotonCount = 1 ∧
        hp1.accumReflectedFlux =
          2 * F originHitPoint.bsdf ⟨0, 0, 1⟩ originHitPoint.wo * originHitPoint.throughput) := by
  constructor
  · rw [AddFlux_getElem, hget, Option.map_some', hbucket, Option.getD_some,
      addFluxHitPoint_iterate F P wi photonFlux hp (not_lt.mpr hnear) (not_le.mpr hdot)]
    exact ⟨_, rfl, List.count_pos_iff.mpr hmem, rfl, rfl⟩
  · refine ⟨originStore_bucket Hash, ?_⟩
    have hn : ¬ DistanceSquared originHitPoint.position ⟨0, 0, 0⟩ >
        originHitPoint.accumPhotonRadius2 := by
      norm_num [DistanceSquared, originHitPoint]
    have hd : ¬ Dot originHitPoint.normal ⟨0, 0, 1⟩ ≤ (1 : ℚ) / 10000 := by
      norm_num [Dot, originHitPoint]
    have hstep := addFluxHitPoint_iterate F ⟨0, 0, 0⟩ ⟨0, 0, 1⟩ 2 originHitPoint hn hd 1
    rw [Function.iterate_one] at hstep
    unfold AddFlux
    rw [originStore_bucket Hash]
    simp only [List.foldl_cons, List.foldl_nil]
    have hl : originStore.hitPoints = [originHitPoint] := rfl
    rw [hl, List.modify_zero_cons, hstep]
    refine ⟨_, rfl, ?_, ?_⟩
    · simp [originHitPoint]
    · simp [originHitPoint]

/-- Witness of C13: the end-to-end example, on the grid built with the example hash. -/
theorem C13_accepted_photon_witness :
    (originStore.hitPoints[0]? = some originHitPoint ∧
      lookupBucket (exampleHash 1) originGrid originStore.bbox.pMin ⟨0, 0, 0⟩ = some [0] ∧
      0 ∈ [0] ∧
      DistanceSquared originHitPoint.position ⟨0, 0, 0⟩ ≤ originHitPoint.accumPhotonRadius2 ∧
      Dot originHitPoint.normal ⟨0, 0, 1⟩ > (1 : ℚ) / 10000) ∧
    ∃ hp1 : hybridsppm.HitPoint,
      (AddFlux (exampleHash 1) exampleF originGrid originStore ⟨0, 0, 0⟩ ⟨0, 0, 1⟩
        2).hitPoints[0]? = some hp1 ∧
      1 ≤ [0].count 0 ∧
      hp1.accumPhotonCount = originHitPoint.accumPhotonCount + [0].count 0 ∧
      hp1.accumReflectedFlux =
        originHitPoint.accumReflectedFlux +
          (([0].count 0 : Nat) : ℚ) *
            (2 * exampleF originHitPoint.bsdf ⟨0, 0, 1⟩ originHitPoint.wo *
              originHitPoint.throughput) :=
  ⟨⟨rfl, originStore_bucket (exampleHash 1), List.mem_singleton.mpr rfl,
      by norm_num [DistanceSquared, originHitPoint], by norm_num [Dot, originHitPoint]⟩,
    (C13_accepted_photon (exampleHash 1) exampleF originGrid originStore ⟨0, 0, 0⟩ ⟨0, 0, 1⟩ 2
      0 originHitPoint [0] rfl (originStore_bucket (exampleHash 1))
      (List.mem_singleton.mpr rfl) (by norm_num [DistanceSquared, originHitPoint])
      (by norm_num [Dot, originHitPoint])).1⟩

/-- C14. For every hit point `hp` of the store and incoming direction `wi` with
`Dot(hp.normal, wi) ≤ 0.0001` (back-facing or grazing), `AddFlux` leaves
`hp.accumPhotonCount` and `hp.accumReflectedFlux` unchanged, wherever the photon lies. -/
theorem C14_backfacing_rejected (Hash : Int → Int → Int → Nat)
    (F : Nat → Vector → Vector → SWCSpectrum) (self : HashGrid) (hps : hybridsppm.HitPoints)
    (P : Point) (wi : Vector) (photonFlux : SWCSpectrum) (i : Nat) (hp : hybridsppm.HitPoint)
    (hget : hps.hitPoints[i]? = some hp)
    (hdot : Dot hp.normal wi ≤ (1 : ℚ) / 10000) :
    ∃ hp1 : hybridsppm.HitPoint,
      (AddFlux Hash F self hps P wi photonFlux).hitPoints[i]? = some hp1 ∧
      hp1.accumPhotonCount = hp.accumPhotonCount ∧
      hp1.accumReflectedFlux = hp.accumReflectedFlux := by
  rw [AddFlux_getElem, hget, Option.map_some',
    iterate_fixed _ _ hp (addFluxHitPoint_backfacing F P wi photonFlux hp hdot)]
  exact ⟨hp, rfl, rfl, rfl⟩

/-- Witness of C14: a photon arriving at the example hit point (normal `(0, 0, 1)`) from
`(0, 0, -1)`, within its gather radius. -/
theorem C14_backfacing_rejected_witness :
    (originStore.hitPoints[0]? = some originHitPoint ∧
      Dot originHitPoint.normal ⟨0, 0, -1⟩ ≤ (1 : ℚ) / 10000) ∧
    ∃ hp1 : hybridsppm.HitPoint,
      (AddFlux (exampleHash 1) exampleF originGrid originStore ⟨0, 0, 0⟩ ⟨0, 0, -1⟩
        2).hitPoints[0]? = some hp1 ∧
      hp1.accumPhotonCount = originHitPoint.accumPhotonCount ∧
      hp1.accumReflectedFlux = originHitPoint.accumReflectedFlux :=
  ⟨⟨rfl, by norm_num [Dot, originHitPoint]⟩,
    C14_backfacing_rejected (exampleHash 1) exampleF originGrid originStore ⟨0, 0, 0⟩
      ⟨0, 0, -1⟩ 2 0 originHitPoint rfl (by norm_num [Dot, originHitPoint])⟩

end lux

/-! ## `GetPhotonHitEfficency` -/

namespace lux

open HitPoints

theorem photonHitsCount_eq (hp : HitPoint) :
    photonHitsCount hp = totalAccumPhotonCount hp % UINT_MOD := by
  unfold photonHitsCount totalAccumPhotonCount
  rw [foldl_add_mod _ _ _ _ _ (by unfold UINT_MOD; omega), Nat.zero_add]

/-- The two counters after the loop of `GetPhotonHitEfficency`, started from `(a, b)`. -/
theorem foldl_countHitPoint (passIndex : Nat) (l : List HitPoint) :
    ∀ a b : Nat, a < UINT_MOD → b < UINT_MOD →
      l.foldl (countHitPoint passIndex) (a, b) =
        ((a + (l.filter
            (fun hp => decide ((hp.eyePass passIndex).type = HitPointType.SURFACE))).length) %
            UINT_MOD,
          (b + ((l.filter
            (fun hp => decide ((hp.eyePass passIndex).type = HitPointType.SURFACE))).filter
              (fun hp => decide (0 < photonHitsCount hp))).length) % UINT_MOD) := by
  induction l with
  | nil =>
    intro a b ha hb
    simp [Nat.mod_eq_of_lt ha, Nat.mod_eq_of_lt hb]
  | cons hp l ih =>
    intro a b ha hb
    have hM : 0 < UINT_MOD := by unfold UINT_MOD; omega
    rw [List.foldl_cons]
    by_cases hs : (hp.eyePass passIndex).type = HitPointType.SURFACE
    · have hf : (hp :: l).filter
          (fun hp => decide ((hp.eyePass passIndex).type = HitPointType.SURFACE)) =
          hp :: l.filter
            (fun hp => decide ((hp.eyePass passIndex).type = HitPointType.SURFACE)) := by
        rw [List.filter_cons_of_pos (by simpa using hs)]
      rw [hf]
      by_cases hu : photonHitsCount hp > 0
      · have hstep : countHitPoint passIndex (a, b) hp =
            ((a + 1) % UINT_MOD, (b + 1) % UINT_MOD) := by
          unfold countHitPoint
          rw [if_pos hs, if_pos hu]
        rw [hstep, ih _ _ (Nat.mod_lt _ hM) (Nat.mod_lt _ hM),
          List.filter_cons_of_pos (by simpa using hu)]
        simp only [List.length_cons, Nat.mod_add_mod]
        congr 2 <;> omega
      · have hstep : countHitPoint passIndex (a, b) hp = ((a + 1) % UINT_MOD, b) := by
          unfold countHitPoint
          rw [if_pos hs, if_neg hu]
        rw [hstep, ih _ _ (Nat.mod_lt _ hM) hb,
          List.filter_cons_of_neg (by simpa using hu)]
        simp only [List.length_cons, Nat.mod_add_mod]
        congr 2; omega
    · have hstep : countHitPoint passIndex (a, b) hp = (a, b) := by
        unfold countHitPoint
        rw [if_neg hs]
      rw [hstep, ih a b ha hb, List.filter_cons_of_neg (by simpa using hs)]

/-- With no `SURFACE` hit point in the active slot, `surfaceHitPointsCount` is 0 and the
quotient returned by `GetPhotonHitEfficency` is `0.0 / 0.0`: not a number. -/
theorem GetPhotonHitEfficency_no_surface (hps : HitPoints) (h : surfaceHitPoints hps = []) :
    GetPhotonHitEfficency hps = none := by
  unfold surfaceHitPoints at h
  unfold GetPhotonHitEfficency
  simp only
  rw [foldl_countHitPoint _ _ 0 0 (by unfold UINT_MOD; omega) (by unfold UINT_MOD; omega), h]
  simp [fdiv]

/-- With at least one `SURFACE` hit point in the active slot (the population and the
in-flight counts fitting their `u_int` counters), `GetPhotonHitEfficency` returns
`100 * updated / surface`, a value between 0 and 100. -/
theorem GetPhotonHitEfficency_of_surface (hps : HitPoints)
    (hlen : hps.hitPoints.length < UINT_MOD)
    (hcount : ∀ hp ∈ hps.hitPoints, totalAccumPhotonCount hp < UINT_MOD)
    (hsurf : surfaceHitPoints hps ≠ []) :
    GetPhotonHitEfficency hps =
        some (100 * ((updatedHitPoints hps).length : ℚ) / ((surfaceHitPoints hps).length : ℚ)) ∧
      0 ≤ 100 * ((updatedHitPoints hps).length : ℚ) / ((surfaceHitPoints hps).length : ℚ) ∧
      100 * ((updatedHitPoints hps).length : ℚ) / ((surfaceHitPoints hps).length : ℚ) ≤ 100 := by
  have hfilter : (surfaceHitPoints hps).filter (fun hp => decide (0 < photonHitsCount hp)) =
      updatedHitPoints hps := by
    unfold updatedHitPoints
    apply List.filter_congr
    intro hp hmem
    have hmem2 : hp ∈ hps.hitPoints := (List.mem_filter.mp hmem).1
    rw [photonHitsCount_eq, Nat.mod_eq_of_lt (hcount hp hmem2)]
  have hs_le : (surfaceHitPoints hps).length ≤ hps.hitPoints.length := List.length_filter_le _ _
  have hu_le : (updatedHitPoints hps).length ≤ (surfaceHitPoints hps).length :=
    List.length_filter_le _ _
  have hs_pos : 0 < (surfaceHitPoints hps).length := List.length_pos.mpr hsurf
  have hsq : (0 : ℚ) < ((surfaceHitPoints hps).length : ℚ) := by exact_mod_cast hs_pos
  have huq : ((updatedHitPoints hps).length : ℚ) ≤ ((surfaceHitPoints hps).length : ℚ) := by
    exact_mod_cast hu_le
  have hu0 : (0 : ℚ) ≤ ((updatedHitPoints hps).length : ℚ) := by exact_mod_cast Nat.zero_le _
  refine ⟨?_, ?_, ?_⟩
  · unfold GetPhotonHitEfficency
    simp only
    rw [foldl_countHitPoint _ _ 0 0 (by unfold UINT_MOD; omega) (by unfold UINT_MOD; omega)]
    have e1 : hps.hitPoints.filter (fun hp =>
        decide ((hp.eyePass (hps.currentPhotonPass % 2)).type = HitPointType.SURFACE)) =
        surfaceHitPoints hps := rfl
    rw [e1, hfilter]
    simp only [Nat.zero_add]
    rw [Nat.mod_eq_of_lt (by omega), Nat.mod_eq_of_lt (by omega)]
    unfold fdiv
    rw [if_neg (ne_of_gt hsq)]
  · exact div_nonneg (mul_nonneg (by norm_num) hu0) (le_of_lt hsq)
  · rw [div_le_iff₀ hsq]
    nlinarith

/-- C16 (code defect). For the store whose only hit point is `CONSTANT_COLOR`, the loop of
`GetPhotonHitEfficency` leaves both counters at 0 and the returned quotient `100.0 * 0 / 0`
is not a number: no value `r` with `0 ≤ r ≤ 100` is returned.  (With at least one `SURFACE`
hit point the returned value is `100 * updated / surface`, within `[0, 100]`:
`GetPhotonHitEfficency_of_surface`.) -/
theorem C16_efficiency_not_a_number :
    surfaceHitPoints exampleConstantStore = [] ∧
    exampleConstantStore.hitPoints.foldl
      (countHitPoint (exampleConstantStore.currentPhotonPass % 2)) (0, 0) = (0, 0) ∧
    GetPhotonHitEfficency exampleConstantStore = none ∧
    ¬ ∃ r : ℚ, GetPhotonHitEfficency exampleConstantStore = some r ∧ 0 ≤ r ∧ r ≤ 100 := by
  have h : GetPhotonHitEfficency exampleConstantStore = none :=
    GetPhotonHitEfficency_no_surface exampleConstantStore rfl
  refine ⟨rfl, rfl, h, ?_⟩
  rintro ⟨r, hr, _⟩
  rw [h] at hr
  exact absurd hr (by simp)

/-- C17 (code defect). For the empty population no hit point is `SURFACE`, the divisor
`surfaceHitPointsCount` is 0, and `GetPhotonHitEfficency` does divide by it: the value
returned is not 0 but the quotient `0.0 / 0.0`. -/
theorem C17_zero_surface_divides_by_zero :
    surfaceHitPoints exampleEmptyStore = [] ∧
    (exampleEmptyStore.hitPoints.foldl
      (countHitPoint (exampleEmptyStore.currentPhotonPass % 2)) (0, 0)).1 = 0 ∧
    GetPhotonHitEfficency exampleEmptyStore = none ∧
    GetPhotonHitEfficency exampleEmptyStore ≠ some 0 := by
  have h : GetPhotonHitEfficency exampleEmptyStore = none :=
    GetPhotonHitEfficency_no_surface exampleEmptyStore rfl
  refine ⟨rfl, rfl, h, ?_⟩
  rw [h]
  simp

end lux

/-! ## `UpdateFilm` -/

namespace lux

open HitPoints

/-- A loop whose body appends one entry to the list it threads appends the same entries
whatever the list it starts from. -/
theorem forIdx_append_singleton (α β : Type) (g : Nat → α → β) (l : List α) :
    ∀ (k : Nat) (acc : List β),
      forIdx (fun (j : Nat) (d : α) (film : List β) => film ++ [g j d]) k l acc =
        acc ++ forIdx (fun (j : Nat) (d : α) (film : List β) => film ++ [g j d]) k l [] := by
  induction l with
  | nil => intro k acc; simp [forIdx]
  | cons a rest ih =>
    intro k acc
    simp only [forIdx]
    rw [ih (k + 1) (acc ++ [g k a]), ih (k + 1) ([] ++ [g k a])]
    simp

/-- The entries appended by such a loop: one per element, in order. -/
theorem forIdx_singleton_getElem (α β : Type) (g : Nat → α → β) (l : List α) :
    ∀ (k : Nat),
      (forIdx (fun (j : Nat) (d : α) (film : List β) => film ++ [g j d]) k l []).length =
          l.length ∧
        ∀ (j : Nat) (d : α), l[j]? = some d →
          (forIdx (fun (j : Nat) (d : α) (film : List β) => film ++ [g j d]) k l [])[j]? =
            some (g (k + j) d) := by
  induction l with
  | nil =>
    intro k
    refine ⟨rfl, ?_⟩
    intro j d hd
    simp at hd
  | cons a rest ih =>
    intro k
    obtain ⟨hlen, hget⟩ := ih (k + 1)
    simp only [forIdx]
    rw [forIdx_append_singleton]
    refine ⟨by simp [hlen], ?_⟩
    intro j d hd
    cases j with
    | zero =>
      simp only [List.getElem?_cons_zero, Option.some.injEq] at hd
      simp [hd]
    | succ j =>
      simp only [List.getElem?_cons_succ] at hd
      have := hget j d hd
      simp only [List.nil_append, List.singleton_append, List.getElem?_cons_succ]
      rw [this]
      congr 2
      omega

/-- A loop whose body appends a block of entries produces the concatenation of the blocks,
one per element, in order. -/
theorem forIdx_blocks (α β : Type) (body : Nat → α → List β → List β)
    (hbody : ∀ (i : Nat) (a : α) (acc : List β), body i a acc = acc ++ body i a [])
    (l : List α) :
    ∀ (k : Nat) (acc : List β), ∃ blocks : List (List β),
      forIdx body k l acc = acc ++ blocks.flatten ∧ blocks.length = l.length ∧
        ∀ (i : Nat) (a : α), l[i]? = some a → blocks[i]? = some (body (k + i) a []) := by
  induction l with
  | nil =>
    intro k acc
    refine ⟨[], by simp [forIdx], rfl, ?_⟩
    intro i a ha
    simp at ha
  | cons a rest ih =>
    intro k acc
    obtain ⟨blocks, hb, hlen, hget⟩ := ih (k + 1) (body k a acc)
    refine ⟨body k a [] :: blocks, ?_, by simp [hlen], ?_⟩
    · simp only [forIdx]
      rw [hb, hbody k a acc]
      simp
    · intro i x hx
      cases i with
      | zero =>
        simp only [List.getElem?_cons_zero, Option.some.injEq] at hx
        simp [hx]
      | succ i =>
        simp only [List.getElem?_cons_succ] at hx
        have := hget i x hx
        simp only [List.getElem?_cons_succ]
        rw [this]
        congr 2
        omega

theorem XYZColor_scale_one_div (a : XYZColor) (x : ℚ) :
    XYZColor.scale a (1 / x) = XYZColor.divide a x := by
  unfold XYZColor.scale XYZColor.divide
  simp only [mul_one_div]

/-- The indicator of one index sums to 1 over a range that holds the index. -/
theorem sum_range_indicator (m : Nat) :
    ∀ n : Nat, ((List.range n).map (fun (k : Nat) => if k = m then 1 else 0)).sum =
      if m < n then 1 else 0 := by
  intro n
  induction n with
  | zero => simp
  | succ n ih =>
    rw [List.range_succ, List.map_append, List.sum_append, ih]
    simp only [List.map_cons, List.map_nil, List.sum_cons, List.sum_nil, Nat.add_zero]
    by_cases h1 : m < n
    · have h2 : ¬ n = m := by omega
      have h3 : m < n + 1 := by omega
      rw [if_pos h1, if_neg h2, if_pos h3]
    · by_cases h2 : n = m
      · have h3 : m < n + 1 := by omega
        rw [if_neg h1, if_pos h2, if_pos h3]
      · have h3 : ¬ m < n + 1 := by omega
        rw [if_neg h1, if_neg h2, if_neg h3]

/-- C18. The film samples written by `UpdateFilm(totalPhotons)` are, hit point after hit
point and whatever the type of the hit point, one sample per light group `j`: its radiance is
`accumRadiance[j] / (currentPhotonPass + 1) + reflectedFlux[j] / (pi * accumPhotonRadius2 *
totalPhotons)`, and it carries the alpha and distance of the eye-pass slot
`currentPhotonPass % 2`. -/
theorem C18_one_sample_per_pair (GetNextPixel : Nat → Int × Int) (bufferId : Nat)
    (passCount hltSpp secsElapsed hltTime : Int) (hps : HitPoints) (totalPhotons : Nat) :
    ∃ blocks : List (List Contribution),
      (UpdateFilm GetNextPixel bufferId passCount hltSpp secsElapsed hltTime hps
        totalPhotons).film = blocks.flatten ∧
      blocks.length = hps.hitPoints.length ∧
      ∀ (i : Nat) (hp : HitPoint), hps.hitPoints[i]? = some hp →
        ∃ block : List Contribution, blocks[i]? = some block ∧
          block.length = hp.lightGroupData.length ∧
          ∀ (j : Nat) (d : HitPointLightGroup), hp.lightGroupData[j]? = some d →
            block[j]? = some
              { imageX := (GetNextPixel i).1
                imageY := (GetNextPixel i).2
                color :=
                  XYZColor.add
                    (XYZColor.divide d.accumRadiance ((hps.currentPhotonPass : ℚ) + 1))
                    (XYZColor.divide d.reflectedFlux
                      (M_PI * hp.accumPhotonRadius2 * (totalPhotons : ℚ)))
                alpha := (hp.eyePass (hps.currentPhotonPass % 2)).alpha
                zdepth := (hp.eyePass (hps.currentPhotonPass % 2)).distance
                variance := 0
                buffer := bufferId
                bufferGroup := j } := by
  obtain ⟨blocks, hb, hlen, hget⟩ := forIdx_blocks HitPoint Contribution
    (updateFilmHitPoint GetNextPixel bufferId hps.currentPhotonPass totalPhotons)
    (fun i hp acc => by
      unfold updateFilmHitPoint
      exact forIdx_append_singleton _ _ _ _ _ _)
    hps.hitPoints 0 []
  refine ⟨blocks, ?_, hlen, ?_⟩
  · unfold UpdateFilm
    simp only
    rw [hb, List.nil_append]
  · intro i hp hi
    refine ⟨_, hget i hp hi, ?_, ?_⟩
    · unfold updateFilmHitPoint
      exact (forIdx_singleton_getElem _ _ _ _ _).1
    · intro j d hd
      unfold updateFilmHitPoint
      rw [(forIdx_singleton_getElem _ _ _ _ _).2 j d hd]
      simp only [Nat.zero_add, newRadiance, XYZColor_scale_one_div, Nat.cast_add, Nat.cast_one]

/-- C19. Halt condition.  With the time budget disabled (`haltTime ≤ 0`), over a run of
`UpdateFilm` calls in which the reported pass count is 1, 2, 3, ... (call number `k`,
counted from 0, reports `k + 1`): if `haltSamplesPerPixel = h > 0`, `renderer->Terminate()`
is not invoked at a call whose pass count is below `h`, is invoked once at the call whose
pass count is `h`, and has been invoked exactly once in total after any `n ≥ h` calls; if
`haltSamplesPerPixel ≤ 0` it is invoked at no call, whatever the pass count. -/
theorem C19_halt_condition (GetNextPixel : Nat → Int × Int) (bufferId : Nat) (h hltTime : Int)
    (hpsAt : Nat → HitPoints) (photonsAt : Nat → Nat) (secsAt : Nat → Int)
    (ht : hltTime ≤ 0) :
    (0 < h →
      (∀ k : Nat, (k : Int) + 1 < h →
        (UpdateFilm GetNextPixel bufferId ((k : Int) + 1) h (secsAt k) hltTime (hpsAt k)
          (photonsAt k)).terminateCalls = 0) ∧
      (∀ k : Nat, (k : Int) + 1 = h →
        (UpdateFilm GetNextPixel bufferId ((k : Int) + 1) h (secsAt k) hltTime (hpsAt k)
          (photonsAt k)).terminateCalls = 1) ∧
      (∀ n : Nat, h ≤ (n : Int) →
        ((List.range n).map (fun (k : Nat) =>
          (UpdateFilm GetNextPixel bufferId ((k : Int) + 1) h (secsAt k) hltTime (hpsAt k)
            (photonsAt k)).terminateCalls)).sum = 1)) ∧
    (h ≤ 0 → ∀ (k : Nat) (passCount : Int),
      (UpdateFilm GetNextPixel bufferId passCount h (secsAt k) hltTime (hpsAt k)
        (photonsAt k)).terminateCalls = 0) := by
  have htime : ¬ hltTime > 0 := by omega
  constructor
  · intro hh
    have hcall : ∀ k : Nat,
        (UpdateFilm GetNextPixel bufferId ((k : Int) + 1) h (secsAt k) hltTime (hpsAt k)
          (photonsAt k)).terminateCalls = if k = (h - 1).toNat then 1 else 0 := by
      intro k
      unfold UpdateFilm haltCheck
      simp only [if_pos hh, if_neg htime, Nat.add_zero]
      by_cases hk : (k : Int) + 1 = h
      · rw [if_pos hk, if_pos (by omega)]
      · rw [if_neg hk, if_neg (by omega)]
    refine ⟨?_, ?_, ?_⟩
    · intro k hk
      rw [hcall, if_neg (by omega)]
    · intro k hk
      rw [hcall, if_pos (by omega)]
    · intro n hn
      rw [funext hcall, sum_range_indicator, if_pos (by omega)]
  · intro hh k passCount
    unfold UpdateFilm haltCheck
    simp only [if_neg htime, if_neg (not_lt.mpr hh)]

/-- Witness of C19: `haltSamplesPerPixel = 5`, no time budget, on the example store: no
termination at the first four calls, one at the fifth, one in total after seven calls. -/
theorem C19_halt_condition_witness :
    ((0 : Int) ≤ 0 ∧ (0 : Int) < 5) ∧
    ((∀ k : Nat, (k : Int) + 1 < 5 →
        (UpdateFilm exampleGetNextPixel 0 ((k : Int) + 1) 5 (k : Int) 0 exampleStore
          1000).terminateCalls = 0) ∧
      (∀ k : Nat, (k : Int) + 1 = 5 →
        (UpdateFilm exampleGetNextPixel 0 ((k : Int) + 1) 5 (k : Int) 0 exampleStore
          1000).terminateCalls = 1) ∧
      (∀ n : Nat, (5 : Int) ≤ (n : Int) →
        ((List.range n).map (fun (k : Nat) =>
          (UpdateFilm exampleGetNextPixel 0 ((k : Int) + 1) 5 (k : Int) 0 exampleStore
            1000).terminateCalls)).sum = 1)) :=
  ⟨⟨by decide, by decide⟩,
    (C19_halt_condition exampleGetNextPixel 0 5 0 (fun _ => exampleStore) (fun _ => 1000)
      (fun k => (k : Int)) (by decide)).1 (by decide)⟩

end lux

/-! ## `Init` -/

namespace lux

open HitPoints

/-- The box under construction is the bounding box of the points met so far (the empty box
when none was met). -/
theorem unionPoint_isBoundingBox (ps : List Point) (b : Option hybridsppm.BBox) (p : Point)
    (h : (ps = [] ∧ b = none) ∨ ∃ box, b = some box ∧ IsBoundingBox ps box) :
    ∃ box, unionPoint b p = some box ∧ IsBoundingBox (ps ++ [p]) box := by
  rcases h with ⟨hps, hb⟩ | ⟨box, hb, hin, hx0, hy0, hz0, hx1, hy1, hz1⟩
  · subst hps hb
    refine ⟨⟨p, p⟩, rfl, ?_⟩
    have hp : p ∈ ([] : List Point) ++ [p] := by simp
    refine ⟨?_, ⟨p, hp, rfl⟩, ⟨p, hp, rfl⟩, ⟨p, hp, rfl⟩, ⟨p, hp, rfl⟩, ⟨p, hp, rfl⟩,
      ⟨p, hp, rfl⟩⟩
    intro q hq
    have hq2 : q = p := by simpa using hq
    subst hq2
    exact ⟨⟨le_refl _, le_refl _⟩, ⟨le_refl _, le_refl _⟩, ⟨le_refl _, le_refl _⟩⟩
  · subst hb
    have hp : p ∈ ps ++ [p] := by simp
    have hmem : ∀ q, q ∈ ps → q ∈ ps ++ [p] := fun q hq => List.mem_append_left _ hq
    have tmin : ∀ (f : Point → ℚ) (m : ℚ), (∃ q ∈ ps, f q = m) →
        ∃ q ∈ ps ++ [p], f q = min m (f p) := by
      intro f m hm
      obtain ⟨q, hq, hfq⟩ := hm
      rcases le_total m (f p) with hle | hle
      · exact ⟨q, hmem q hq, by rw [min_eq_left hle]; exact hfq⟩
      · exact ⟨p, hp, by rw [min_eq_right hle]⟩
    have tmax : ∀ (f : Point → ℚ) (m : ℚ), (∃ q ∈ ps, f q = m) →
        ∃ q ∈ ps ++ [p], f q = max m (f p) := by
      intro f m hm
      obtain ⟨q, hq, hfq⟩ := hm
      rcases le_total m (f p) with hle | hle
      · exact ⟨p, hp, by rw [max_eq_right hle]⟩
      · exact ⟨q, hmem q hq, by rw [max_eq_left hle]; exact hfq⟩
    refine ⟨_, rfl, ?_, tmin (fun q => q.x) _ hx0, tmin (fun q => q.y) _ hy0,
      tmin (fun q => q.z) _ hz0, tmax (fun q => q.x) _ hx1, tmax (fun q => q.y) _ hy1,
      tmax (fun q => q.z) _ hz1⟩
    intro q hq
    rcases List.mem_append.mp hq with hq1 | hq1
    · obtain ⟨⟨a1, a2⟩, ⟨b1, b2⟩, ⟨c1, c2⟩⟩ := hin q hq1
      exact ⟨⟨le_trans (min_le_left _ _) a1, le_trans a2 (le_max_left _ _)⟩,
        ⟨le_trans (min_le_left _ _) b1, le_trans b2 (le_max_left _ _)⟩,
        ⟨le_trans (min_le_left _ _) c1, le_trans c2 (le_max_left _ _)⟩⟩
    · have hq2 : q = p := by simpa using hq1
      subst hq2
      exact ⟨⟨min_le_right _ _, le_max_right _ _⟩, ⟨min_le_right _ _, le_max_right _ _⟩,
        ⟨min_le_right _ _, le_max_right _ _⟩⟩

theorem foldl_initBBox (l : List HitPoint) :
    ∀ (ps : List Point) (b : Option hybridsppm.BBox),
      ((ps = [] ∧ b = none) ∨ ∃ box, b = some box ∧ IsBoundingBox ps box) →
      ((ps ++ surfacePositions0 l = [] ∧
          l.foldl (fun (b : Option hybridsppm.BBox) (hp : HitPoint) =>
            if (hp.eyePass 0).type = HitPointType.SURFACE then
              unionPoint b (hp.eyePass 0).position
            else b) b = none) ∨
        ∃ box,
          l.foldl (fun (b : Option hybridsppm.BBox) (hp : HitPoint) =>
            if (hp.eyePass 0).type = HitPointType.SURFACE then
              unionPoint b (hp.eyePass 0).position
            else b) b = some box ∧
          IsBoundingBox (ps ++ surfacePositions0 l) box) := by
  induction l with
  | nil =>
    intro ps b h
    simpa [surfacePositions0] using h
  | cons hp l ih =>
    intro ps b h
    rw [List.foldl_cons]
    by_cases hs : (hp.eyePass 0).type = HitPointType.SURFACE
    · have hpos : surfacePositions0 (hp :: l) = (hp.eyePass 0).position :: surfacePositions0 l := by
        unfold surfacePositions0
        rw [List.filter_cons_of_pos (by simpa using hs), List.map_cons]
      obtain ⟨box, hbox, hbb⟩ := unionPoint_isBoundingBox ps b (hp.eyePass 0).position h
      have := ih (ps ++ [(hp.eyePass 0).position]) (unionPoint b (hp.eyePass 0).position)
        (Or.inr ⟨box, hbox, hbb⟩)
      rw [if_pos hs, hpos]
      simpa using this
    · have hpos : surfacePositions0 (hp :: l) = surfacePositions0 l := by
        unfold surfacePositions0
        rw [List.filter_cons_of_neg (by simpa using hs)]
      rw [if_neg hs, hpos]
      exact ih ps b h

/-- When a hit point is `SURFACE` in slot 0, the box computed by the first loop of `Init` is
the bounding box of the positions of the `SURFACE` hit points. -/
theorem initBBox_isBoundingBox (l : List HitPoint) (h : surfacePositions0 l ≠ []) :
    ∃ box, initBBox l = some box ∧ IsBoundingBox (surfacePositions0 l) box := by
  rcases foldl_initBBox l [] none (Or.inl ⟨rfl, rfl⟩) with ⟨h1, _⟩ | ⟨box, h1, h2⟩
  · rw [List.nil_append] at h1
    exact absurd h1 h
  · rw [List.nil_append] at h2
    exact ⟨box, h1, h2⟩

/-- C20. After `HitPoints::Init` on a population with at least one `SURFACE` hit point in
eye-pass slot 0, `initialPhotonRadius` equals `photonStartRadiusScale * ((sx + sy + sz) / 3) /
sqrt(totalPixels) * 2`, where `(sx, sy, sz)` is the extent of the bounding box of the positions
of the `SURFACE` hit points in slot 0; every hit point of the population, `SURFACE` or not,
has `accumPhotonRadius2 = initialPhotonRadius²`, which is also the value recorded as
`maxHitPointRadius2[0]`. -/
theorem C20_initial_radius (sqrtf : ℚ → ℚ) (photonStartRadiusScale : ℚ) (totalPixels : Nat)
    (hps : HitPoints)
    (hsurf : ∃ hp ∈ hps.hitPoints, (hp.eyePass 0).type = HitPointType.SURFACE) :
    ∃ (st : InitState) (box : hybridsppm.BBox),
      Init sqrtf photonStartRadiusScale totalPixels hps = some st ∧
      IsBoundingBox (surfacePositions0 hps.hitPoints) box ∧
      st.initialPhotonRadius =
        photonStartRadiusScale *
            (((box.pMax.x - box.pMin.x) + (box.pMax.y - box.pMin.y) +
              (box.pMax.z - box.pMin.z)) / 3) /
          sqrtf (totalPixels : ℚ) * 2 ∧
      st.hitPoints.length = hps.hitPoints.length ∧
      (∀ (i : Nat) (hp : HitPoint), hps.hitPoints[i]? = some hp →
        ∃ hp1 : HitPoint, st.hitPoints[i]? = some hp1 ∧
          hp1.accumPhotonRadius2 = st.initialPhotonRadius * st.initialPhotonRadius ∧
          hp1.eyePass0 = hp.eyePass0 ∧ hp1.eyePass1 = hp.eyePass1 ∧
          hp1.lightGroupData = hp.lightGroupData) ∧
      st.maxHitPointRadius2_0 = st.initialPhotonRadius * st.initialPhotonRadius := by
  have hne : surfacePositions0 hps.hitPoints ≠ [] := by
    obtain ⟨hp, hmem, hs⟩ := hsurf
    have : (hp.eyePass 0).position ∈ surfacePositions0 hps.hitPoints := by
      unfold surfacePositions0
      exact List.mem_map.mpr ⟨hp, List.mem_filter.mpr ⟨hmem, by simpa using hs⟩, rfl⟩
    exact List.ne_nil_of_mem this
  obtain ⟨box, hbox, hbb⟩ := initBBox_isBoundingBox hps.hitPoints hne
  unfold Init
  rw [hbox]
  refine ⟨_, box, rfl, hbb, rfl, ?_, ?_, rfl⟩
  · simp only [List.length_map]
  · intro i hp hi
    simp only [List.getElem?_map, hi, Option.map_some']
    exact ⟨_, rfl, rfl, rfl, rfl, rfl⟩

/-- Witness of C20: the example population of four hit points, two of them `SURFACE`. -/
theorem C20_initial_radius_witness :
    (∃ hp ∈ exampleInitStore.hitPoints, (hp.eyePass 0).type = HitPointType.SURFACE) ∧
    ∃ (st : InitState) (box : hybridsppm.BBox),
      Init hybridsppm.exampleSqrt 1 4 exampleInitStore = some st ∧
      IsBoundingBox (surfacePositions0 exampleInitStore.hitPoints) box ∧
      st.initialPhotonRadius =
        1 * (((box.pMax.x - box.pMin.x) + (box.pMax.y - box.pMin.y) +
              (box.pMax.z - box.pMin.z)) / 3) /
          hybridsppm.exampleSqrt ((4 : Nat) : ℚ) * 2 ∧
      st.hitPoints.length = exampleInitStore.hitPoints.length ∧
      (∀ (i : Nat) (hp : HitPoint), exampleInitStore.hitPoints[i]? = some hp →
        ∃ hp1 : HitPoint, st.hitPoints[i]? = some hp1 ∧
          hp1.accumPhotonRadius2 = st.initialPhotonRadius * st.initialPhotonRadius ∧
          hp1.eyePass0 = hp.eyePass0 ∧ hp1.eyePass1 = hp.eyePass1 ∧
          hp1.lightGroupData = hp.lightGroupData) ∧
      st.maxHitPointRadius2_0 = st.initialPhotonRadius * st.initialPhotonRadius :=
  ⟨⟨exampleHitPoint, by simp [exampleInitStore], rfl⟩,
    C20_initial_radius hybridsppm.exampleSqrt 1 4 exampleInitStore
      ⟨exampleHitPoint, by simp [exampleInitStore], rfl⟩⟩

end lux

/-! ## Frame of `AccumulateFlux` and bounds of the reduction factor -/

namespace lux

open HitPoints

theorem foldl_modify_length (α : Type) (f : α → α) (ks : List Nat) :
    ∀ l : List α, (ks.foldl (fun l k => l.modify f k) l).length = l.length := by
  induction ks with
  | nil => intro l; rfl
  | cons k ks ih => intro l; rw [List.foldl_cons, ih, List.length_modify]

theorem mergeCounts_accumRadiance (d : HitPointLightGroup) :
    (mergeCounts d).accumRadiance = d.accumRadiance := rfl

theorem mergeFlux_accumRadiance (fluxScale g : ℚ) (d : HitPointLightGroup) :
    (mergeFlux fluxScale g d).accumRadiance = d.accumRadiance := rfl

/-- The merge of one hit point touches neither of its eye-pass slots nor the `accumRadiance`
of any light group. -/
theorem accumulateHitPoint_frame (alpha fluxScale : ℚ) (passIndex : Nat) (hp : HitPoint) :
    (accumulateHitPoint alpha fluxScale passIndex hp).eyePass0 = hp.eyePass0 ∧
    (accumulateHitPoint alpha fluxScale passIndex hp).eyePass1 = hp.eyePass1 ∧
    (accumulateHitPoint alpha fluxScale passIndex hp).lightGroupData.map
        (fun d => d.accumRadiance) =
      hp.lightGroupData.map (fun d => d.accumRadiance) := by
  unfold accumulateHitPoint
  by_cases hs : (hp.eyePass passIndex).type = HitPointType.SURFACE
  · rw [if_pos hs]
    refine ⟨?_, ?_, ?_⟩
    · unfold accumulateSurface
      simp only
      split <;> rfl
    · unfold accumulateSurface
      simp only
      split <;> rfl
    · rw [accumulateSurface_lightGroupData, List.map_map]
      apply List.map_congr_left
      intro d _
      simp only [Function.comp]
      split <;> rfl
  · rw [if_neg hs]
    exact ⟨rfl, rfl, rfl⟩

/-- C25. `AccumulateFlux(fluxScale, index, count)` keeps the population size and leaves
every hit point outside the range `[first, last)` of worker `index`, and every
`CONSTANT_COLOR` hit point, exactly as it was; for every hit point, processed or not, it
changes neither eye-pass slot nor the `accumRadiance` of any light group. -/
theorem C25_accumulate_frame (hps : HitPoints) (fluxScale : ℚ) (index count : Nat) :
    (AccumulateFlux hps fluxScale index count).hitPoints.length = hps.hitPoints.length ∧
    (∀ (i : Nat) (hp : HitPoint), hps.hitPoints[i]? = some hp →
      ¬ (first hps.hitPoints.length index count ≤ i ∧
          i < last hps.hitPoints.length index count) →
      (AccumulateFlux hps fluxScale index count).hitPoints[i]? = some hp) ∧
    (∀ (i : Nat) (hp : HitPoint), hps.hitPoints[i]? = some hp →
      (hp.eyePass (hps.currentPhotonPass % 2)).type = HitPointType.CONSTANT_COLOR →
      (AccumulateFlux hps fluxScale index count).hitPoints[i]? = some hp) ∧
    (∀ (i : Nat) (hp : HitPoint), hps.hitPoints[i]? = some hp →
      ∃ hp1 : HitPoint, (AccumulateFlux hps fluxScale index count).hitPoints[i]? = some hp1 ∧
        hp1.eyePass0 = hp.eyePass0 ∧ hp1.eyePass1 = hp.eyePass1 ∧
        hp1.lightGroupData.map (fun d => d.accumRadiance) =
          hp.lightGroupData.map (fun d => d.accumRadiance)) := by
  refine ⟨?_, ?_, ?_, ?_⟩
  · unfold AccumulateFlux
    simp only
    rw [foldl_modify_length]
  · intro i hp hget hout
    rw [AccumulateFlux_getElem, hget, Option.map_some', if_neg hout]
  · intro i hp hget hcc
    rw [AccumulateFlux_getElem, hget, Option.map_some']
    split
    · unfold accumulateHitPoint
      rw [if_neg (by rw [hcc]; exact fun h => HitPointType.noConfusion h)]
    · rfl
  · intro i hp hget
    rw [AccumulateFlux_getElem, hget, Option.map_some']
    refine ⟨_, rfl, ?_⟩
    split
    · exact accumulateHitPoint_frame _ _ _ hp
    · exact ⟨rfl, rfl, rfl⟩

/-- C26. For `alpha` in `(0, 1]`, a settled count `N ≥ 0` and an in-flight count `M > 0`
(their sum fitting the 64-bit `pcount`), the factor `g = alpha * (N + M) / (N * alpha + M)`
computed by `AccumulateFlux` satisfies `alpha ≤ g ≤ 1`, with `g = alpha` exactly when `N = 0`
or `alpha = 1`; hence the merge of a hit point keeps a positive radius² positive and
shrinks it by at most the factor `alpha`. -/
theorem C26_factor_between_alpha_and_one (alpha : ℚ) (N M : Nat) (ha0 : 0 < alpha)
    (ha1 : alpha ≤ 1) (hM : 0 < M) (h64 : N + M < ULLONG_MOD) :
    alpha ≤ reductionFactor alpha N M ∧ reductionFactor alpha N M ≤ 1 ∧
    (reductionFactor alpha N M = alpha ↔ N = 0 ∨ alpha = 1) ∧
    ∀ (fluxScale : ℚ) (hp : HitPoint), totalPhotonCount hp = N →
      totalAccumPhotonCount hp = M → 0 < hp.accumPhotonRadius2 →
      0 < (accumulateSurface alpha fluxScale hp).accumPhotonRadius2 ∧
        alpha * hp.accumPhotonRadius2 ≤ (accumulateSurface alpha fluxScale hp).accumPhotonRadius2 ∧
        (accumulateSurface alpha fluxScale hp).accumPhotonRadius2 ≤ hp.accumPhotonRadius2 := by
  have hMq : (0 : ℚ) < (M : ℚ) := by exact_mod_cast hM
  have hNq : (0 : ℚ) ≤ (N : ℚ) := by exact_mod_cast Nat.zero_le N
  have hden : (0 : ℚ) < (N : ℚ) * alpha + (M : ℚ) := by
    have := mul_nonneg hNq (le_of_lt ha0)
    linarith
  have hg : reductionFactor alpha N M =
      alpha * ((N : ℚ) + (M : ℚ)) / ((N : ℚ) * alpha + (M : ℚ)) := by
    rw [reductionFactor_eq_spec alpha N M h64]
    rfl
  have hlow : alpha ≤ reductionFactor alpha N M := by
    rw [hg, le_div_iff₀ hden]
    nlinarith [mul_nonneg hNq (sub_nonneg.mpr ha1), mul_nonneg (le_of_lt ha0) hNq]
  have hup : reductionFactor alpha N M ≤ 1 :=
    (reductionFactor_bounds alpha N M hM (le_of_lt ha0) ha1).2
  refine ⟨hlow, hup, ?_, ?_⟩
  · rw [hg, div_eq_iff (ne_of_gt hden)]
    constructor
    · intro h
      have h2 : alpha * (N : ℚ) * (1 - alpha) = 0 := by linarith
      rcases mul_eq_zero.mp h2 with h3 | h3
      · rcases mul_eq_zero.mp h3 with h4 | h4
        · exact absurd h4 (ne_of_gt ha0)
        · left; exact_mod_cast h4
      · right; linarith
    · rintro (h | h)
      · subst h; simp
      · subst h; ring
  · intro fluxScale hp hN hA hr
    have hN2 : sumPhotonCount hp.lightGroupData = N := by
      rw [← hN]; exact sumPhotonCount_of_lt hp (by omega)
    have hA2 : sumAccumPhotonCount hp.lightGroupData = M := by
      rw [← hA]; exact sumAccumPhotonCount_of_lt hp (by omega)
    rw [accumulateSurface_radius, hN2, hA2, if_pos hM]
    have hgpos : 0 < reductionFactor alpha N M := lt_of_lt_of_le ha0 hlow
    refine ⟨mul_pos hr hgpos, ?_, mul_le_of_le_one_right (le_of_lt hr) hup⟩
    rw [mul_comm alpha]
    exact mul_le_mul_of_nonneg_left hlow (le_of_lt hr)

/-- Witness of C26: `alpha = 7/10` and the example hit point, with 3 settled photons and 1 in
flight. -/
theorem C26_factor_between_alpha_and_one_witness :
    ((0 : ℚ) < 7 / 10 ∧ (7 / 10 : ℚ) ≤ 1 ∧ 0 < 1 ∧ 3 + 1 < ULLONG_MOD) ∧
    ((7 / 10 : ℚ) ≤ reductionFactor (7 / 10) 3 1 ∧ reductionFactor (7 / 10) 3 1 ≤ 1 ∧
      (reductionFactor (7 / 10) 3 1 = 7 / 10 ↔ 3 = 0 ∨ (7 / 10 : ℚ) = 1) ∧
      ∀ (fluxScale : ℚ) (hp : HitPoint), totalPhotonCount hp = 3 →
        totalAccumPhotonCount hp = 1 → 0 < hp.accumPhotonRadius2 →
        0 < (accumulateSurface (7 / 10) fluxScale hp).accumPhotonRadius2 ∧
          7 / 10 * hp.accumPhotonRadius2 ≤
            (accumulateSurface (7 / 10) fluxScale hp).accumPhotonRadius2 ∧
          (accumulateSurface (7 / 10) fluxScale hp).accumPhotonRadius2 ≤
            hp.accumPhotonRadius2) :=
  ⟨⟨by norm_num, by norm_num, by decide, by decide⟩,
    C26_factor_between_alpha_and_one (7 / 10) 3 1 (by norm_num) (by norm_num) (by decide)
      (by decide)⟩

end lux

/-! ## The build in single precision: integers, ranges and counters -/

namespace lux

open hybridsppm hybridsppm.HashGrid

/-- At `INT_MIN`, `abs` answers `INT_MIN`. -/
theorem abs32_INT_MIN : abs32 INT_MIN = INT_MIN := by
  unfold abs32 wrapInt INT_MIN
  decide

end lux

/-! ## One iteration of the loop of `TraceEyePath` -/

namespace lux

open HitPoints

theorem addVolumeRadiance_length (ev : VertexEvents) (t : SWCSpectrum) (L : List SWCSpectrum) :
    (addVolumeRadiance ev t L).length = L.length := by
  unfold addVolumeRadiance
  split
  · rfl
  · rw [List.length_modify]

theorem addLightRadiance_length (ev : VertexEvents) (t : SWCSpectrum) (L : List SWCSpectrum) :
    (addLightRadiance ev t L).length = L.length := by
  unfold addLightRadiance
  generalize ev.lightLe = ls
  induction ls generalizing L with
  | nil => rfl
  | cons l ls ih =>
    rw [List.foldl_cons, ih]
    split
    · rw [List.length_modify]
    · rfl

theorem addAreaRadiance_length (ev : VertexEvents) (t : SWCSpectrum) (L : List SWCSpectrum) :
    (addAreaRadiance ev t L).length = L.length := by
  unfold addAreaRadiance
  split
  · split
    · rfl
    · rw [List.length_modify]
  · rfl

/-- The five ways an iteration of the loop of `TraceEyePath` can end, with what each leaves
in the variables: a `return true` with type `CONSTANT_COLOR` (escape, maximum depth or black
throughput), the `return false` of a failed BSDF sampling, the `return true` of a gather
point, and the passage to the next vertex.  Every `return` adds the radiance `L` of the path
to the light-group data; the passage to the next vertex leaves them alone. -/
theorem traceStep_cases (cfg : EyeConfig) (w : ℚ) (ev : VertexEvents) (n : Nat)
    (st : PathState) :
    (∃ st1, traceStep cfg w ev n st = StepOutcome.done true st1 ∧
      st1.hpep.type = HitPointType.CONSTANT_COLOR ∧
      st1.lightGroupData = addRadiance cfg.toXYZ w st1.L st.lightGroupData ∧
      st1.L.length = st.L.length ∧ st1.rayD = st.rayD ∧
      (ev.hit = false ∨ (ev.hit = true ∧ n = cfg.maxDepth) ∨
        (ev.hit = true ∧ n ≠ cfg.maxDepth ∧
          ∃ s, ev.sampleF = some s ∧ s.isGather = false ∧ st1.pathThroughput = 0))) ∨
    (∃ st1, traceStep cfg w ev n st = StepOutcome.done false st1 ∧
      st1.hpep.type = HitPointType.CONSTANT_COLOR ∧
      st1.lightGroupData = addRadiance cfg.toXYZ w st1.L st.lightGroupData ∧
      st1.L.length = st.L.length ∧ st1.rayD = st.rayD ∧
      ev.hit = true ∧ n ≠ cfg.maxDepth ∧ ev.sampleF = none) ∨
    (∃ st1 s, traceStep cfg w ev n st = StepOutcome.done true st1 ∧
      st1.hpep.type = HitPointType.SURFACE ∧
      st1.lightGroupData = addRadiance cfg.toXYZ w st1.L st.lightGroupData ∧
      st1.L.length = st.L.length ∧ st1.rayD = st.rayD ∧
      ev.hit = true ∧ n ≠ cfg.maxDepth ∧ ev.sampleF = some s ∧ s.isGather = true ∧
      st1.hpep.bsdfNG = (if Dot ev.ng st.rayD.neg > 0 then ev.ng else ev.ng.neg) ∧
      st1.hpep.wo = st.rayD.neg ∧
      st1.hpep.pathThroughput = st1.pathThroughput * w ∧
      st1.hpep.position = ev.p) ∨
    (∃ st1 s, traceStep cfg w ev n st = StepOutcome.next st1 ∧
      ev.hit = true ∧ n ≠ cfg.maxDepth ∧ ev.sampleF = some s ∧ s.isGather = false ∧
      st1.lightGroupData = st.lightGroupData ∧ st1.L.length = st.L.length ∧
      st1.rayD = s.wi ∧ st1.pathThroughput ≠ 0) := by
  generalize hout : traceStep cfg w ev n st = out
  unfold traceStep at hout
  simp only at hout
  by_cases hhit : ev.hit = false
  · rw [if_pos hhit] at hout
    subst hout
    left
    refine ⟨_, rfl, rfl, rfl, ?_, rfl, Or.inl hhit⟩
    simp only
    split
    · rw [addLightRadiance_length, addVolumeRadiance_length]
    · rw [addVolumeRadiance_length]
  · have hhit1 : ev.hit = true := by simpa using hhit
    rw [if_neg hhit] at hout
    by_cases hmax : n = cfg.maxDepth
    · rw [if_pos hmax] at hout
      subst hout
      left
      refine ⟨_, rfl, rfl, rfl, ?_, rfl, Or.inr (Or.inl ⟨hhit1, hmax⟩)⟩
      simp only
      rw [addAreaRadiance_length, addVolumeRadiance_length]
    · rw [if_neg hmax] at hout
      cases hs : ev.sampleF with
      | none =>
        rw [hs] at hout
        simp only at hout
        subst hout
        right; left
        refine ⟨_, rfl, rfl, rfl, ?_, rfl, hhit1, hmax, rfl⟩
        simp only
        rw [addAreaRadiance_length, addVolumeRadiance_length]
      | some s =>
        rw [hs] at hout
        simp only at hout
        by_cases hg : s.isGather = true
        · rw [if_pos hg] at hout
          subst hout
          right; right; left
          refine ⟨_, s, rfl, rfl, rfl, ?_, rfl, hhit1, hmax, rfl, hg, rfl, rfl, rfl, rfl⟩
          simp only
          rw [addAreaRadiance_length, addVolumeRadiance_length]
        · have hg1 : s.isGather = false := by simpa using hg
          rw [if_neg hg] at hout
          by_cases hb : ev.intersectThroughput st.pathThroughput / ev.spdf * s.f = 0
          · rw [if_pos hb] at hout
            subst hout
            left
            refine ⟨_, rfl, rfl, rfl, ?_, rfl,
              Or.inr (Or.inr ⟨hhit1, hmax, s, rfl, hg1, hb⟩)⟩
            simp only
            rw [addAreaRadiance_length, addVolumeRadiance_length]
          · rw [if_neg hb] at hout
            subst hout
            right; right; right
            refine ⟨_, s, rfl, hhit1, hmax, rfl, hg1, rfl, ?_, rfl, hb⟩
            simp only
            rw [addAreaRadiance_length, addVolumeRadiance_length]

/-- The loop of `TraceEyePath` from vertex `n` on, with enough iterations left to reach
`maxEyePathDepth`: it returns at some vertex `m` with `n ≤ m ≤ maxEyePathDepth`, every vertex
before `m` was passed, and the variables at the `return` are as the exit taken leaves them. -/
theorem traceLoop_spec (cfg : EyeConfig) (sample : EyeSample)
    (hdepth : cfg.maxDepth < UINT_MOD) :
    ∀ (fuel n : Nat) (st : PathState), n + fuel = cfg.maxDepth + 1 → 0 < fuel →
      st.rayD = rayDirAt sample n →
      ∃ (ret : Bool) (m : Nat) (st1 : PathState),
        traceLoop cfg sample.rayWeight sample.events fuel n st = some (ret, m + 1, st1) ∧
        n ≤ m ∧ m ≤ cfg.maxDepth ∧
        (∀ j, n ≤ j → j < m → PassesVertex cfg sample j) ∧
        (st1.hpep.type = HitPointType.SURFACE ∨
          st1.hpep.type = HitPointType.CONSTANT_COLOR) ∧
        (st1.hpep.type = HitPointType.SURFACE ↔ GatherVertex cfg sample m) ∧
        (ret = false ↔ SamplingFailsAt cfg sample m) ∧
        (PassesVertex cfg sample m → st1.pathThroughput = 0) ∧
        st1.lightGroupData =
          addRadiance cfg.toXYZ sample.rayWeight st1.L st.lightGroupData ∧
        st1.L.length = st.L.length ∧
        st1.rayD = rayDirAt sample m ∧
        (st1.hpep.type = HitPointType.SURFACE →
          st1.hpep.bsdfNG =
            (if Dot (sample.events m).ng st1.rayD.neg > 0 then (sample.events m).ng
              else (sample.events m).ng.neg) ∧
          st1.hpep.wo = st1.rayD.neg ∧
          st1.hpep.pathThroughput = st1.pathThroughput * sample.rayWeight ∧
          st1.hpep.position = (sample.events m).p) := by
  intro fuel
  induction fuel with
  | zero => intro n st _ h0; exact absurd h0 (lt_irrefl 0)
  | succ fuel ih =>
    intro n st hsum _ hray
    have hcc : HitPointType.CONSTANT_COLOR ≠ HitPointType.SURFACE :=
      fun h => HitPointType.noConfusion h
    rcases traceStep_cases cfg sample.rayWeight (sample.events n) n st with
      ⟨st1, hstep, htype, hlgd, hlen, hrd, hwhy⟩ |
      ⟨st1, hstep, htype, hlgd, hlen, hrd, hhit, hmax, hsf⟩ |
      ⟨st1, s, hstep, htype, hlgd, hlen, hrd, hhit, hmax, hsf, hg, hng, hwo, hpt, hpos⟩ |
      ⟨st1, s, hstep, hhit, hmax, hsf, hg, hlgd, hlen, hrd, hnb⟩
    · refine ⟨true, n, st1, by unfold traceLoop; rw [hstep], le_refl n, by omega,
        fun j h1 h2 => absurd h2 (by omega), Or.inr htype, ?_, ?_, ?_, hlgd, hlen,
        by rw [hrd, hray], ?_⟩
      · constructor
        · intro h; rw [htype] at h; exact absurd h hcc
        · rintro ⟨g1, g2, s, g3, g4⟩
          rcases hwhy with h | ⟨_, h⟩ | ⟨_, _, s1, h3, h4, _⟩
          · rw [h] at g1; exact absurd g1 (by decide)
          · exact absurd h g2
          · rw [h3] at g3
            cases g3
            rw [h4] at g4; exact absurd g4 (by decide)
      · constructor
        · intro h; exact absurd h (by decide)
        · rintro ⟨g1, g2, g3⟩
          rcases hwhy with h | ⟨_, h⟩ | ⟨_, _, s1, h3, _, _⟩
          · rw [h] at g1; exact absurd g1 (by decide)
          · exact absurd h g2
          · rw [h3] at g3; exact Option.noConfusion g3
      · rintro ⟨g1, g2, s, g3, g4⟩
        rcases hwhy with h | ⟨_, h⟩ | ⟨_, _, s1, _, _, h5⟩
        · rw [h] at g1; exact absurd g1 (by decide)
        · exact absurd h g2
        · exact h5
      · intro h; rw [htype] at h; exact absurd h hcc
    · refine ⟨false, n, st1, by unfold traceLoop; rw [hstep], le_refl n, by omega,
        fun j h1 h2 => absurd h2 (by omega), Or.inr htype, ?_, ?_, ?_, hlgd, hlen,
        by rw [hrd, hray], ?_⟩
      · constructor
        · intro h; rw [htype] at h; exact absurd h hcc
        · rintro ⟨_, _, s, g3, _⟩
          rw [hsf] at g3; exact Option.noConfusion g3
      · exact ⟨fun _ => ⟨hhit, hmax, hsf⟩, fun _ => rfl⟩
      · rintro ⟨_, _, s, g3, _⟩
        rw [hsf] at g3; exact Option.noConfusion g3
      · intro h; rw [htype] at h; exact absurd h hcc
    · refine ⟨true, n, st1, by unfold traceLoop; rw [hstep], le_refl n, by omega,
        fun j h1 h2 => absurd h2 (by omega), Or.inl htype, ?_, ?_, ?_, hlgd, hlen,
        by rw [hrd, hray], ?_⟩
      · exact ⟨fun _ => ⟨hhit, hmax, s, hsf, hg⟩, fun _ => htype⟩
      · constructor
        · intro h; exact absurd h (by decide)
        · rintro ⟨_, _, g3⟩
          rw [hsf] at g3; exact Option.noConfusion g3
      · rintro ⟨_, _, s1, g3, g4⟩
        rw [hsf] at g3
        cases g3
        rw [hg] at g4; exact absurd g4 (by decide)
      · intro _
        rw [hrd]
        exact ⟨hng, hwo, hpt, hpos⟩
    · have hn : n < cfg.maxDepth := by omega
      have hmod : (n + 1) % UINT_MOD = n + 1 := Nat.mod_eq_of_lt (by omega)
      have hray1 : st1.rayD = rayDirAt sample (n + 1) := by
        rw [hrd]
        simp only [rayDirAt, hsf]
      obtain ⟨ret, m, st2, hloop, hnm, hmd, hpass, hty, hsurf, hret, hblack, hlgd2, hlen2,
        hrd2, hfacts⟩ := ih (n + 1) st1 (by omega) (by omega) hray1
      refine ⟨ret, m, st2, ?_, by omega, hmd, ?_, hty, hsurf, hret, hblack, ?_, ?_, hrd2,
        hfacts⟩
      · unfold traceLoop
        rw [hstep]
        simp only
        rw [hmod]
        exact hloop
      · intro j h1 h2
        by_cases hj : j = n
        · subst hj
          exact ⟨hhit, hmax, s, hsf, hg⟩
        · exact hpass j (by omega) h2
      · rw [hlgd2, hlgd]
      · rw [hlen2, hlen]

/-! ### The worked examples, evaluated -/

/-- The example path stops at its second vertex, the diffuse surface: the normal is flipped
towards the eye, the stored throughput is `1 / 2 * 2`, the distance is that of the first
vertex, and the emitted radiance `3 * (1 / 2)` enters `accumRadiance` times `rayWeight`. -/
theorem exampleEyeSample_trace :
    (TraceEyePath exampleEyeConfig 0 exampleEyeSample exampleHitPoint).map
        (fun r => (r.ok, r.vertices, r.hp.eyePass 0,
          r.hp.lightGroupData.map (fun d => d.accumRadiance))) =
      some (true, 2,
        { type := HitPointType.SURFACE, position := ⟨0, 1, 0⟩, wo := ⟨0, -1, 0⟩,
          bsdfNG := ⟨0, -1, 0⟩, pathThroughput := 1, alpha := 1, distance := some 2 },
        [⟨3, 3, 3⟩]) := by
  simp [TraceEyePath, traceLoop, traceStep, traceInit, exampleEyeSample, exampleEyeConfig,
    exampleSpecularVertex, exampleDiffuseVertex, exampleHitPoint, exampleSurfaceSlot,
    BSDFSample.isGather, addVolumeRadiance, addAreaRadiance, addRadiance, setEyePass,
    HitPoint.eyePass, Vector.neg, Normal.neg, Dot, XYZColor.add, UINT_MOD,
    BxDFType.transmissionSpecular, List.modify]

/-- A hit point whose attempts all fail: ten calls, and a slot of type `CONSTANT_COLOR`. -/
theorem exampleFailingSamples_calls :
    (setHitPoint exampleEyeConfig 0 exampleFailingSamples exampleHitPoint).map
        (fun r => (r.2, (r.1.eyePass 0).type)) =
      some (List.replicate 10 false, HitPointType.CONSTANT_COLOR) := by
  simp [setHitPoint, retryLoop, TraceEyePath, traceLoop, traceStep, traceInit,
    exampleFailingSamples, exampleFailingSample, exampleFailingVertex, exampleEyeConfig,
    exampleDiffuseVertex, exampleHitPoint, exampleSurfaceSlot,
    addVolumeRadiance, addAreaRadiance, addRadiance, setEyePass,
    HitPoint.eyePass, Vector.neg, XYZColor.add, List.modify]

/-- A hit point whose first two attempts fail: three calls, and a slot of type `SURFACE`. -/
theorem exampleSamples_calls :
    (setHitPoint exampleEyeConfig 0 exampleSamples exampleHitPoint).map
        (fun r => (r.2, (r.1.eyePass 0).type)) =
      some ([false, false, true], HitPointType.SURFACE) := by
  simp [setHitPoint, retryLoop, TraceEyePath, traceLoop, traceStep, traceInit,
    exampleSamples, exampleEyeSample, exampleSpecularVertex, BSDFSample.isGather,
    exampleFailingSample, exampleFailingVertex, exampleEyeConfig,
    exampleDiffuseVertex, exampleHitPoint, exampleSurfaceSlot,
    addVolumeRadiance, addAreaRadiance, addRadiance, setEyePass,
    HitPoint.eyePass, Vector.neg, XYZColor.add, List.modify, UINT_MOD,
    BxDFType.transmissionSpecular]

end lux

/-! ## `TraceEyePath`: exits, radiance and the stored gather point -/

namespace lux

open HitPoints

theorem eyePass_setEyePass (hp : HitPoint) (p : Nat) (e : HitPointEyePass)
    (l : List HitPointLightGroup) :
    HitPoint.eyePass { setEyePass hp p e with lightGroupData := l } p = e := by
  unfold HitPoint.eyePass setEyePass
  by_cases h : p = 0
  · simp only [if_pos h]
  · simp only [if_neg h]

/-- A call of `TraceEyePath` returns at some vertex `k ≤ maxEyePathDepth`, after passing
every earlier vertex, and leaves the hit point and its locals as the exit taken sets
them. -/
theorem TraceEyePath_spec (cfg : EyeConfig) (p : Nat) (sample : EyeSample) (hp : HitPoint)
    (hdepth : cfg.maxDepth < UINT_MOD) :
    ∃ (r : TraceResult) (k : Nat), TraceEyePath cfg p sample hp = some r ∧
      r.vertices = k + 1 ∧ k ≤ cfg.maxDepth ∧
      r.hp.eyePass p = r.final.hpep ∧ r.hp.lightGroupData = r.final.lightGroupData ∧
      (∀ j, j < k → PassesVertex cfg sample j) ∧
      (r.final.hpep.type = HitPointType.SURFACE ∨
        r.final.hpep.type = HitPointType.CONSTANT_COLOR) ∧
      (r.final.hpep.type = HitPointType.SURFACE ↔ GatherVertex cfg sample k) ∧
      (r.ok = false ↔ SamplingFailsAt cfg sample k) ∧
      (PassesVertex cfg sample k → r.final.pathThroughput = 0) ∧
      r.final.lightGroupData =
        addRadiance cfg.toXYZ sample.rayWeight r.final.L hp.lightGroupData ∧
      r.final.L.length = hp.lightGroupData.length ∧
      r.final.rayD = rayDirAt sample k ∧
      (r.final.hpep.type = HitPointType.SURFACE →
        r.final.hpep.bsdfNG =
          (if Dot (sample.events k).ng r.final.rayD.neg > 0 then (sample.events k).ng
            else (sample.events k).ng.neg) ∧
        r.final.hpep.wo = r.final.rayD.neg ∧
        r.final.hpep.pathThroughput = r.final.pathThroughput * sample.rayWeight ∧
        r.final.hpep.position = (sample.events k).p) := by
  obtain ⟨ret, m, st1, hloop, _, hmd, hpass, hty, hsurf, hret, hblack, hlgd, hlen, hrd,
    hfacts⟩ := traceLoop_spec cfg sample hdepth (cfg.maxDepth + 1) 0 (traceInit p sample hp)
      (by omega) (by omega) rfl
  refine ⟨{ ok := ret,
            hp := { setEyePass hp p st1.hpep with lightGroupData := st1.lightGroupData },
            vertices := m + 1, final := st1 }, m, ?_, rfl, hmd, eyePass_setEyePass _ _ _ _,
    ?_, fun j hj => hpass j (Nat.zero_le j) hj, hty, hsurf, hret, hblack, hlgd, ?_, hrd,
    hfacts⟩
  · unfold TraceEyePath
    rw [hloop]
  · unfold setEyePass
    split <;> rfl
  · rw [hlen]
    unfold traceInit
    simp only [List.length_replicate]

/-- C21: with `maxEyePathDepth` a 32-bit value, for every sequence of results of the
external services `TraceEyePath` returns, after visiting `k + 1 ≤ maxEyePathDepth + 1`
vertices of which the first `k` were passed (intersection found, depth not reached, BSDF
sampled with an event that is neither diffuse nor glossy with pdf below 100).  The slot type
is then `SURFACE` or `CONSTANT_COLOR`.  It is `SURFACE` exactly when vertex `k` is a gather
point (sampled flags diffuse, or glossy with pdf below 100), which makes `k` the first such
vertex.  It is `CONSTANT_COLOR` when the ray found no intersection at vertex `k`, when `k` is
`maxEyePathDepth`, when the BSDF sampling failed, and when the sampled event was passed but
the throughput became black.  The returned value is false exactly in the sampling-failure
case. -/
theorem C21_trace_eye_path_exits (cfg : EyeConfig) (p : Nat) (sample : EyeSample)
    (hp : HitPoint) (hdepth : cfg.maxDepth < UINT_MOD) :
    ∃ (r : TraceResult) (k : Nat), TraceEyePath cfg p sample hp = some r ∧
      r.vertices = k + 1 ∧ k ≤ cfg.maxDepth ∧
      (∀ j, j < k → PassesVertex cfg sample j) ∧
      ((r.hp.eyePass p).type = HitPointType.SURFACE ∨
        (r.hp.eyePass p).type = HitPointType.CONSTANT_COLOR) ∧
      ((r.hp.eyePass p).type = HitPointType.SURFACE ↔ GatherVertex cfg sample k) ∧
      ((sample.events k).hit = false →
        (r.hp.eyePass p).type = HitPointType.CONSTANT_COLOR) ∧
      (k = cfg.maxDepth → (r.hp.eyePass p).type = HitPointType.CONSTANT_COLOR) ∧
      ((sample.events k).sampleF = none →
        (r.hp.eyePass p).type = HitPointType.CONSTANT_COLOR) ∧
      (PassesVertex cfg sample k →
        r.final.pathThroughput = 0 ∧ (r.hp.eyePass p).type = HitPointType.CONSTANT_COLOR) ∧
      (r.ok = false ↔ SamplingFailsAt cfg sample k) := by
  obtain ⟨r, k, hr, hv, hk, hslot, _, hpass, hty, hsurf, hret, hblack, _⟩ :=
    TraceEyePath_spec cfg p sample hp hdepth
  have hcc : ¬ GatherVertex cfg sample k →
      (r.hp.eyePass p).type = HitPointType.CONSTANT_COLOR := by
    intro hng
    rw [hslot]
    rcases hty with h | h
    · exact absurd (hsurf.mp h) hng
    · exact h
  refine ⟨r, k, hr, hv, hk, hpass, by rw [hslot]; exact hty, by rw [hslot]; exact hsurf,
    ?_, ?_, ?_, ?_, hret⟩
  · intro hhit
    apply hcc
    rintro ⟨g1, _, _⟩
    rw [hhit] at g1
    exact absurd g1 (by decide)
  · intro hmax
    apply hcc
    rintro ⟨_, g2, _⟩
    exact g2 hmax
  · intro hnone
    apply hcc
    rintro ⟨_, _, s, g3, _⟩
    rw [hnone] at g3
    exact Option.noConfusion g3
  · intro hp1
    refine ⟨hblack hp1, hcc ?_⟩
    rintro ⟨_, _, s, g3, g4⟩
    obtain ⟨_, _, s1, h3, h4⟩ := hp1
    rw [h3] at g3
    cases g3
    rw [h4] at g4
    exact absurd g4 (by decide)

/-- Witness of C21: the example path (a mirror, then a diffuse surface) with
`maxEyePathDepth = 16`. -/
theorem C21_trace_eye_path_exits_witness :
    exampleEyeConfig.maxDepth < UINT_MOD ∧
    ∃ (r : TraceResult) (k : Nat),
      TraceEyePath exampleEyeConfig 0 exampleEyeSample exampleHitPoint = some r ∧
      r.vertices = k + 1 ∧ k ≤ exampleEyeConfig.maxDepth := by
  have h : exampleEyeConfig.maxDepth < UINT_MOD := by
    norm_num [exampleEyeConfig, UINT_MOD]
  obtain ⟨r, k, h1, h2, h3, _⟩ :=
    C21_trace_eye_path_exits exampleEyeConfig 0 exampleEyeSample exampleHitPoint h
  exact ⟨h, r, k, h1, h2, h3⟩

/-- C22: with `maxEyePathDepth` a 32-bit value, whatever exit `TraceEyePath` takes, the
light-group data of the hit point afterwards are those before the call with, for every light
group `j`, `XYZColor(sw, L[j] * rayWeight)` added once to `accumRadiance` and no other field
changed, where `L` is the radiance of the path at the `return` (one entry per light group).
`AccumulateFlux` leaves the `accumRadiance` of every light group of every hit point as it
was. -/
theorem C22_radiance_added_once (cfg : EyeConfig) (p : Nat) (sample : EyeSample)
    (hp : HitPoint) (hdepth : cfg.maxDepth < UINT_MOD) :
    (∃ r : TraceResult, TraceEyePath cfg p sample hp = some r ∧
      r.final.L.length = hp.lightGroupData.length ∧
      r.hp.lightGroupData.length = hp.lightGroupData.length ∧
      ∀ (j : Nat) (d : HitPointLightGroup), hp.lightGroupData[j]? = some d →
        ∃ Lj : SWCSpectrum, r.final.L[j]? = some Lj ∧
          r.hp.lightGroupData[j]? = some
            { d with accumRadiance :=
                XYZColor.add d.accumRadiance (cfg.toXYZ (Lj * sample.rayWeight)) }) ∧
    (∀ (hps : HitPoints) (fluxScale : ℚ) (index count i : Nat) (hp0 : HitPoint),
      hps.hitPoints[i]? = some hp0 →
      ∃ hp1 : HitPoint, (AccumulateFlux hps fluxScale index count).hitPoints[i]? = some hp1 ∧
        hp1.lightGroupData.map (fun d => d.accumRadiance) =
          hp0.lightGroupData.map (fun d => d.accumRadiance)) := by
  constructor
  · obtain ⟨r, k, hr, _, _, _, hlgd0, _, _, _, _, _, hlgd, hlen, _⟩ :=
      TraceEyePath_spec cfg p sample hp hdepth
    have hall : r.hp.lightGroupData =
        addRadiance cfg.toXYZ sample.rayWeight r.final.L hp.lightGroupData := by
      rw [hlgd0, hlgd]
    refine ⟨r, hr, hlen, ?_, ?_⟩
    · rw [hall]
      unfold addRadiance
      rw [List.length_zipWith, hlen, Nat.min_self]
    · intro j d hd
      have hj : j < r.final.L.length := by
        rw [hlen]
        exact (List.getElem?_eq_some_iff.mp hd).1
      refine ⟨r.final.L[j], List.getElem?_eq_getElem hj, ?_⟩
      rw [hall]
      unfold addRadiance
      rw [List.getElem?_zipWith, hd, List.getElem?_eq_getElem hj]
  · intro hps fluxScale index count i hp0 hget
    rw [AccumulateFlux_getElem, hget, Option.map_some']
    refine ⟨_, rfl, ?_⟩
    split
    · exact (accumulateHitPoint_frame _ _ _ hp0).2.2
    · rfl

/-- Witness of C22: the example path with `maxEyePathDepth = 16`. -/
theorem C22_radiance_added_once_witness :
    exampleEyeConfig.maxDepth < UINT_MOD ∧
    ∃ r : TraceResult,
      TraceEyePath exampleEyeConfig 0 exampleEyeSample exampleHitPoint = some r ∧
      r.final.L.length = exampleHitPoint.lightGroupData.length := by
  have h : exampleEyeConfig.maxDepth < UINT_MOD := by
    norm_num [exampleEyeConfig, UINT_MOD]
  obtain ⟨⟨r, h1, h2, _⟩, _⟩ :=
    C22_radiance_added_once exampleEyeConfig 0 exampleEyeSample exampleHitPoint h
  exact ⟨h, r, h1, h2⟩

/-- C24: the normal `Dot(wo, ng) > 0 ? ng : -ng` is `ng` or `-ng` and never faces away from
`wo`, for every `wo` and `ng`.  With `maxEyePathDepth` a 32-bit value, whenever
`TraceEyePath` ends with type `SURFACE`, at vertex `k`, the slot holds that normal for the
geometric normal `ng` of vertex `k` and the stored `wo`, so `Dot(wo, bsdfNG) ≥ 0`; the stored
`wo` is the negated direction of the ray that reached vertex `k`; the stored throughput is
the local `pathThroughput` times `rayWeight`; and the stored position is the shading point of
vertex `k`. -/
theorem C24_gather_normal_faces_wo (cfg : EyeConfig) (p : Nat) (sample : EyeSample)
    (hp : HitPoint) (hdepth : cfg.maxDepth < UINT_MOD) :
    (∀ (ng : Normal) (wo : Vector),
      ((if Dot ng wo > 0 then ng else ng.neg) = ng ∨
        (if Dot ng wo > 0 then ng else ng.neg) = ng.neg) ∧
      0 ≤ Dot (if Dot ng wo > 0 then ng else ng.neg) wo) ∧
    ∃ (r : TraceResult) (k : Nat), TraceEyePath cfg p sample hp = some r ∧
      r.vertices = k + 1 ∧
      ((r.hp.eyePass p).type = HitPointType.SURFACE →
        (r.hp.eyePass p).bsdfNG =
          (if Dot (sample.events k).ng (r.hp.eyePass p).wo > 0 then (sample.events k).ng
            else (sample.events k).ng.neg) ∧
        ((r.hp.eyePass p).bsdfNG = (sample.events k).ng ∨
          (r.hp.eyePass p).bsdfNG = (sample.events k).ng.neg) ∧
        0 ≤ Dot (r.hp.eyePass p).bsdfNG (r.hp.eyePass p).wo ∧
        (r.hp.eyePass p).wo = (rayDirAt sample k).neg ∧
        (r.hp.eyePass p).pathThroughput = r.final.pathThroughput * sample.rayWeight ∧
        (r.hp.eyePass p).position = (sample.events k).p) := by
  have hflip : ∀ (ng : Normal) (wo : Vector),
      ((if Dot ng wo > 0 then ng else ng.neg) = ng ∨
        (if Dot ng wo > 0 then ng else ng.neg) = ng.neg) ∧
      0 ≤ Dot (if Dot ng wo > 0 then ng else ng.neg) wo := by
    intro ng wo
    by_cases h : Dot ng wo > 0
    · rw [if_pos h]
      exact ⟨Or.inl rfl, le_of_lt h⟩
    · rw [if_neg h]
      refine ⟨Or.inr rfl, ?_⟩
      have e : Dot ng.neg wo = - Dot ng wo := by
        unfold Dot Normal.neg
        ring
      rw [e]
      linarith
  refine ⟨hflip, ?_⟩
  obtain ⟨r, k, hr, hv, _, hslot, _, _, _, _, _, _, _, _, hrd, hfacts⟩ :=
    TraceEyePath_spec cfg p sample hp hdepth
  refine ⟨r, k, hr, hv, ?_⟩
  intro hs
  rw [hslot] at hs ⊢
  obtain ⟨f1, f2, f3, f4⟩ := hfacts hs
  have e1 : r.final.hpep.bsdfNG =
      (if Dot (sample.events k).ng r.final.hpep.wo > 0 then (sample.events k).ng
        else (sample.events k).ng.neg) := by
    rw [f2]; exact f1
  refine ⟨e1, ?_, ?_, by rw [f2, hrd], f3, f4⟩
  · rw [e1]; exact (hflip _ _).1
  · rw [e1]
    have := (hflip (sample.events k).ng r.final.hpep.wo).2
    rw [← e1] at this ⊢
    exact this

/-- Witness of C24: the example path with `maxEyePathDepth = 16`. -/
theorem C24_gather_normal_faces_wo_witness :
    exampleEyeConfig.maxDepth < UINT_MOD ∧
    ∃ (r : TraceResult) (k : Nat),
      TraceEyePath exampleEyeConfig 0 exampleEyeSample exampleHitPoint = some r ∧
      r.vertices = k + 1 := by
  have h : exampleEyeConfig.maxDepth < UINT_MOD := by
    norm_num [exampleEyeConfig, UINT_MOD]
  obtain ⟨_, r, k, h1, h2, _⟩ :=
    C24_gather_normal_faces_wo exampleEyeConfig 0 exampleEyeSample exampleHitPoint h
  exact ⟨h, r, k, h1, h2⟩

end lux

/-! ## `SetHitPoints`: the retries -/

namespace lux

open HitPoints

/-- A call of `TraceEyePath` returns, and when it returns false it leaves the slot with type
`CONSTANT_COLOR`. -/
theorem TraceEyePath_total (cfg : EyeConfig) (p : Nat) (sample : EyeSample) (hp : HitPoint)
    (hdepth : cfg.maxDepth < UINT_MOD) :
    ∃ r : TraceResult, TraceEyePath cfg p sample hp = some r ∧
      (r.ok = false → (r.hp.eyePass p).type = HitPointType.CONSTANT_COLOR) := by
  obtain ⟨r, k, hr, _, _, hslot, _, _, hty, hsurf, hret, _⟩ :=
    TraceEyePath_spec cfg p sample hp hdepth
  refine ⟨r, hr, ?_⟩
  intro hok
  rw [hslot]
  rcases hty with h | h
  · obtain ⟨_, _, s, g3, _⟩ := hsurf.mp h
    obtain ⟨_, _, f3⟩ := hret.mp hok
    rw [f3] at g3
    exact Option.noConfusion g3
  · exact h

/-- The loop of retries: it appends to the list of returned values either some `false`
values followed by one `true`, fewer than the iterations allowed, or one `false` per
iteration allowed; in the latter case the slot is left with type `CONSTANT_COLOR`, provided
it was so before the loop. -/
theorem retryLoop_spec (cfg : EyeConfig) (p : Nat) (samples : Nat → EyeSample)
    (hdepth : cfg.maxDepth < UINT_MOD) :
    ∀ (remaining a : Nat) (hp : HitPoint) (calls : List Bool),
      (hp.eyePass p).type = HitPointType.CONSTANT_COLOR →
      ∃ (hp1 : HitPoint) (extra : List Bool),
        retryLoop cfg p samples remaining a hp calls = some (hp1, calls ++ extra) ∧
        ((∃ n, n < remaining ∧ extra = List.replicate n false ++ [true]) ∨
          (extra = List.replicate remaining false ∧
            (hp1.eyePass p).type = HitPointType.CONSTANT_COLOR)) := by
  intro remaining
  induction remaining with
  | zero =>
    intro a hp calls hcc
    refine ⟨hp, [], ?_, Or.inr ⟨rfl, hcc⟩⟩
    unfold retryLoop
    rw [List.append_nil]
  | succ remaining ih =>
    intro a hp calls _
    obtain ⟨r, hr, hfail⟩ := TraceEyePath_total cfg p (samples a) hp hdepth
    by_cases hok : r.ok = true
    · refine ⟨r.hp, [true], ?_, Or.inl ⟨0, Nat.succ_pos _, rfl⟩⟩
      unfold retryLoop
      rw [hr]
      simp only [hok, if_true]
    · have hok1 : r.ok = false := by simpa using hok
      obtain ⟨hp1, extra, hloop, hextra⟩ := ih (a + 1) r.hp (calls ++ [false]) (hfail hok1)
      refine ⟨hp1, false :: extra, ?_, ?_⟩
      · unfold retryLoop
        rw [hr]
        simp only [hok1, Bool.false_eq_true, if_false]
        rw [hloop, List.append_assoc]
        rfl
      · rcases hextra with ⟨n, hn, he⟩ | ⟨he, hcc1⟩
        · exact Or.inl ⟨n + 1, by omega, by rw [he]; rfl⟩
        · exact Or.inr ⟨by rw [he]; rfl, hcc1⟩

/-- The body of the loop of `SetHitPoints` for one hit point returns, with the calls of
`TraceEyePath` it made: some failures followed by one success (at most 9 failures), or 10
failures and a slot of type `CONSTANT_COLOR`. -/
theorem setHitPoint_spec (cfg : EyeConfig) (p : Nat) (samples : Nat → EyeSample)
    (hp : HitPoint) (hdepth : cfg.maxDepth < UINT_MOD) :
    ∃ (hp1 : HitPoint) (calls : List Bool),
      setHitPoint cfg p samples hp = some (hp1, calls) ∧
      ((∃ n, n ≤ 9 ∧ calls = List.replicate n false ++ [true]) ∨
        (calls = List.replicate 10 false ∧
          (hp1.eyePass p).type = HitPointType.CONSTANT_COLOR)) ∧
      (∀ r : TraceResult, TraceEyePath cfg p (samples 0) hp = some r → r.ok = true →
        calls = [true] ∧ hp1 = r.hp) := by
  obtain ⟨r, hr, hfail⟩ := TraceEyePath_total cfg p (samples 0) hp hdepth
  by_cases hok : r.ok = true
  · refine ⟨r.hp, [true], ?_, Or.inl ⟨0, by omega, rfl⟩, ?_⟩
    · unfold setHitPoint
      rw [hr]
      simp only [hok, Bool.true_eq_false, if_false]
    · intro r1 hr1 _
      rw [hr] at hr1
      cases hr1
      exact ⟨rfl, rfl⟩
  · have hok1 : r.ok = false := by simpa using hok
    obtain ⟨hp1, extra, hloop, hextra⟩ :=
      retryLoop_spec cfg p samples hdepth 9 1 r.hp [false] (hfail hok1)
    refine ⟨hp1, [false] ++ extra, ?_, ?_, ?_⟩
    · unfold setHitPoint
      rw [hr]
      simp only [hok1, if_true]
      exact hloop
    · rcases hextra with ⟨n, hn, he⟩ | ⟨he, hcc1⟩
      · exact Or.inl ⟨n + 1, by omega, by rw [he]; rfl⟩
      · exact Or.inr ⟨by rw [he]; rfl, hcc1⟩
    · intro r1 hr1 hok2
      rw [hr] at hr1
      cases hr1
      rw [hok1] at hok2
      exact absurd hok2 (by decide)

/-- The loop over the indices `is`, none repeated, with a body that always returns: every
index of `is` that holds a hit point gets the result of the body on that hit point, and every
other index is left alone. -/
theorem setLoop_spec (body : Nat → HitPoint → Option (HitPoint × List Bool))
    (hbody : ∀ i hp, ∃ r, body i hp = some r) :
    ∀ (is : List Nat) (l : List HitPoint), is.Nodup →
      ∃ l1, setLoop body is l = some l1 ∧ l1.length = l.length ∧
        (∀ i, i ∉ is → l1[i]? = l[i]?) ∧
        (∀ i hp0, i ∈ is → l[i]? = some hp0 →
          ∃ r, body i hp0 = some r ∧ l1[i]? = some r.1) := by
  intro is
  induction is with
  | nil =>
    intro l _
    exact ⟨l, rfl, rfl, fun _ _ => rfl, fun i hp0 hi _ => absurd hi (List.not_mem_nil i)⟩
  | cons k is ih =>
    intro l hnd
    have hk : k ∉ is := (List.nodup_cons.mp hnd).1
    have hnd1 : is.Nodup := (List.nodup_cons.mp hnd).2
    cases hget : l[k]? with
    | none =>
      obtain ⟨l1, h1, h2, h3, h4⟩ := ih l hnd1
      refine ⟨l1, ?_, h2, ?_, ?_⟩
      · unfold setLoop
        rw [hget]
        exact h1
      · intro i hi
        exact h3 i (fun h => hi (List.mem_cons_of_mem k h))
      · intro i hp0 hi hi0
        rcases List.mem_cons.mp hi with rfl | hi1
        · rw [hget] at hi0
          exact Option.noConfusion hi0
        · exact h4 i hp0 hi1 hi0
    | some hp =>
      obtain ⟨r, hr⟩ := hbody k hp
      obtain ⟨l1, h1, h2, h3, h4⟩ := ih (l.set k r.1) hnd1
      have hklt : k < l.length := (List.getElem?_eq_some_iff.mp hget).1
      refine ⟨l1, ?_, ?_, ?_, ?_⟩
      · unfold setLoop
        rw [hget]
        simp only [hr]
        exact h1
      · rw [h2, List.length_set]
      · intro i hi
        have hik : i ≠ k := fun h => hi (by rw [h]; exact List.mem_cons_self k is)
        rw [h3 i (fun h => hi (List.mem_cons_of_mem k h)),
          List.getElem?_set_ne (Ne.symm hik)]
      · intro i hp0 hi hi0
        rcases List.mem_cons.mp hi with rfl | hi1
        · rw [hget] at hi0
          cases hi0
          refine ⟨r, hr, ?_⟩
          rw [h3 i hk, List.getElem?_set_eq_of_lt _ hklt]
        · have hik : i ≠ k := fun h => hk (by rw [← h]; exact hi1)
          exact h4 i hp0 hi1 (by rw [List.getElem?_set_ne (Ne.symm hik)]; exact hi0)

/-- The range of a worker ends within the population. -/
theorem last_le_size (n i c : Nat) (hn : n < UINT_MOD) (hc : c < UINT_MOD) (hi : i < c) :
    last n i c ≤ n := by
  rw [last_eq n i c hn hc hi]
  split
  · exact le_refl n
  · have h1 : n / c * (i + 1) ≤ n / c * c := Nat.mul_le_mul_left _ (by omega)
    have h2 : n / c * c ≤ n := Nat.div_mul_le_self n c
    have h3 : n / c * (i + 1) = n / c * i + n / c := by ring
    omega

end lux

/-! ## C23: at most ten attempts per hit point -/

namespace lux

open HitPoints

/-- C23: let `maxEyePathDepth`, the number of hit points and the number `count` of workers
be 32-bit values and `index < count`.  The body of the loop of `SetHitPoints` returns for
every hit point, having called `TraceEyePath` between 1 and 10 times.  The
values returned by these calls are either some `false` values (at most 9) followed by one
`true`, so that every call but the first follows a call that returned false and no call
follows one that returned true, or 10 `false` values, in which case the active slot is left
with type `CONSTANT_COLOR`.  If the first call returns true, it is the only one.
`SetHitPoints` itself returns, keeps the number of hit points, leaves the hit points outside
its range `[first, last)` alone, and leaves in every index of the range what the body makes
of the hit point there, whatever the calls for the other hit points returned. -/
theorem C23_at_most_ten_attempts (cfg : EyeConfig) (samples : Nat → Nat → EyeSample)
    (hps : HitPoints) (index count : Nat) (hdepth : cfg.maxDepth < UINT_MOD)
    (hn : hps.hitPoints.length < UINT_MOD) (hc : count < UINT_MOD) (hi : index < count) :
    (∀ (p : Nat) (attempts : Nat → EyeSample) (hp : HitPoint),
      ∃ (hp1 : HitPoint) (calls : List Bool),
        setHitPoint cfg p attempts hp = some (hp1, calls) ∧
        1 ≤ calls.length ∧ calls.length ≤ 10 ∧
        ((∃ n, n ≤ 9 ∧ calls = List.replicate n false ++ [true]) ∨
          (calls = List.replicate 10 false ∧
            (hp1.eyePass p).type = HitPointType.CONSTANT_COLOR)) ∧
        (∀ r : TraceResult, TraceEyePath cfg p (attempts 0) hp = some r → r.ok = true →
          calls = [true] ∧ hp1 = r.hp)) ∧
    ∃ hps1 : HitPoints, SetHitPoints cfg samples hps index count = some hps1 ∧
      hps1.hitPoints.length = hps.hitPoints.length ∧
      (∀ i : Nat, ¬ (first hps.hitPoints.length index count ≤ i ∧
          i < last hps.hitPoints.length index count) →
        hps1.hitPoints[i]? = hps.hitPoints[i]?) ∧
      (∀ i : Nat, first hps.hitPoints.length index count ≤ i →
        i < last hps.hitPoints.length index count →
        ∃ (hp0 hp1 : HitPoint) (calls : List Bool), hps.hitPoints[i]? = some hp0 ∧
          setHitPoint cfg (hps.currentEyePass % 2) (samples i) hp0 = some (hp1, calls) ∧
          hps1.hitPoints[i]? = some hp1) := by
  constructor
  · intro p attempts hp
    obtain ⟨hp1, calls, h1, h2, h3⟩ := setHitPoint_spec cfg p attempts hp hdepth
    refine ⟨hp1, calls, h1, ?_, ?_, h2, h3⟩
    · rcases h2 with ⟨n, _, he⟩ | ⟨he, _⟩
      · rw [he, List.length_append, List.length_replicate, List.length_singleton]
        omega
      · rw [he, List.length_replicate]
        omega
    · rcases h2 with ⟨n, hn, he⟩ | ⟨he, _⟩
      · rw [he, List.length_append, List.length_replicate, List.length_singleton]
        omega
      · rw [he, List.length_replicate]
  · have hmem : ∀ i, i ∈ List.range' (first hps.hitPoints.length index count)
        (last hps.hitPoints.length index count - first hps.hitPoints.length index count) ↔
        (first hps.hitPoints.length index count ≤ i ∧
          i < last hps.hitPoints.length index count) := by
      intro i
      rw [List.mem_range'_1]
      omega
    obtain ⟨l1, h1, h2, h3, h4⟩ := setLoop_spec
      (fun i hp => setHitPoint cfg (hps.currentEyePass % 2) (samples i) hp)
      (fun i hp => by
        obtain ⟨hp1, calls, h, _⟩ :=
          setHitPoint_spec cfg (hps.currentEyePass % 2) (samples i) hp hdepth
        exact ⟨(hp1, calls), h⟩)
      (List.range' (first hps.hitPoints.length index count)
        (last hps.hitPoints.length index count - first hps.hitPoints.length index count))
      hps.hitPoints (List.nodup_range' _ _)
    refine ⟨{ hps with hitPoints := l1 }, ?_, h2, ?_, ?_⟩
    · unfold SetHitPoints
      simp only
      rw [h1]
    · intro i hi
      exact h3 i (fun h => hi ((hmem i).mp h))
    · intro i hlo hhi
      have hlt : i < hps.hitPoints.length :=
        lt_of_lt_of_le hhi (last_le_size _ index count hn hc hi)
      have hget : hps.hitPoints[i]? = some hps.hitPoints[i] := List.getElem?_eq_getElem hlt
      obtain ⟨r, hr, hl⟩ := h4 i _ ((hmem i).mpr ⟨hlo, hhi⟩) hget
      exact ⟨_, r.1, r.2, hget, hr, hl⟩

/-- Witness of C23: the example store, whose hit point fails twice before it succeeds, with
`maxEyePathDepth = 16`. -/
theorem C23_at_most_ten_attempts_witness :
    (exampleEyeConfig.maxDepth < UINT_MOD ∧ exampleStore.hitPoints.length < UINT_MOD ∧
      1 < UINT_MOD ∧ 0 < 1) ∧
    ∃ hps1 : HitPoints,
      SetHitPoints exampleEyeConfig (fun _ => exampleSamples) exampleStore 0 1 = some hps1 ∧
      hps1.hitPoints.length = exampleStore.hitPoints.length := by
  have h : exampleEyeConfig.maxDepth < UINT_MOD := by
    norm_num [exampleEyeConfig, UINT_MOD]
  have hn : exampleStore.hitPoints.length < UINT_MOD := by
    norm_num [exampleStore, UINT_MOD]
  have hc : 1 < UINT_MOD := by norm_num [UINT_MOD]
  obtain ⟨_, hps1, h1, h2, _⟩ :=
    C23_at_most_ten_attempts exampleEyeConfig (fun _ => exampleSamples) exampleStore 0 1 h
      hn hc Nat.zero_lt_one
  exact ⟨⟨h, hn, hc, Nat.zero_lt_one⟩, hps1, h1, h2⟩

end lux

/-! ## Evaluation of the rounding to single precision -/

namespace lux

theorem roundHalfEven_of_near (y : ℚ) (k : Int) (h1 : (k : ℚ) - 1 / 2 < y)
    (h2 : y < (k : ℚ) + 1 / 2) : roundHalfEven y = k := by
  unfold roundHalfEven
  by_cases hk : (k : ℚ) ≤ y
  · have hf : ⌊y⌋ = k := by
      rw [Int.floor_eq_iff]
      exact ⟨hk, by linarith⟩
    rw [hf, if_pos (by linarith)]
  · push_neg at hk
    have hf : ⌊y⌋ = k - 1 := by
      rw [Int.floor_eq_iff]
      push_cast
      exact ⟨by linarith, by linarith⟩
    rw [hf]
    push_cast
    rw [if_neg (by linarith), if_pos (by linarith)]
    ring

/-- Evaluation of `binary32`: for `x` of binary exponent `e`, the result is the multiple
`k * 2 ^ (e - 23)` of the spacing that lies less than half a spacing from `x`. -/
theorem binary32_eq (x : ℚ) (e k : Int) (hlo : (2 : ℚ) ^ e ≤ |x|)
    (hhi : |x| < (2 : ℚ) ^ (e + 1))
    (h1 : ((k : ℚ) - 1 / 2) * 2 ^ (e - 23) < x) (h2 : x < ((k : ℚ) + 1 / 2) * 2 ^ (e - 23)) :
    binary32 x = (k : ℚ) * 2 ^ (e - 23) := by
  have hpos : (0 : ℚ) < |x| := lt_of_lt_of_le (by positivity) hlo
  have hx : x ≠ 0 := abs_pos.mp hpos
  have hlog : Int.log 2 |x| = e := by
    have ha : e ≤ Int.log 2 |x| :=
      (Int.zpow_le_iff_le_log (by norm_num) hpos).mp (by exact_mod_cast hlo)
    have hb : Int.log 2 |x| < e + 1 :=
      (Int.lt_zpow_iff_log_lt (by norm_num) hpos).mp (by exact_mod_cast hhi)
    omega
  have hq : (0 : ℚ) < 2 ^ (e - 23) := by positivity
  unfold binary32
  rw [if_neg hx, hlog, roundHalfEven_of_near _ k]
  · rw [lt_div_iff₀ hq]; exact h1
  · rw [div_lt_iff₀ hq]; exact h2

theorem binary32_three : binary32 3 = 3 := by
  rw [binary32_eq 3 1 12582912] <;> norm_num [abs_of_pos]

theorem binary32_three_halves : binary32 (3 / 2) = 3 / 2 := by
  rw [binary32_eq (3 / 2) 0 12582912] <;> norm_num [abs_of_pos]

theorem binary32_two_pow_32 : binary32 4294967296 = 4294967296 := by
  rw [binary32_eq 4294967296 32 8388608] <;> norm_num [abs_of_pos]

theorem binary32_two_pow_31 : binary32 2147483648 = 2147483648 := by
  rw [binary32_eq 2147483648 31 8388608] <;> norm_num [abs_of_pos]

end lux

/-! ## C12: the coordinates handed to `Hash` -/

namespace lux

open hybridsppm hybridsppm.HashGrid

theorem cellIndex32_eq_abs (x : ℚ) (h : TruncatesInside x) : cellIndex32 x = |toInt x| := by
  unfold TruncatesInside INT_MAX at h
  unfold cellIndex32 abs32 wrapInt
  split
  · rw [abs_of_neg (by assumption)]
    omega
  · rw [abs_of_nonneg (by omega)]

/-- With no rounding the corners are those of the exact embedding. -/
theorem extent32_exact (sqrtf : ℚ → ℚ) (pMin : Point) (inv : ℚ) (hp : hybridsppm.HitPoint) :
    extentMin32 (fun x => x) sqrtf pMin inv hp = extentMin sqrtf pMin inv hp ∧
    extentMax32 (fun x => x) sqrtf pMin inv hp = extentMax sqrtf pMin inv hp :=
  ⟨rfl, rfl⟩

/-- Where `abs` does not overflow, the 32-bit cell coordinate is the one of the exact
embedding. -/
theorem cellIndex32_eq_cellIndex (x : ℚ) (h : TruncatesInside x) :
    cellIndex32 x = (cellIndex x : Int) := by
  rw [cellIndex32_eq_abs x h]
  unfold cellIndex
  rw [Int.natCast_natAbs]

/-- With no rounding and no overflow of `abs`, the lookup consults the bucket of the exact
embedding. -/
theorem lookupBucket32_exact (Hash : Int → Int → Int → Nat) (self : HashGrid) (pMin P : Point)
    (h : TruncateInside (lookupOffset32 (fun x => x) self pMin P)) :
    lookupBucket32 (fun x => x) Hash self pMin P = lookupBucket Hash self pMin P := by
  obtain ⟨hx, hy, hz⟩ := h
  unfold lookupBucket32 lookupCell32 lookupBucket
  simp only
  rw [cellIndex32_eq_cellIndex _ hx, cellIndex32_eq_cellIndex _ hy,
    cellIndex32_eq_cellIndex _ hz]
  rfl

end lux

namespace lux

open hybridsppm hybridsppm.HashGrid

theorem foldl_related2 (σ τ β : Type) (R : σ → τ → Prop) (f : σ → β → σ) (g : τ → β → τ)
    (xs : List β) (hf : ∀ s t b, b ∈ xs → R s t → R (f s b) (g t b)) :
    ∀ s t, R s t → R (xs.foldl f s) (xs.foldl g t) := by
  induction xs with
  | nil => intro s t h; exact h
  | cons x xs ih =>
    intro s t h
    rw [List.foldl_cons, List.foldl_cons]
    exact ih (fun s t b hb => hf s t b (List.mem_cons_of_mem x hb)) _ _
      (hf s t x (List.mem_cons_self x xs) h)

/-- Where `abs` does not overflow, the 32-bit loop runs over the values of the exact
embedding. -/
theorem intRange_eq_cellRange (lo hi : ℚ) (hlo : TruncatesInside lo) (hhi : TruncatesInside hi) :
    intRange (cellIndex32 lo) (cellIndex32 hi) =
      (cellRange lo hi).map (fun (k : Nat) => (k : Int)) := by
  rw [cellIndex32_eq_cellIndex lo hlo, cellIndex32_eq_cellIndex hi hhi]
  unfold intRange cellRange
  generalize cellIndex lo = a
  generalize cellIndex hi = b
  have e : ((b : Int) + 1 - (a : Int)).toNat = b + 1 - a := by omega
  rw [e, List.range'_eq_map_range, List.map_map]
  apply List.map_congr_left
  intro k _
  simp only [Function.comp]
  omega

/-- With no rounding, and corners whose truncations stay inside the range of `int`, the
single-precision build of a hit point does what the exact embedding does. -/
theorem insertHitPoint32_exact (sqrtf : ℚ → ℚ) (Hash : Int → Int → Int → Nat) (pMin : Point)
    (inv : ℚ) (i : Nat) (hp : hybridsppm.HitPoint) (s : BuildState) (t : Grid × Nat)
    (hmin : TruncateInside (extentMin sqrtf pMin inv hp))
    (hmax : TruncateInside (extentMax sqrtf pMin inv hp))
    (hs : s.grid = t.1 ∧ s.entryCount = t.2) :
    (insertHitPoint32 (fun x => x) sqrtf Hash pMin inv i hp s).grid =
        (insertHitPoint sqrtf Hash pMin inv i hp t).1 ∧
      (insertHitPoint32 (fun x => x) sqrtf Hash pMin inv i hp s).entryCount =
        (insertHitPoint sqrtf Hash pMin inv i hp t).2 := by
  obtain ⟨hx0, hy0, hz0⟩ := hmin
  obtain ⟨hx1, hy1, hz1⟩ := hmax
  unfold insertHitPoint32 insertHitPoint
  simp only [(extent32_exact sqrtf pMin inv hp).1, (extent32_exact sqrtf pMin inv hp).2]
  have ex := intRange_eq_cellRange _ _ hx0 hx1
  have ey := intRange_eq_cellRange _ _ hy0 hy1
  have ez := intRange_eq_cellRange _ _ hz0 hz1
  unfold extentMin extentMax at ex ey ez ⊢
  rw [ex, ey, ez, List.foldl_map]
  refine foldl_related2 BuildState (Grid × Nat) Nat
    (fun s t => s.grid = t.1 ∧ s.entryCount = t.2) _ _ _ ?_ s t hs
  intro s t iz _ hst
  rw [List.foldl_map]
  refine foldl_related2 BuildState (Grid × Nat) Nat
    (fun s t => s.grid = t.1 ∧ s.entryCount = t.2) _ _ _ ?_ s t hst
  intro s t iy _ hst
  rw [List.foldl_map]
  refine foldl_related2 BuildState (Grid × Nat) Nat
    (fun s t => s.grid = t.1 ∧ s.entryCount = t.2) _ _ _ ?_ s t hst
  intro s t ix _ hst
  unfold pushFront32 pushFront
  exact ⟨by simp only [hst.1], by simp only [hst.2]⟩

/-- With no rounding, and corners whose truncations stay inside the range of `int`, the
single-precision build is the build of the exact embedding: same grid, same entry count. -/
theorem RefreshMutex32_exact (sqrtf : ℚ → ℚ) (Hash : Int → Int → Int → Nat) (self : HashGrid)
    (hps : hybridsppm.HitPoints)
    (h : ∀ hp ∈ surfaceHitPoints hps,
      TruncateInside (extentMin sqrtf hps.bbox.pMin (1 / (sqrtf hps.maxPhotonRadius2 * 2)) hp) ∧
      TruncateInside
        (extentMax sqrtf hps.bbox.pMin (1 / (sqrtf hps.maxPhotonRadius2 * 2)) hp)) :
    (RefreshMutex32 (fun x => x) sqrtf Hash self hps).1 = (RefreshMutex sqrtf Hash self hps).1 ∧
    (RefreshMutex32 (fun x => x) sqrtf Hash self hps).2.entryCount =
      (RefreshMutex sqrtf Hash self hps).2 := by
  have hfold := foldl_related2 BuildState (Grid × Nat) Nat
    (fun s t => s.grid = t.1 ∧ s.entryCount = t.2)
    (visitHitPoint32 (fun x => x) sqrtf Hash hps (1 / (sqrtf hps.maxPhotonRadius2 * 2)))
    (visitHitPoint sqrtf Hash hps (1 / (sqrtf hps.maxPhotonRadius2 * 2)))
    (List.range (hps.hitPoints.length % UINT_MOD))
    (by
      intro s t i _ hst
      unfold visitHitPoint32 visitHitPoint
      cases hget : hps.hitPoints[i]? with
      | none => exact hst
      | some hp =>
        simp only
        by_cases hsurf : hp.type = HitPointType.SURFACE
        · rw [if_pos hsurf, if_pos hsurf]
          have hmem : hp ∈ surfaceHitPoints hps := by
            unfold hybridsppm.surfaceHitPoints
            rw [List.mem_filter]
            exact ⟨List.getElem?_mem hget, by simp [hsurf]⟩
          exact insertHitPoint32_exact sqrtf Hash _ _ i hp s t (h hp hmem).1 (h hp hmem).2 hst
        · rw [if_neg hsurf, if_neg hsurf]
          exact hst)
    { grid := clearGrid (hps.hitPoints.length % UINT_MOD) self.grid, entryCount := 0,
      hashCalls := [] }
    (clearGrid (hps.hitPoints.length % UINT_MOD) self.grid, 0) ⟨rfl, rfl⟩
  unfold RefreshMutex32 RefreshMutex invCellSize32
  simp only
  exact ⟨by rw [hfold.1], hfold.2⟩

end lux

/-! ## C27: the number of cells per hit point -/

namespace lux

open hybridsppm hybridsppm.HashGrid

end lux

namespace lux

open hybridsppm hybridsppm.HashGrid

end lux

namespace lux

open hybridsppm hybridsppm.HashGrid

end lux
